import Mathlib

/-! # ZwInt: the serial-line Z-Wave interceptor of `zwint.c`

A shallow embedding of the interception engine of `src/zwint/zwint.c`:
the frame scanner and dispatcher (`process_zwave`), the response-template
interpreter (`addZwaveResponseData` and the loop inside `process_zwave`), the
rule list (`wwint_monitor_intercept`, `delete_from_monitor_list`) and the HTTP
notification queue (`send_http`, `DequeueHTTPData`).

Modelling conventions.
* Bytes (`unsigned char`) are natural numbers; a theorem that needs them to be
  below 256 says so.
* The circular doubly linked rule list with its sentinel is a `List monitor`,
  head first.
* Pointers into `response_buff` are offsets into it.
* `write` on the two serial endpoints is recorded, call by call, in
  `Globals.serial`; `write_http_data` is recorded in `Globals.http_sink`.
* What the code takes from outside is a parameter: the POSIX `regexec` of a
  compiled pattern is the field `regex_t.regexec`; the text that `%f` prints
  for `now_fp_seconds()` and whether a write on the HTTP socket succeeds come
  from `Env`.
-/

namespace ZwInt

/-! ## Data model -/

/-- The constant `MAX_ZWAVE_BUFF_SIZE`. -/
def MAX_ZWAVE_BUFF_SIZE : Nat := 128

/-- The constant `MAX_RESPONSE_PARTS`. -/
def MAX_RESPONSE_PARTS : Nat := 3

/-- One slot of the `regmatch_t matches[10]` array: start and end offset of a
group in the matched text, `rm_so = -1` when the group took no part. -/
structure regmatch_t where
  rm_so : Int
  rm_eo : Int
deriving DecidableEq, Repr

/-- A compiled `regex_t`, seen only through `regexec(regex, text, 10, matches, 0)`:
`none` when the text does not match, otherwise the match slots (slot `j` is
read for `j < 10` only). -/
structure regex_t where
  regexec : List Char → Option (Nat → regmatch_t)

/-- The `struct monitor` without its list links. `key` and `response` are the
stored C strings without their terminator; `response = none` is the `NULL`
pointer. `timeout` is the absolute deadline in ms, 0 for none. -/
structure monitor where
  device_num : Int
  key : List Char
  intercept : Bool
  oneshot : Bool
  has_arm_pattern : Bool
  armed : Bool
  forward : Bool
  arm_pattern : regex_t
  pattern : regex_t
  response : Option (List Char)
  timeout : Int

/-- The `struct zwave_state`: one per direction. The `response_*pos` pointers
are offsets into `response_buff`. -/
structure zwave_state where
  packet_buff : List Nat
  state : Nat
  checksum : Nat
  response_buff : List Nat
  response_zstate : Nat
  response_numParts : Nat
  response_partNum : Nat
  response_zpos : Nat
  response_lenpos : Nat
  response_partpos : List Nat
  response_zstart : Nat
  response_checksum : Nat
deriving DecidableEq, Repr

/-- The zero-initialised static `zwave_state` (null pointers read as offset 0). -/
def zwave_state.init : zwave_state where
  packet_buff := List.replicate MAX_ZWAVE_BUFF_SIZE 0
  state := 0
  checksum := 0
  response_buff := List.replicate MAX_ZWAVE_BUFF_SIZE 0
  response_zstate := 0
  response_numParts := 0
  response_partNum := 0
  response_zpos := 0
  response_lenpos := 0
  response_partpos := List.replicate (MAX_RESPONSE_PARTS + 1) 0
  response_zstart := 0
  response_checksum := 0

/-- The two serial endpoints: `mon_fds[1]` (the host side of the socket pair)
and `new_commport_fd` (the real device). -/
inductive Endpoint where
  | host
  | controller
deriving DecidableEq, Repr

/-- What the engine reads from its surroundings: the text `%f` prints for the
`k`-th call of `now_fp_seconds()`, and whether the `k`-th call of
`write_http_data` returns a positive length. -/
structure Env where
  now_fp_seconds : Nat → List Char
  http_write : Nat → Bool

/-- The file-scope variables of `zwint.c` that the engine works on, together
with the record of what it wrote:
`requests` is the chain `nextRequest … lastRequest`;
`serial` lists the `write` calls on the two endpoints in order;
`http_sink` lists the `write_http_data` calls in order, each with whether it
returned a positive length; `clock_reads` counts the calls of
`now_fp_seconds()`; `commport_name` is the stored device path without its
terminator. -/
structure Globals where
  monitors : List monitor
  registered : Int
  commport_name : List Char
  http_active : Bool
  http_holdoff : Bool
  requests : List (List Char)
  serial : List (Endpoint × List Nat)
  http_sink : List (List Char × Bool)
  clock_reads : Nat

/-- The state right after `luaopen_zwint`: empty rule list, nothing queued. -/
def Globals.init : Globals where
  monitors := []
  registered := 0
  commport_name := []
  http_active := false
  http_holdoff := false
  requests := []
  serial := []
  http_sink := []
  clock_reads := 0

/-! ## Notification queue -/

/-- `DequeueHTTPData`: when a request is queued and neither gate is set, hand
the head to `write_http_data`, set `http_active` when that wrote something, and
drop the head from the queue either way. -/
def DequeueHTTPData (E : Env) (g : Globals) : Globals :=
  match g.requests with
  | [] => g
  | req :: rest =>
    if !g.http_active && !g.http_holdoff then
      let ok := E.http_write g.http_sink.length
      { g with
        http_sink := g.http_sink ++ [(req, ok)]
        http_active := if ok then true else g.http_active
        requests := rest }
    else g

/-- `add_url_string`: append `string` to the request text, a space as `%20`,
for as long as the text is shorter than `http_size - 3`. -/
def add_url_string (http_size : Nat) : List Char → List Char → List Char
  | http, [] => http
  | http, e :: rest =>
    if http.length < http_size - 3 then
      add_url_string http_size (http ++ (if e = ' ' then ['%', '2', '0'] else [e])) rest
    else http

/-- The `for (j = start; j <= end; ++j)` loop of `send_http` over the capture
slots `j, j+1, …` (`n` of them). -/
def add_captures (hexbuff : List Char) (pmatch : Nat → regmatch_t) :
    Nat → Nat → List Char → List Char
  | _, 0, http => http
  | j, n + 1, http =>
    if (pmatch j).rm_so ≥ 0 then
      add_captures hexbuff pmatch (j + 1) n
        (add_url_string 1000 (http ++ "&C".toList ++ (Nat.toDigits 10 j) ++ ['='])
          ((hexbuff.drop (pmatch j).rm_so.toNat).take
            ((pmatch j).rm_eo - (pmatch j).rm_so).toNat))
    else add_captures hexbuff pmatch (j + 1) n http

/-- The text of the request that `send_http` builds in `http[1000]`, for the
case that it fits the buffer (`snprintf` is an append). `time` is what `%f`
prints for `now_fp_seconds()`. -/
def http_text (m : monitor) (command : List Char) (time : List Char) (hexbuff : List Char)
    (pmatch : Option (Nat → regmatch_t)) (error_message : Option (List Char)) : List Char :=
  let h0 := "GET /data_request?id=action&DeviceNum=".toList ++ (toString m.device_num).toList
    ++ "&serviceId=urn:gengen_mcv-org:serviceId:ZWaveMonitor1&action=".toList ++ command
    ++ "&key=".toList ++ m.key ++ "&time=".toList ++ time
  let h1 := match pmatch with
    | none => h0
    | some ms =>
      if (ms 1).rm_so < 0 then add_captures hexbuff ms 0 1 h0
      else add_captures hexbuff ms 1 9 h0
  let h2 := match error_message with
    | none => h1
    | some e => add_url_string 1000 (h1 ++ "&ErrorMessage=".toList) e
  h2 ++ " HTTP/1.1\r\nHost: 127.0.0.1\r\n\r\n".toList

/-- `send_http`: nothing at all for a key that starts with `*`; otherwise build
the request, append it to the queue and call `DequeueHTTPData`. -/
def send_http (E : Env) (m : monitor) (command : List Char) (hexbuff : List Char)
    (pmatch : Option (Nat → regmatch_t)) (error_message : Option (List Char))
    (g : Globals) : Globals :=
  if m.key.head? = some '*' then g
  else
    let req := http_text m command (E.now_fp_seconds g.clock_reads) hexbuff pmatch error_message
    DequeueHTTPData E
      { g with requests := g.requests ++ [req], clock_reads := g.clock_reads + 1 }

/-- `monitor_error`. -/
def monitor_error (E : Env) (m : monitor) (error_message : List Char) (g : Globals) : Globals :=
  send_http E m "Error".toList [] none (some error_message) g

/-- The HTTP-readable branch of `zwint_threadFunction`: the socket is drained
and closed, `http_active` is cleared and the queue is pumped. -/
def http_readable (E : Env) (g : Globals) : Globals :=
  DequeueHTTPData E { g with http_active := false }

/-! ## Response synthesizer -/

/-- The body of the `for` loop of `addZwaveResponseData` for one byte `c`:
store it at `response_zpos` and advance the framing state kept over the
synthesized output. -/
def addZwaveResponseByte (s : zwave_state) (c : Nat) : zwave_state :=
  let s1 := { s with
    response_buff := s.response_buff.set s.response_zpos c
    response_zpos := s.response_zpos + 1 }
  if s.response_zstate = 0 then
    if c = 1 then
      { s1 with
        response_zstate := 1
        response_zstart := s1.response_zpos - 1
        response_checksum := 0xFF
        response_lenpos := s1.response_zpos }
    else s1
  else
    { s1 with
      response_zstate := s.response_zstate + 1
      response_checksum := s.response_checksum ^^^ c }

/-- `addZwaveResponseData(m, s, data, len)`: the result is the new scanner
state, the new globals and the returned error flag. `data` holds the bytes
readable at the `data` pointer, of which the first `len` are appended. -/
def addZwaveResponseData (E : Env) (m : monitor) (s : zwave_state) (g : Globals)
    (data : List Nat) (len : Int) : zwave_state × Globals × Bool :=
  if (s.response_zpos : Int) + len > (MAX_ZWAVE_BUFF_SIZE : Int) then
    (s, monitor_error E m "Response too long".toList g, true)
  else
    ((data.take len.toNat).foldl addZwaveResponseByte s, g, false)

/-- The variables of the template loop inside `process_zwave`. -/
structure ResponseLoop where
  s : zwave_state
  g : Globals
  rstate : Nat
  byte : Nat
  error : Bool

/-- The `switch(rstate)` of the template loop, entered with the value `val` of
the digit just read (not read by the cases entered without a digit). -/
def response_switch (E : Env) (m : monitor) (pmatch : Nat → regmatch_t)
    (st : ResponseLoop) (val : Nat) : ResponseLoop :=
  match st.rstate with
  | 0 => { st with byte := val, rstate := 1 }
  | 1 =>
    let byte := ((st.byte <<< 4) + val) % 256
    let r := addZwaveResponseData E m st.s st.g [byte] 1
    { st with byte := byte, s := r.1, g := r.2.1, error := r.2.2, rstate := 0 }
  | 2 =>
    let r := addZwaveResponseData E m st.s st.g [st.byte] 1
    { st with s := r.1, g := r.2.1, error := r.2.2, rstate := 0 }
  | 3 =>
    if (pmatch val).rm_so < 0 then
      { st with g := monitor_error E m "Unmatched replacement".toList st.g,
                error := true, rstate := 0 }
    else
      let r := addZwaveResponseData E m st.s st.g
        (st.s.packet_buff.drop ((pmatch val).rm_so / 3).toNat)
        ((2 + (pmatch val).rm_eo - (pmatch val).rm_so) / 3)
      { st with s := r.1, g := r.2.1, error := r.2.2, rstate := 0 }
  | 5 =>
    let r : zwave_state × Globals × Bool :=
      if st.s.response_zstate < 2 then (st.s, st.g, true)
      else
        let newLen := st.s.response_zstate - 1
        let cs := (st.s.response_checksum ^^^
          (newLen ^^^ st.s.response_buff.getD st.s.response_lenpos 0)) % 256
        let s1 := { st.s with
          response_checksum := cs
          response_buff := st.s.response_buff.set st.s.response_lenpos (newLen % 256) }
        addZwaveResponseData E m s1 st.g [cs] 1
    let numParts := r.1.response_numParts + 1
    let s2 := { r.1 with
      response_numParts := numParts
      response_partpos := r.1.response_partpos.set numParts r.1.response_zpos
      response_zstart := r.1.response_zpos
      response_zstate := 0 }
    { st with s := s2, g := r.2.1,
              error := r.2.2 || decide (numParts > MAX_RESPONSE_PARTS), rstate := 0 }
  | _ => st

/-- One turn of `while ((c = *r++) && !error)` for the template character `c`. -/
def response_char (E : Env) (m : monitor) (pmatch : Nat → regmatch_t)
    (st : ResponseLoop) (c : Char) : ResponseLoop :=
  if '0' ≤ c ∧ c ≤ '9' ∧ st.rstate < 4 then
    response_switch E m pmatch st (c.toNat - '0'.toNat)
  else if 'a' ≤ c ∧ c ≤ 'f' ∧ st.rstate ≤ 1 then
    response_switch E m pmatch st (c.toNat - 'a'.toNat + 10)
  else if 'A' ≤ c ∧ c ≤ 'F' ∧ st.rstate ≤ 1 then
    response_switch E m pmatch st (c.toNat - 'A'.toNat + 10)
  else if c = ' ' ∧ st.rstate = 0 then st
  else if c = ' ' ∧ st.rstate = 1 then
    response_switch E m pmatch { st with rstate := 2 } 0
  else if c = Char.ofNat 92 ∧ st.rstate = 0 then { st with rstate := 3 }
  else if (c = 'X' ∨ c = 'x') ∧ (st.rstate = 0 ∨ st.rstate = 4) then
    if st.rstate = 0 then { st with rstate := 4 }
    else response_switch E m pmatch { st with rstate := 5 } 0
  else
    { st with g := monitor_error E m "Response syntax error".toList st.g, error := true }

/-- The template loop `while ((c = *r++) && !error)` over the characters of
the response string. -/
def response_loop (E : Env) (m : monitor) (pmatch : Nat → regmatch_t) :
    List Char → ResponseLoop → ResponseLoop
  | [], st => st
  | c :: r, st =>
    if st.error then st else response_loop E m pmatch r (response_char E m pmatch st c)

/-- The interpretation of the response template `r` of a firing rule, from the
resets before the loop up to and including the flush `if (!error && rstate == 1)`
of a trailing single digit. -/
def synthesize (E : Env) (m : monitor) (pmatch : Nat → regmatch_t) (r : List Char)
    (s : zwave_state) (g : Globals) : ResponseLoop :=
  let s0 := { s with
    response_zpos := 0
    response_numParts := 0
    response_partNum := 0
    response_partpos := s.response_partpos.set 0 0
    response_zstate := 0 }
  let st := response_loop E m pmatch r
    { s := s0, g := g, rstate := 0, byte := 0, error := false }
  if !st.error && st.rstate = 1 then
    let a := addZwaveResponseData E m st.s st.g [st.byte] 1
    { st with s := a.1, g := a.2.1, error := a.2.2 }
  else st

/-- The `if (!error)` block after a template was interpreted without error:
close a trailing part, write the first part to `fd` and reset `response_partNum`. -/
def respond (fd : Endpoint) (s : zwave_state) (g : Globals) : zwave_state × Globals :=
  let s1 :=
    if s.response_partpos.getD s.response_numParts 0 < s.response_zpos
        ∧ s.response_numParts < MAX_RESPONSE_PARTS then
      { s with
        response_numParts := s.response_numParts + 1
        response_partpos := s.response_partpos.set (s.response_numParts + 1) s.response_zpos }
    else s
  let rlen := s1.response_partpos.getD 1 0
  ({ s1 with response_partNum := 0 },
   { g with serial := g.serial ++ [(fd, s1.response_buff.take rlen)] })

/-! ## Frame scanner and dispatcher -/

/-- The table `hex` of `process_zwave`. -/
def hex : List Char := "0123456789ABCDEF".toList

/-- The loop that fills `hexbuff`: bytes `i, i+1, …` (`n` of them) of the
packet buffer, two uppercase hex digits each, a space before every byte but
the one at index 0. -/
def hexbuff_loop (packet_buff : List Nat) : Nat → Nat → List Char
  | _, 0 => []
  | i, n + 1 =>
    (if i > 0 then [' '] else [])
      ++ [hex.getD (packet_buff.getD i 0 >>> 4) '?', hex.getD (packet_buff.getD i 0 &&& 15) '?']
      ++ hexbuff_loop packet_buff (i + 1) n

/-- The hex rendering `hexbuff` of the first `len` bytes of the packet buffer. -/
def hexbuff (packet_buff : List Nat) (len : Nat) : List Char :=
  hexbuff_loop packet_buff 0 len

/-- The rule scan `while (m != &dummyMonitor)` of `process_zwave` from the rule
at the head of the given list on. The result is the scanned rules as they are
left in the list, the scanner state, the globals, and `intercepted`. -/
def scan_monitors (E : Env) (input_fd output_fd : Endpoint) (send : Bool)
    (hexbuff : List Char) :
    List monitor → zwave_state → Globals → List monitor × zwave_state × Globals × Bool
  | [], s, g => ([], s, g, false)
  | m :: rest, s, g =>
    if Bool.xor (Bool.xor m.intercept send) m.armed then
      match (if m.armed then m.pattern else m.arm_pattern).regexec hexbuff with
      | none =>
        let r := scan_monitors E input_fd output_fd send hexbuff rest s g
        (m :: r.1, r.2)
      | some pmatch =>
        if !m.armed then
          let r := scan_monitors E input_fd output_fd send hexbuff rest s g
          ({ m with armed := true } :: r.1, r.2)
        else
          let syn : zwave_state × Globals × Bool × Bool :=
            match m.response with
            | none => (s, g, false, false)
            | some resp =>
              let st := synthesize E m pmatch resp s g
              if st.error then (st.s, st.g, false, true)
              else
                let w := respond (if m.forward then output_fd else input_fd) st.s st.g
                (w.1, w.2, true, false)
          if syn.2.2.2 then (m :: rest, syn.1, syn.2.1, false)
          else
            let g1 := if send && decide (syn.1.response_numParts > 0)
              then { syn.2.1 with http_holdoff := true } else syn.2.1
            let g2 := send_http E m (if send then "Intercept".toList else "Monitor".toList)
              hexbuff (some pmatch) none g1
            let m1 := if m.has_arm_pattern then { m with armed := false } else m
            let kept := if m.oneshot then [] else [m1]
            if syn.2.2.1 then (kept ++ rest, syn.1, g2, true)
            else
              let r := scan_monitors E input_fd output_fd send hexbuff rest syn.1 g2
              (kept ++ r.1, r.2)
    else
      let r := scan_monitors E input_fd output_fd send hexbuff rest s g
      (m :: r.1, r.2)

/-- The variables of the byte loop of `process_zwave`: the scanner state, the
globals, and the bytes of the chunk from `startp` up to the read position `p`. -/
structure ByteLoop where
  s : zwave_state
  g : Globals
  pending : List Nat

/-- The branch of `process_zwave` for a frame whose last byte has just been
stored: dispatch on a good checksum, pass-through on a bad one. (A frame with
length byte 127 has 129 bytes, one more than `packet_buff` holds; the model
is exact for length bytes up to 126.) -/
def frame_complete (E : Env) (input_fd output_fd : Endpoint) (send : Bool)
    (s : zwave_state) (g : Globals) (len : Nat) : zwave_state × Globals :=
  if s.checksum = 0 then
    let r := scan_monitors E input_fd output_fd send (hexbuff s.packet_buff len) g.monitors s g
    let g1 := { r.2.2.1 with monitors := r.1 }
    if !r.2.2.2 then
      (r.2.1, { g1 with serial := g1.serial ++ [(output_fd, r.2.1.packet_buff.take len)] })
    else (r.2.1, g1)
  else
    (s, { g with serial := g.serial ++ [(output_fd, s.packet_buff.take len)] })

/-- The framing part of one turn of the byte loop (from `if (s->state == 0)`
on) for the byte `c`; `pending` already ends with `c`. -/
def frame_byte (E : Env) (input_fd output_fd : Endpoint) (send : Bool)
    (l : ByteLoop) (c : Nat) : ByteLoop :=
  if l.s.state = 0 then
    if c = 1 then
      let s1 := { l.s with state := 1, packet_buff := l.s.packet_buff.set 0 c, checksum := 0xff }
      if l.pending.length > 1 then
        { s := s1
          g := { l.g with serial := l.g.serial ++ [(output_fd, l.pending.dropLast)] }
          pending := [c] }
      else { l with s := s1 }
    else l
  else if l.s.state = 1 then
    if c ≥ MAX_ZWAVE_BUFF_SIZE then { l with s := { l.s with state := 0 } }
    else
      { l with s := { l.s with
          state := 2
          packet_buff := l.s.packet_buff.set 1 c
          checksum := l.s.checksum ^^^ c } }
  else
    let s1 := { l.s with
      packet_buff := l.s.packet_buff.set l.s.state c
      checksum := l.s.checksum ^^^ c }
    let len := s1.packet_buff.getD 1 0 + 2
    if s1.state = len - 1 then
      let r := frame_complete E input_fd output_fd send s1 l.g len
      { s := { r.1 with state := 0 }, g := r.2, pending := [] }
    else { l with s := { s1 with state := s1.state + 1 } }

/-- One turn of `while (p < endp)` for the byte `c`: the ACK accounting of the
send direction, then the framing. -/
def process_byte (E : Env) (input_fd output_fd : Endpoint) (send : Bool)
    (l : ByteLoop) (c : Nat) : ByteLoop :=
  let l0 := { l with pending := l.pending ++ [c] }
  if send ∧ l.s.response_partNum < l.s.response_numParts ∧ l.s.state = 0 then
    if c = 6 then
      let partNum := l.s.response_partNum + 1
      let s1 := { l.s with response_partNum := partNum }
      if partNum < s1.response_numParts then
        let start := s1.response_partpos.getD partNum 0
        let rlen := s1.response_partpos.getD (partNum + 1) 0 - start
        { s := s1
          g := { l.g with serial := l.g.serial ++
                  [(input_fd, (s1.response_buff.drop start).take rlen)] }
          pending := [] }
      else
        { s := s1, g := DequeueHTTPData E { l.g with http_holdoff := false }, pending := [] }
    else
      frame_byte E input_fd output_fd send
        { l0 with s := { l.s with response_numParts := 0 } } c
  else frame_byte E input_fd output_fd send l0 c

/-- `process_zwave(input_fd, output_fd, send, s)` on the chunk `raw` that the
`read` returned: the byte loop, then the write of the trailing bytes when the
scanner is idle. -/
def process_zwave (E : Env) (input_fd output_fd : Endpoint) (send : Bool)
    (s : zwave_state) (g : Globals) (raw : List Nat) : zwave_state × Globals :=
  let l := raw.foldl (process_byte E input_fd output_fd send) { s := s, g := g, pending := [] }
  if l.s.state = 0 ∧ l.pending ≠ [] then
    (l.s, { l.g with serial := l.g.serial ++ [(output_fd, l.pending)] })
  else (l.s, l.g)

/-- The host-readable branch of `zwint_threadFunction`:
`process_zwave(mon_fds[1], new_commport_fd, 1, &send_state)`. -/
def host_readable (E : Env) (s : zwave_state) (g : Globals) (raw : List Nat) :
    zwave_state × Globals :=
  process_zwave E Endpoint.host Endpoint.controller true s g raw

/-- The controller-readable branch of `zwint_threadFunction`:
`process_zwave(new_commport_fd, mon_fds[1], 0, &receive_state)`. -/
def controller_readable (E : Env) (s : zwave_state) (g : Globals) (raw : List Nat) :
    zwave_state × Globals :=
  process_zwave E Endpoint.controller Endpoint.host false s g raw

/-! ## Rule list -/

/-- Wrap-around of a `long long` to the `int` that `compareTimeout` returns. -/
def toInt32 (x : Int) : Int := (x + 2 ^ 31) % 2 ^ 32 - 2 ^ 31

/-- `compareTimeout(t1, t2)`: the `long long` value of the conditional
expression, returned as `int`. -/
def compareTimeout (t1 t2 : Int) : Int :=
  toInt32 (if t1 ≠ 0 then (if t2 ≠ 0 then t1 - t2 else -1) else (if t2 ≠ 0 then 1 else 0))

/-- The insertion loop of `wwint_monitor_intercept`: walk from the head while
the new rule compares greater, stop at the sentinel, link the rule in before
the rule reached. -/
def insert_monitor (m : monitor) : List monitor → List monitor
  | [] => [m]
  | m2 :: rest =>
    if compareTimeout m.timeout m2.timeout > 0 then m2 :: insert_monitor m rest
    else m :: m2 :: rest

/-- `wwint_monitor_intercept` after its arguments were read and the patterns
compiled: `arm_pattern = none` for a missing or nil argument, `response` the
response string (empty when missing), `now` the value of `now()`. -/
def wwint_monitor_intercept (now : Int) (is_intercept : Bool) (device_num : Int)
    (key : List Char) (pattern : regex_t) (oneshot : Bool) (timeout : Int)
    (arm_pattern : Option regex_t) (response : List Char) (forward : Bool)
    (g : Globals) : Globals :=
  let m : monitor :=
    { device_num := device_num
      key := key
      intercept := is_intercept
      oneshot := oneshot
      has_arm_pattern := arm_pattern.isSome
      armed := !arm_pattern.isSome
      forward := forward
      arm_pattern := arm_pattern.getD { regexec := fun _ => none }
      pattern := pattern
      response := if response.length > 0 then some response else none
      timeout := if timeout ≠ 0 then now + timeout else 0 }
  { g with monitors := insert_monitor m g.monitors }

/-! ## Events on the notification queue -/

/-- The operations that touch the notification queue and its gates: a call of
`send_http`, a call of `DequeueHTTPData`, the HTTP socket becoming readable,
and the dispatcher assigning `http_holdoff`. -/
inductive HttpEvent where
  | send (m : monitor) (command hexbuff : List Char) (pmatch : Option (Nat → regmatch_t))
      (error_message : Option (List Char))
  | dequeue
  | readable
  | holdoff (b : Bool)

/-- The effect of one queue event. -/
def http_step (E : Env) (g : Globals) : HttpEvent → Globals
  | HttpEvent.send m command hexbuff pmatch error_message =>
    send_http E m command hexbuff pmatch error_message g
  | HttpEvent.dequeue => DequeueHTTPData E g
  | HttpEvent.readable => http_readable E g
  | HttpEvent.holdoff b => { g with http_holdoff := b }

/-- The effect of a sequence of queue events. -/
def http_run (E : Env) (g : Globals) (evs : List HttpEvent) : Globals :=
  evs.foldl (http_step E) g

/-- The requests that the `send_http` calls among the events append to the
queue, in order, when the run starts with `clock` clock reads done. -/
def enqueued (E : Env) : Nat → List HttpEvent → List (List Char)
  | _, [] => []
  | clock, HttpEvent.send m command hexbuff pmatch error_message :: evs =>
    if m.key.head? = some '*' then enqueued E clock evs
    else http_text m command (E.now_fp_seconds clock) hexbuff pmatch error_message
      :: enqueued E (clock + 1) evs
  | clock, _ :: evs => enqueued E clock evs

/-! ## Frames -/

/-- The running checksum of the scanner over the bytes after SOF. -/
def xor_sum (bytes : List Nat) : Nat := bytes.foldl (fun a b => a ^^^ b) 0xFF

/-- A well-formed frame as the scanner delimits it: SOF, a length byte `L`
below 128, then `L` more bytes; all of them bytes. -/
def is_frame (f : List Nat) : Prop :=
  ∃ L body, f = 1 :: L :: body ∧ body.length = L ∧ L < 128 ∧ ∀ b ∈ f, b < 256

/-- A valid frame: well formed, and the running checksum over everything after
SOF, the checksum byte included, is 0. -/
def valid_frame (f : List Nat) : Prop :=
  is_frame f ∧ xor_sum f.tail = 0

/-- The hex rendering of a frame, as the scanner builds it from the buffer. -/
def hex_of (f : List Nat) : List Char := hexbuff f f.length

/-! ## Auxiliary definitions used in the statements -/

/-- Storing the bytes `cs` at the indices `k, k+1, …` of a buffer. -/
def store_bytes : List Nat → Nat → List Nat → List Nat
  | buf, _, [] => buf
  | buf, k, c :: cs => store_bytes (buf.set k c) (k + 1) cs

/-- The scanner state at the moment the last byte of the frame `f` has been
stored, for a scanner that was idle in state `s` before the frame: the frame
is in the packet buffer, `state` is the index of its last byte, `checksum` is
the running checksum, and a pending ACK expectation of the send direction was
broken by the SOF byte. -/
def at_checksum (send : Bool) (s : zwave_state) (f : List Nat) : zwave_state :=
  { s with
    response_numParts :=
      if send ∧ s.response_partNum < s.response_numParts then 0 else s.response_numParts
    packet_buff := store_bytes s.packet_buff 0 f
    state := f.length - 1
    checksum := xor_sum f.tail }

/-- The rule as the scan leaves it when the frame arms it: an unarmed rule of
the other direction whose arm pattern matches becomes armed. -/
def arm_rule (send : Bool) (hx : List Char) (m : monitor) : monitor :=
  if !m.armed && (m.intercept != send) && (m.arm_pattern.regexec hx).isSome then
    { m with armed := true }
  else m

/-- The rule as a successful firing leaves it in the list: gone when oneshot,
disarmed when it has an arm pattern, unchanged otherwise. -/
def after_fire (m : monitor) : List monitor :=
  if m.oneshot then [] else [if m.has_arm_pattern then { m with armed := false } else m]

/-- The globals after the notification step of a firing: `http_holdoff` is set
when the frame came from the host and `response_numParts` is positive, then
`send_http` is called for the rule. -/
def notify_fire (E : Env) (send : Bool) (hx : List Char) (m : monitor)
    (pm : Nat → regmatch_t) (s : zwave_state) (g : Globals) : Globals :=
  send_http E m (if send then "Intercept".toList else "Monitor".toList) hx (some pm) none
    (if send && decide (s.response_numParts > 0) then { g with http_holdoff := true } else g)

/-- Every request that entered the queue so far, in order: those handed to
`write_http_data`, then those still queued. -/
def http_history (g : Globals) : List (List Char) :=
  g.http_sink.map Prod.fst ++ g.requests

/-- Two states of the template loop that agree on everything but the globals. -/
def same_synthesis (st st0 : ResponseLoop) : Prop :=
  st.s = st0.s ∧ st.rstate = st0.rstate ∧ st.byte = st0.byte ∧ st.error = st0.error

/-- No rule of the list fires with a response on the frame rendered as `hx`:
whichever of them is armed, of the direction `send` and matched by its pattern
has no response. -/
def observers (send : Bool) (hx : List Char) (ms : List monitor) : Prop :=
  ∀ p ∈ ms, p.armed = true → p.intercept = send → (p.pattern.regexec hx).isSome = true →
    p.response = none

/-- Part `k` (counted from 0) of the synthesized response: the bytes of
`response_buff` from `response_partpos[k]` up to `response_partpos[k+1]`. -/
def response_part (s : zwave_state) (k : Nat) : List Nat :=
  (s.response_buff.drop (s.response_partpos.getD k 0)).take
    (s.response_partpos.getD (k + 1) 0 - s.response_partpos.getD k 0)

/-- Whether `text` starts with the literal `lit`, a `.` in `lit` standing for
any character. -/
def literal_match : List Char → List Char → Bool
  | [], _ => true
  | _ :: _, [] => false
  | p :: ps, t :: ts => (p == '.' || p == t) && literal_match ps ts

/-- The match slots of a match of the first `n` characters without groups. -/
def whole_match (n : Nat) : Nat → regmatch_t :=
  fun j => if j = 0 then { rm_so := 0, rm_eo := n } else { rm_so := -1, rm_eo := -1 }

/-- A stand-in for a compiled pattern `^lit` where `lit` is made of literal
characters and `.`: what `regexec` reports for it. -/
def anchored (lit : List Char) : regex_t where
  regexec := fun text => if literal_match lit text then some (whole_match lit.length) else none

/-- A pattern that matches nothing, for the unused `arm_pattern` field. -/
def no_pattern : regex_t where
  regexec := fun _ => none

/-- An environment in which every write on the HTTP socket succeeds. -/
def env_ok : Env where
  now_fp_seconds := fun _ => "0.000000".toList
  http_write := fun _ => true

/-- The rule of scenario S6: a forwarding monitor rule with response
`01 03 00 02 FE`. -/
def s6_rule : monitor where
  device_num := 5
  key := "k6".toList
  intercept := false
  oneshot := false
  has_arm_pattern := false
  armed := true
  forward := true
  arm_pattern := no_pattern
  pattern := anchored "01 .. 00 04".toList
  response := some "01 03 00 02 FE".toList
  timeout := 0

/-- An intercept rule that answers every host frame of function `0x13` with
the single byte `06`; oneshot. -/
def ack_rule : monitor where
  device_num := 5
  key := "k9".toList
  intercept := true
  oneshot := true
  has_arm_pattern := false
  armed := true
  forward := false
  arm_pattern := no_pattern
  pattern := anchored "01 .. 00 13".toList
  response := some "06".toList
  timeout := 0

/-- An intercept rule without response that observes every host frame of
function `0x02`. -/
def observer_rule : monitor where
  device_num := 5
  key := "k2".toList
  intercept := true
  oneshot := false
  has_arm_pattern := false
  armed := true
  forward := false
  arm_pattern := no_pattern
  pattern := anchored "01 .. 00 02".toList
  response := none
  timeout := 0

/-- The engine after the host wrote the valid frame `01 03 00 13 EF` with the
rules `ack_rule`, `observer_rule` registered: `ack_rule` has fired. -/
def after_ack_rule_fired : zwave_state × Globals :=
  host_readable env_ok zwave_state.init
    { Globals.init with monitors := [ack_rule, observer_rule] } [1, 3, 0, 0x13, 0xEF]

/-- An intercept rule whose response has two parts: an ACK followed by one
synthesized frame, then a second synthesized frame. -/
def two_part_rule : monitor where
  device_num := 5
  key := "k8".toList
  intercept := true
  oneshot := false
  has_arm_pattern := false
  armed := true
  forward := false
  arm_pattern := no_pattern
  pattern := anchored "01 .. 00 13".toList
  response := some "06 01 00 01 13 01 XX 01 00 00 02 XX".toList
  timeout := 0

/-- The rule of scenario S5: an intercept rule without response that is armed
by a controller frame matching `^01 .. 00 41` and then fires on a host frame
matching `^01 .. 01 41`. -/
def s5_rule : monitor where
  device_num := 5
  key := "k5".toList
  intercept := true
  oneshot := false
  has_arm_pattern := true
  armed := false
  forward := false
  arm_pattern := anchored "01 .. 00 41".toList
  pattern := anchored "01 .. 01 41".toList
  response := none
  timeout := 0

/-- The rule with its `armed` flag cleared: what identifies a rule apart from
its arm state. -/
def disarmed (m : monitor) : monitor := { m with armed := false }

/-- The bytes of a buffer from index `a` up to index `b`. -/
def slice (l : List Nat) (a b : Nat) : List Nat := (l.drop a).take (b - a)

/-- The invariant of the framing state that the synthesizer keeps over its
own output, with `p = response_partpos[response_numParts]` the start of the
part being written: the written bytes are bytes; while no SOF was seen in the
part (`response_zstate = 0`) it holds no byte 1; after that `response_zstart`
is the first byte 1 of the part, `response_lenpos` the index after it,
`response_zstate` the number of bytes from it on and `response_checksum` the
running checksum of the bytes after it; and every closed part is, from its
first byte 1 on, a valid frame. -/
structure SynthInv (s : zwave_state) : Prop where
  buff_len : s.response_buff.length = 128
  pp_len : s.response_partpos.length = 4
  pos_le : s.response_zpos ≤ 128
  part_le : s.response_partpos.getD s.response_numParts 0 ≤ s.response_zpos
  bytes : ∀ b ∈ s.response_buff.take s.response_zpos, b < 256
  idle : s.response_zstate = 0 →
    1 ∉ slice s.response_buff (s.response_partpos.getD s.response_numParts 0) s.response_zpos
  framing : 1 ≤ s.response_zstate →
    s.response_partpos.getD s.response_numParts 0 ≤ s.response_zstart
    ∧ s.response_zstart + s.response_zstate = s.response_zpos
    ∧ s.response_lenpos = s.response_zstart + 1
    ∧ 1 ∉ slice s.response_buff (s.response_partpos.getD s.response_numParts 0)
        s.response_zstart
    ∧ s.response_buff.getD s.response_zstart 0 = 1
    ∧ s.response_checksum = xor_sum (slice s.response_buff (s.response_zstart + 1) s.response_zpos)
    ∧ s.response_checksum < 256
  closed : ∀ k, k < s.response_numParts →
    s.response_partpos.getD (k + 1) 0 ≤ s.response_partpos.getD s.response_numParts 0
    ∧ valid_frame ((slice s.response_buff (s.response_partpos.getD k 0)
        (s.response_partpos.getD (k + 1) 0)).dropWhile (fun b => b != 1))
    ∧ 3 ≤ ((slice s.response_buff (s.response_partpos.getD k 0)
        (s.response_partpos.getD (k + 1) 0)).dropWhile (fun b => b != 1)).length
    ∧ ((slice s.response_buff (s.response_partpos.getD k 0)
        (s.response_partpos.getD (k + 1) 0)).dropWhile (fun b => b != 1)).length ≤ 128

/-- The state after the length position of the open sub-frame was overwritten
and the checksum adjusted, as the `XX` token does before it appends the
checksum byte. -/
def fix_length (s : zwave_state) : zwave_state :=
  { s with
    response_checksum := (s.response_checksum ^^^
      ((s.response_zstate - 1) ^^^ s.response_buff.getD s.response_lenpos 0)) % 256
    response_buff := s.response_buff.set s.response_lenpos ((s.response_zstate - 1) % 256) }

/-- The state after an `XX` token closed the open sub-frame: length fixed,
checksum byte appended, the end of the part recorded, framing reset. -/
def close_part (s : zwave_state) : zwave_state :=
  { addZwaveResponseByte (fix_length s) (fix_length s).response_checksum with
    response_numParts := s.response_numParts + 1
    response_partpos := s.response_partpos.set (s.response_numParts + 1) (s.response_zpos + 1)
    response_zstart := s.response_zpos + 1
    response_zstate := 0 }

/-! ## API calls on the rule list and the registration count -/

/-- `delete_from_monitor_list(m)` for the rule at position `k` of the list:
the rule is unlinked, the others keep their order. -/
def delete_from_monitor_list (k : Nat) (ms : List monitor) : List monitor :=
  ms.eraseIdx k

/-- What an API call hands back to Lua: `true`; the triple `nil, code, text`
of `zwint_errorString`; the triple of `zwint_error` (text from `strerror`);
or the error raised by `luaL_argerror`. -/
inductive ApiResult where
  | ok
  | error_string (text : List Char)
  | system_error
  | arg_error (text : List Char)
deriving DecidableEq, Repr

/-- The list walk of `zwint_cancel`: delete the first rule whose `device_num`
and `key` both equal the arguments and stop; the flag is `found`. -/
def cancel_loop (device_num : Int) (key : List Char) : List monitor → List monitor × Bool
  | [] => ([], false)
  | m :: rest =>
    if m.device_num = device_num ∧ m.key = key then (rest, true)
    else (m :: (cancel_loop device_num key rest).1, (cancel_loop device_num key rest).2)

/-- `zwint_cancel(device_num, key)` after its arguments were read: the new
globals and the boolean pushed to Lua. -/
def zwint_cancel (device_num : Int) (key : List Char) (g : Globals) : Globals × Bool :=
  ({ g with monitors := (cancel_loop device_num key g.monitors).1 },
   (cancel_loop device_num key g.monitors).2)

/-- The list walk of `zwint_unregister`: delete every rule for which
`dev_num < 0 || dev_num == m->device_num`. -/
def unregister_loop (dev_num : Int) : List monitor → List monitor
  | [] => []
  | m :: rest =>
    if dev_num < 0 ∨ dev_num = m.device_num then unregister_loop dev_num rest
    else m :: unregister_loop dev_num rest

/-- `zwint_unregister` after its argument was read: `arg = none` for a missing
or nil argument, `dup2_ok` tells whether the `dup2` that restores the original
descriptor succeeds. -/
def zwint_unregister (dup2_ok : Bool) (arg : Option Int) (g : Globals) : Globals × ApiResult :=
  let dev_num : Int := match arg with
    | some d => d
    | none => -1
  if g.registered ≤ 0 then (g, ApiResult.error_string "Not registered".toList)
  else
    let g1 := { g with registered := g.registered - 1 }
    if g1.registered = 0 then
      if dup2_ok then
        ({ g1 with monitors := unregister_loop (-1) g1.monitors }, ApiResult.ok)
      else (g1, ApiResult.system_error)
    else ({ g1 with monitors := unregister_loop dev_num g1.monitors }, ApiResult.ok)

/-- How the system calls of a first registration went: all succeeded; `opendir`
failed; the path is not among the open files; or a call after the path was
stored (`pthread_create`, `socketpair`, `dup2`, `open`) failed. -/
inductive SetupOutcome where
  | done
  | no_directory
  | not_found
  | failed
deriving DecidableEq, Repr

/-- `zwint_register(device_path)` for a string argument. -/
def zwint_register (setup : SetupOutcome) (device_path : List Char) (g : Globals) :
    Globals × ApiResult :=
  if device_path.length ≥ 32 then (g, ApiResult.arg_error "Bad device_path".toList)
  else if g.registered ≠ 0 then
    if device_path ≠ g.commport_name then
      (g, ApiResult.arg_error "Device_path does not match already registered name".toList)
    else
      ({ g with registered := g.registered + 1 + 1 }, ApiResult.ok)
  else
    match setup with
    | SetupOutcome.done =>
      ({ g with commport_name := device_path, registered := g.registered + 1 }, ApiResult.ok)
    | SetupOutcome.no_directory => (g, ApiResult.system_error)
    | SetupOutcome.not_found =>
      (g, ApiResult.arg_error "Device_path not found in open file list".toList)
    | SetupOutcome.failed => ({ g with commport_name := device_path }, ApiResult.system_error)

/-! ## Scheduler wake -/

/-- The condition of the expiry loop for the head rule:
`monitors->timeout && monitors->timeout <= ms`. -/
def expired (ms : Int) (m : monitor) : Bool :=
  decide (m.timeout ≠ 0 ∧ m.timeout ≤ ms)

/-- The expiry loop of `zwint_threadFunction` from the head of the given list
on: while the head rule is expired, send its `Timeout` notification and delete
it. -/
def expire_loop (E : Env) (ms : Int) : List monitor → Globals → List monitor × Globals
  | [], g => ([], g)
  | m :: rest, g =>
    if expired ms m then
      expire_loop E ms rest (send_http E m "Timeout".toList [] none none g)
    else (m :: rest, g)

/-- The expiry step of a wake at monotonic time `ms`. -/
def expire_monitors (E : Env) (ms : Int) (g : Globals) : Globals :=
  { (expire_loop E ms g.monitors g).2 with monitors := (expire_loop E ms g.monitors g).1 }

/-- What `poll` and the reads report on one wake: the value of `now()` after
the wait, the bytes read from each serial endpoint that is readable (`none`
when it is not), and whether the HTTP socket is readable. -/
structure Wake where
  now : Int
  host : Option (List Nat)
  controller : Option (List Nat)
  http : Bool

/-- The state the worker thread works on: the two scanner states and the
globals. -/
structure Engine where
  send_state : zwave_state
  receive_state : zwave_state
  g : Globals

/-- The block `if (result > 0)` of `zwint_threadFunction`: serve the host
endpoint, then the controller endpoint, then the HTTP socket, each when it is
readable. -/
def serve_endpoints (E : Env) (w : Wake) (e : Engine) : Engine :=
  let r1 := match w.host with
    | some raw => host_readable E e.send_state e.g raw
    | none => (e.send_state, e.g)
  let r2 := match w.controller with
    | some raw => controller_readable E e.receive_state r1.2 raw
    | none => (e.receive_state, r1.2)
  { send_state := r1.1
    receive_state := r2.1
    g := if w.http then http_readable E r2.2 else r2.2 }

/-- One turn of the loop of `zwint_threadFunction` from the return of `poll`
on: leave when nothing is registered, expire rules, then serve the endpoints. -/
def zwint_wake (E : Env) (w : Wake) (e : Engine) : Engine :=
  if e.g.registered ≤ 0 then e
  else serve_endpoints E w { e with g := expire_monitors E w.now e.g }

/-! ## Order of deadlines -/

/-- The order of deadlines: ascending, with 0 (never) after every other
deadline. -/
def deadline_le (t1 t2 : Int) : Prop := t2 = 0 ∨ (t1 ≠ 0 ∧ t1 ≤ t2)

/-- The rule list is sorted by deadline: every rule comes before the rules
whose deadline is not earlier. -/
def sorted_by_deadline (ms : List monitor) : Prop :=
  ms.Pairwise (fun a b => deadline_le a.timeout b.timeout)

/-- The deadline of `m2` is strictly earlier than that of `m`. -/
def earlier (m m2 : monitor) : Bool :=
  decide (m2.timeout ≠ 0 ∧ (m.timeout = 0 ∨ m2.timeout < m.timeout))

/-- The deadline of `m` and the deadlines of the rules of the list that are
not 0 differ by less than `2^31` ms. -/
def deadlines_close (m : monitor) (ms : List monitor) : Prop :=
  ∀ m2 ∈ ms, m.timeout ≠ 0 → m2.timeout ≠ 0 → |m.timeout - m2.timeout| < 2 ^ 31


/-- A rule that differs from `observer_rule` in its key and deadline only. -/
def timed_rule (key : List Char) (t : Int) : monitor :=
  { observer_rule with key := key, timeout := t }

/-- The globals after `n` calls of `zwint_register` with the same path, each
with all system calls succeeding. -/
def register_times (n : Nat) (device_path : List Char) (g : Globals) : Globals :=
  (fun a => (zwint_register SetupOutcome.done device_path a).1)^[n] g

/-- The globals after `n` calls of `zwint_unregister` without argument. -/
def unregister_times (n : Nat) (g : Globals) : Globals :=
  (fun a => (zwint_unregister true none a).1)^[n] g

/-- The `Timeout` notifications of the rules of a list, as queue events. -/
def timeout_events (ms : List monitor) : List HttpEvent :=
  ms.map (fun m => HttpEvent.send m "Timeout".toList [] none none)

/-- The registration of an intercept rule with key `key`, pattern
`^01 .. 00 13`, no deadline and the response `response`. -/
def register_intercept (key response : List Char) (g : Globals) : Globals :=
  wwint_monitor_intercept 0 true 5 key (anchored "01 .. 00 13".toList) false 0 none response
    false g

/-- The engine of the C17 instance: one registration, idle scanners, and the
observing rules `a` (deadline 100), `b` (deadline 200) and `c` (no deadline). -/
def three_timed_rules : Engine where
  send_state := zwave_state.init
  receive_state := zwave_state.init
  g := { Globals.init with
    registered := 1
    monitors := [timed_rule "a".toList 100, timed_rule "b".toList 200,
      timed_rule "c".toList 0] }

/-! ## Templates of hex digits and spaces -/

/-- The value of a hex digit, upper or lower case; `none` for any other
character. -/
def hex_digit (c : Char) : Option Nat :=
  if '0' ≤ c ∧ c ≤ '9' then some (c.toNat - '0'.toNat)
  else if 'a' ≤ c ∧ c ≤ 'f' then some (c.toNat - 'a'.toNat + 10)
  else if 'A' ≤ c ∧ c ≤ 'F' then some (c.toNat - 'A'.toNat + 10)
  else none

/-- The bytes that the specification of the template language gives to a
template of hex digits and spaces, read from the left: spaces between tokens
are skipped, two adjacent hex digits are one byte, a single hex digit followed
by a space or by the end of the template is one byte of value 0..15. `none`
for a template that holds any other character. -/
def spec_template_bytes : List Char → Option (List Nat)
  | [] => some []
  | [a] => if a = ' ' then some [] else (hex_digit a).map (fun x => [x])
  | a :: b :: r =>
    if a = ' ' then spec_template_bytes (b :: r)
    else
      match hex_digit a with
      | none => none
      | some x =>
        if b = ' ' then (spec_template_bytes r).map (fun t => x :: t)
        else
          match hex_digit b with
          | none => none
          | some y => (spec_template_bytes r).map (fun t => (16 * x + y) :: t)

/-! ## Failed synthesis -/

/-- The three error texts that the template interpreter hands to
`monitor_error`. -/
def error_messages : List (List Char) :=
  ["Response syntax error".toList, "Unmatched replacement".toList, "Response too long".toList]

/-- A turn of the template loop on the second character of an `XX` token that
cannot close a part: no sub-frame is open (`response_zstate < 2`), or the
checksum byte fits and the part would be one beyond `MAX_RESPONSE_PARTS`. -/
def silent_failure (st : ResponseLoop) (c : Char) : Prop :=
  st.rstate = 4 ∧ (c = 'X' ∨ c = 'x')
  ∧ (st.s.response_zstate < 2
      ∨ (st.s.response_zpos < MAX_ZWAVE_BUFF_SIZE
          ∧ MAX_RESPONSE_PARTS ≤ st.s.response_numParts))

/-- A oneshot intercept rule for host frames of function `0x13` whose response
template `06 XX` asks for a checksum where no sub-frame is open. -/
def unclosed_rule : monitor :=
  { ack_rule with key := "k11".toList, response := some "06 XX".toList }

/-- An intercept rule for host frames of function `0x13` whose response is the
whole match, `\0`. -/
def echo_rule : monitor :=
  { ack_rule with key := "k12".toList, response := some [Char.ofNat 92, '0'] }

/-- An intercept rule for host frames of function `0x13` whose response asks
for group 1, `\1`, of a pattern without groups. -/
def no_group_rule : monitor :=
  { ack_rule with key := "k12".toList, response := some [Char.ofNat 92, '1'] }

/-! ## Fixtures of the scenarios S2, S3 and S4 -/

/-- The rule of scenario S2: a monitor rule of device 5 with key `k1` and the
pattern `^01 .. 00 04`, no response, not oneshot, no deadline. -/
def s2_rule : monitor where
  device_num := 5
  key := "k1".toList
  intercept := false
  oneshot := false
  has_arm_pattern := false
  armed := true
  forward := false
  arm_pattern := no_pattern
  pattern := anchored "01 .. 00 04".toList
  response := none
  timeout := 0

/-- The rule of scenario S3: a oneshot intercept rule without arm pattern for
host frames of function `0x13`, with the response template `06`. -/
def s3_rule : monitor :=
  { ack_rule with key := "k3".toList }

/-- The rule of scenario S4: an intercept rule for host frames of function
`0x13` with the response template `06 XX 01 04 01 13 01 XX`. -/
def s4_rule : monitor :=
  { two_part_rule with key := "k4".toList,
                       response := some "06 XX 01 04 01 13 01 XX".toList }

/-- The rule of scenario S4 with the ACK and the synthesized frame in one
part: response template `06 01 04 01 13 01 XX`. -/
def s4_joined_rule : monitor :=
  { two_part_rule with key := "k4".toList, response := some "06 01 04 01 13 01 XX".toList }

/-- The request that `env_ok` and a rule of device 5 give for the action
`action`, the key `key` and the capture parameters `captures`. -/
def request_text (action key captures : String) : List Char :=
  ("GET /data_request?id=action&DeviceNum=5"
    ++ "&serviceId=urn:gengen_mcv-org:serviceId:ZWaveMonitor1&action=" ++ action
    ++ "&key=" ++ key ++ "&time=0.000000" ++ captures
    ++ " HTTP/1.1\r\nHost: 127.0.0.1\r\n\r\n").toList

/-- The engine after the host wrote the valid frame `01 04 00 13 05 ED` with
the rule of S3 as the only rule. -/
def after_s3_frame : zwave_state × Globals :=
  host_readable env_ok zwave_state.init
    { Globals.init with monitors := [s3_rule] } [1, 4, 0, 0x13, 5, 0xED]

/-- The engine after the host wrote the valid frame `01 03 00 13 EF` with the
rule of S4 as the only rule. -/
def after_s4_frame : zwave_state × Globals :=
  host_readable env_ok zwave_state.init
    { Globals.init with monitors := [s4_rule] } [1, 3, 0, 0x13, 0xEF]

/-- The engine after the host wrote the valid frame `01 03 00 13 EF` with the
one-part variant of the rule of S4 as the only rule. -/
def after_s4_joined_frame : zwave_state × Globals :=
  host_readable env_ok zwave_state.init
    { Globals.init with monitors := [s4_joined_rule] } [1, 3, 0, 0x13, 0xEF]

/-! ## ACK bytes of the host -/

/-- The engine after the host wrote the valid frame `01 03 00 13 EF` with
`unclosed_rule` (template `06 XX`) as the only rule: the interpretation of the
template has failed and the frame was passed through. -/
def after_failed_synthesis : zwave_state × Globals :=
  host_readable env_ok zwave_state.init
    { Globals.init with monitors := [unclosed_rule] } [1, 3, 0, 0x13, 0xEF]

/-! ## Indices of the stores into the packet buffer -/

/-- The index of `packet_buff` at which the turn of the byte loop for the byte
`c` stores `c`: 0 for a SOF read when idle, 1 for an accepted length byte,
`state` for a byte of the body; `none` when the turn stores nothing (a
consumed ACK, a byte outside a frame, a rejected length byte). -/
def store_index (send : Bool) (l : ByteLoop) (c : Nat) : Option Nat :=
  if send ∧ l.s.response_partNum < l.s.response_numParts ∧ l.s.state = 0 ∧ c = 6 then none
  else if l.s.state = 0 then (if c = 1 then some 0 else none)
  else if l.s.state = 1 then (if c ≥ MAX_ZWAVE_BUFF_SIZE then none else some 1)
  else some l.s.state

/-- The indices of `packet_buff` at which the byte loop stores while it reads
the bytes of a chunk, in order. -/
def store_indices (E : Env) (input_fd output_fd : Endpoint) (send : Bool) :
    List Nat → ByteLoop → List Nat
  | [], _ => []
  | c :: cs, l =>
    (store_index send l c).toList
      ++ store_indices E input_fd output_fd send cs (process_byte E input_fd output_fd send l c)

/-! ## Capture parameters of a notification -/

/-- The text of a capture as the specification writes it into a request:
every space replaced by `%20`, every other character copied unchanged. -/
def spec_url_text : List Char → List Char
  | [] => []
  | c :: cs => (if c = ' ' then ['%', '2', '0'] else [c]) ++ spec_url_text cs

/-- The parameter `&Cj=<text>` of the specification for group `j`: the text is
the substring of the hex rendering that the group covers. -/
def spec_capture (hexbuff : List Char) (pmatch : Nat → regmatch_t) (j : Nat) : List Char :=
  "&C".toList ++ Nat.toDigits 10 j ++ ['=']
    ++ spec_url_text ((hexbuff.drop (pmatch j).rm_so.toNat).take
        ((pmatch j).rm_eo - (pmatch j).rm_so).toNat)

/-- The parameters of the groups of a list that took part in the match, in the
order of the list. -/
def spec_captures_of (hexbuff : List Char) (pmatch : Nat → regmatch_t) :
    List Nat → List Char
  | [] => []
  | j :: js =>
    (if (pmatch j).rm_so ≥ 0 then spec_capture hexbuff pmatch j else [])
      ++ spec_captures_of hexbuff pmatch js

/-- The capture parameters of a request as the specification gives them: when
group 1 took part in the match, the parameters of the groups 1..9 that took
part, in increasing order, and no `C0`; otherwise the one parameter `C0` of
the whole match. -/
def spec_capture_params (hexbuff : List Char) (pmatch : Nat → regmatch_t) : List Char :=
  if (pmatch 1).rm_so ≥ 0 then spec_captures_of hexbuff pmatch [1, 2, 3, 4, 5, 6, 7, 8, 9]
  else spec_capture hexbuff pmatch 0

/-- The request of a `Monitor` or `Intercept` notification as the
specification gives it: the fixed head with device number, action, key and
time, the capture parameters, and the fixed tail. -/
def spec_request (m : monitor) (command time hexbuff : List Char)
    (pmatch : Nat → regmatch_t) : List Char :=
  "GET /data_request?id=action&DeviceNum=".toList ++ (toString m.device_num).toList
    ++ "&serviceId=urn:gengen_mcv-org:serviceId:ZWaveMonitor1&action=".toList ++ command
    ++ "&key=".toList ++ m.key ++ "&time=".toList ++ time
    ++ spec_capture_params hexbuff pmatch
    ++ " HTTP/1.1\r\nHost: 127.0.0.1\r\n\r\n".toList

/-- A match with the groups 1 and 3 present: the whole match covers the first
11 characters, group 1 the characters 3..4 and group 3 the characters 9..10. -/
def sample_groups : Nat → regmatch_t :=
  fun j =>
    if j = 0 then { rm_so := 0, rm_eo := 11 }
    else if j = 1 then { rm_so := 3, rm_eo := 5 }
    else if j = 3 then { rm_so := 9, rm_eo := 11 }
    else { rm_so := -1, rm_eo := -1 }

/-! ## Silent rules -/

/-- A rule with its key removed: everything of a rule but its key. -/
def unkeyed (m : monitor) : monitor := { m with key := [] }

/-- Two states of the globals that agree on the serial writes and, up to the
keys of the rules, on the rule list. -/
def same_rules (g g0 : Globals) : Prop :=
  g.monitors.map unkeyed = g0.monitors.map unkeyed ∧ g.serial = g0.serial

/-- Every rule of the list has a silent key: `key[0] == '*'`. -/
def all_silent (ms : List monitor) : Prop := ∀ m ∈ ms, m.key.head? = some '*'

/-- A run of the worker thread over the wakes `ws`, in order. -/
def run_wakes (E : Env) (ws : List Wake) (e : Engine) : Engine :=
  ws.foldl (fun a w => zwint_wake E w a) e

/-- A rule of the host direction with a silent key, a response and no
deadline, that stays in the list when it fires. -/
def silent_rule : monitor := { ack_rule with key := "*q".toList, oneshot := false }

/-- Two wakes in each of which the host has sent the frame `01 04 00 13 05 ED`. -/
def two_host_frames : List Wake :=
  [{ now := 10, host := some [1, 4, 0, 0x13, 5, 0xED], controller := none, http := false },
   { now := 20, host := some [1, 4, 0, 0x13, 5, 0xED], controller := none, http := true }]

/-- An engine with idle scanners whose rule list holds `silent_rule` only. -/
def silent_engine : Engine :=
  { send_state := zwave_state.init
    receive_state := zwave_state.init
    g := { Globals.init with monitors := [silent_rule], registered := 1 } }

/-! ## Fixtures of a response without bytes -/

/-- An intercept rule for host frames of function `0x13` whose response
template is a single space: it is interpreted without error and yields no
byte. Not oneshot. -/
def blank_rule : monitor :=
  { ack_rule with key := "k5".toList, oneshot := false, response := some " ".toList }

/-- The send scanner and the globals after the host frame `01 03 00 13 EF` was
read with the rules `ack_rule`, `blank_rule` in the list: `ack_rule` has
answered it with `06` and is gone. -/
def after_first_response : zwave_state × Globals :=
  host_readable env_ok zwave_state.init
    { Globals.init with monitors := [ack_rule, blank_rule] } [1, 3, 0, 0x13, 0xEF]

/-- The send scanner and the globals after the host has then sent the frame
`01 03 00 13 EF` a second time: `blank_rule` has fired on it. -/
def after_blank_response : zwave_state × Globals :=
  host_readable env_ok after_first_response.1 after_first_response.2 [1, 3, 0, 0x13, 0xEF]
/-! # Theorems -/

/-! ## The frame scanner on one frame -/

theorem store_bytes_length (cs : List Nat) : ∀ (buf : List Nat) (k : Nat),
    (store_bytes buf k cs).length = buf.length := by
  induction cs with
  | nil => intro buf k; rfl
  | cons c cs ih => intro buf k; simp [store_bytes, ih]

theorem store_bytes_eq (cs : List Nat) : ∀ (buf : List Nat) (k : Nat),
    k + cs.length ≤ buf.length →
    store_bytes buf k cs = buf.take k ++ cs ++ buf.drop (k + cs.length) := by
  induction cs with
  | nil => intro buf k _; simp [store_bytes]
  | cons c cs ih =>
    intro buf k h
    simp only [List.length_cons] at h
    have hk : k < buf.length := by omega
    rw [store_bytes, ih _ _ (by simp; omega), List.set_eq_take_cons_drop c hk]
    have e1 : (List.take k buf).length = k := by simp; omega
    have e2 : k + 1 + cs.length = (List.take k buf ++ [c]).length + cs.length := by simp [e1]
    have e3 : List.take k buf ++ c :: List.drop (k + 1) buf
        = (List.take k buf ++ [c]) ++ List.drop (k + 1) buf := by simp
    have e4 : k + 1 = (List.take k buf ++ [c]).length := by simp [e1]
    rw [e3]
    conv => lhs; rw [e2]; arg 1; arg 1; rw [e4]
    rw [List.take_left, List.drop_append, List.drop_drop]
    simp only [List.length_cons, List.append_assoc, List.singleton_append, List.cons_append,
      List.nil_append]
    congr 3
    rw [show k + 1 + cs.length = k + (cs.length + 1) by omega]

theorem store_bytes_append (cs ds : List Nat) : ∀ (buf : List Nat) (k : Nat),
    store_bytes buf k (cs ++ ds) = store_bytes (store_bytes buf k cs) (k + cs.length) ds := by
  induction cs with
  | nil => intro buf k; simp [store_bytes]
  | cons c cs ih => intro buf k; simp [store_bytes, ih]; congr 1; omega

theorem store_bytes_getD_lt (cs : List Nat) : ∀ (buf : List Nat) (k i d : Nat), i < k →
    (store_bytes buf k cs).getD i d = buf.getD i d := by
  induction cs with
  | nil => intro buf k i d _; rfl
  | cons c cs ih =>
    intro buf k i d h
    rw [store_bytes, ih _ _ _ _ (by omega)]
    simp only [List.getD_eq_getElem?_getD]
    rw [List.getElem?_set_ne (by omega)]

theorem process_byte_framing (E : Env) (i o : Endpoint) (send : Bool) (l : ByteLoop) (c : Nat)
    (h : l.s.state ≠ 0) :
    process_byte E i o send l c
      = frame_byte E i o send { l with pending := l.pending ++ [c] } c := by
  unfold process_byte
  simp [h]

theorem frame_byte_body (E : Env) (i o : Endpoint) (send : Bool) (l : ByteLoop) (c : Nat)
    (h2 : 2 ≤ l.s.state) (hlen : l.s.state ≠ l.s.packet_buff.getD 1 0 + 1) :
    frame_byte E i o send l c =
      { l with s := { l.s with
          packet_buff := l.s.packet_buff.set l.s.state c
          checksum := l.s.checksum ^^^ c
          state := l.s.state + 1 } } := by
  unfold frame_byte
  have h0 : l.s.state ≠ 0 := by omega
  have h1 : l.s.state ≠ 1 := by omega
  have hg : (l.s.packet_buff.set l.s.state c).getD 1 0 = l.s.packet_buff.getD 1 0 := by
    simp only [List.getD_eq_getElem?_getD]
    rw [List.getElem?_set_ne (by omega)]
  simp only [List.getD_eq_getElem?_getD] at hg hlen
  simp [h0, h1, hg, hlen]

theorem body_loop (E : Env) (i o : Endpoint) (send : Bool) (L : Nat) :
    ∀ (bs : List Nat) (l : ByteLoop), 2 ≤ l.s.state → l.s.packet_buff.getD 1 0 = L →
      l.s.state + bs.length ≤ L + 1 →
      bs.foldl (process_byte E i o send) l =
        { s := { l.s with
            packet_buff := store_bytes l.s.packet_buff l.s.state bs
            state := l.s.state + bs.length
            checksum := bs.foldl (fun a b => a ^^^ b) l.s.checksum }
          g := l.g
          pending := l.pending ++ bs } := by
  intro bs
  induction bs with
  | nil => intro l _ _ _; simp [store_bytes]
  | cons c cs ih =>
    intro l h2 hL hlen
    simp only [List.length_cons] at hlen
    rw [List.foldl_cons, process_byte_framing E i o send l c (by omega),
      frame_byte_body E i o send { l with pending := l.pending ++ [c] } c h2
        (by simp only [hL]; omega)]
    rw [ih _ (by simp; omega) (by
      simp only [List.getD_eq_getElem?_getD]
      rw [List.getElem?_set_ne (by simp; omega)]
      simpa [List.getD_eq_getElem?_getD] using hL) (by simp; omega)]
    simp [store_bytes, List.append_assoc]
    omega

theorem frame_byte_last (E : Env) (i o : Endpoint) (send : Bool) (l : ByteLoop) (c : Nat)
    (h2 : 2 ≤ l.s.state) (hlen : l.s.state = l.s.packet_buff.getD 1 0 + 1) :
    frame_byte E i o send l c =
      { s := { (frame_complete E i o send
                  { l.s with
                    packet_buff := l.s.packet_buff.set l.s.state c
                    checksum := l.s.checksum ^^^ c } l.g (l.s.state + 1)).1 with state := 0 }
        g := (frame_complete E i o send
                  { l.s with
                    packet_buff := l.s.packet_buff.set l.s.state c
                    checksum := l.s.checksum ^^^ c } l.g (l.s.state + 1)).2
        pending := [] } := by
  unfold frame_byte
  have h0 : l.s.state ≠ 0 := by omega
  have h1 : l.s.state ≠ 1 := by omega
  have hg : (l.s.packet_buff.set l.s.state c).getD 1 0 = l.s.packet_buff.getD 1 0 := by
    simp only [List.getD_eq_getElem?_getD]
    rw [List.getElem?_set_ne (by omega)]
  simp only [h0, h1, if_false, hg]
  rw [if_pos (by omega)]
  have e : l.s.packet_buff.getD 1 0 + 2 = l.s.state + 1 := by omega
  rw [e]

theorem frame_loop (E : Env) (i o : Endpoint) (send : Bool) (s : zwave_state) (g : Globals)
    (L : Nat) (body : List Nat) (hb : body.length = L) (hL1 : 1 ≤ L) (hL2 : L < 128)
    (hs : s.state = 0) (hbuf : s.packet_buff.length = MAX_ZWAVE_BUFF_SIZE) :
    (1 :: L :: body).foldl (process_byte E i o send) { s := s, g := g, pending := [] } =
      { s := { (frame_complete E i o send (at_checksum send s (1 :: L :: body)) g (L + 2)).1
                with state := 0 }
        g := (frame_complete E i o send (at_checksum send s (1 :: L :: body)) g (L + 2)).2
        pending := [] } := by
  obtain ⟨init, last, rfl⟩ : ∃ init last, body = init ++ [last] := by
    rcases List.eq_nil_or_concat body with h | ⟨init, last, h⟩
    · subst h; simp at hb; omega
    · exact ⟨init, last, by simpa using h⟩
  have hi : init.length + 1 = L := by simpa using hb
  simp only [MAX_ZWAVE_BUFF_SIZE] at hbuf
  -- SOF
  have h1 : process_byte E i o send { s := s, g := g, pending := [] } 1 =
      { s := { s with
          response_numParts :=
            if send ∧ s.response_partNum < s.response_numParts then 0 else s.response_numParts
          state := 1
          packet_buff := s.packet_buff.set 0 1
          checksum := 0xff }
        g := g
        pending := [1] } := by
    unfold process_byte frame_byte
    by_cases hc : send = true ∧ s.response_partNum < s.response_numParts
    · simp [hc, hs]
    · rw [if_neg (by intro h; exact hc ⟨h.1, h.2.1⟩)]
      simp [hc, hs]
  rw [List.foldl_cons, h1, List.foldl_cons, process_byte_framing _ _ _ _ _ _ (by simp)]
  have h2 : ∀ (l : ByteLoop), l.s.state = 1 → frame_byte E i o send l L =
      { l with s := { l.s with
          state := 2
          packet_buff := l.s.packet_buff.set 1 L
          checksum := l.s.checksum ^^^ L } } := by
    intro l hl
    unfold frame_byte
    have : ¬ (L ≥ MAX_ZWAVE_BUFF_SIZE) := by simp [MAX_ZWAVE_BUFF_SIZE]; omega
    simp [hl, this]
  have hg1 : ((s.packet_buff.set 0 1).set 1 L).getD 1 0 = L := by
    simp only [List.getD_eq_getElem?_getD]
    rw [List.getElem?_set_self (by simp; omega)]
    rfl
  rw [h2 _ (by simp), List.foldl_append, body_loop E i o send L init _ (by simp) hg1
    (by simp; omega)]
  simp only [List.foldl_cons, List.foldl_nil]
  rw [process_byte_framing _ _ _ _ _ _ (by simp)]
  have hg : (store_bytes ((s.packet_buff.set 0 1).set 1 L) 2 init).getD 1 0 = L := by
    rw [store_bytes_getD_lt init ((s.packet_buff.set 0 1).set 1 L) 2 1 0 (by omega), hg1]
  rw [frame_byte_last _ _ _ _ _ _ (by simp) (by simp only [hg]; omega)]
  have e1 : 2 + init.length + 1 = L + 2 := by omega
  have e2 : (store_bytes ((s.packet_buff.set 0 1).set 1 L) 2 init).set (2 + init.length) last
      = store_bytes s.packet_buff 0 (1 :: L :: (init ++ [last])) := by
    simp only [store_bytes, store_bytes_append]
  have e3 : List.foldl (fun a b => a ^^^ b) (255 ^^^ L) init ^^^ last
      = xor_sum (1 :: L :: (init ++ [last])).tail := by
    simp [xor_sum, List.foldl_append]
  have e4 : (1 :: L :: (init ++ [last])).length - 1 = 2 + init.length := by simp; omega
  simp only [e1, e2, e3, at_checksum, e4]

theorem process_zwave_frame (E : Env) (i o : Endpoint) (send : Bool) (s : zwave_state)
    (g : Globals) (L : Nat) (body : List Nat) (hb : body.length = L) (hL1 : 1 ≤ L)
    (hL2 : L < 128) (hs : s.state = 0) (hbuf : s.packet_buff.length = MAX_ZWAVE_BUFF_SIZE) :
    process_zwave E i o send s g (1 :: L :: body) =
      ({ (frame_complete E i o send (at_checksum send s (1 :: L :: body)) g (L + 2)).1
                with state := 0 },
       (frame_complete E i o send (at_checksum send s (1 :: L :: body)) g (L + 2)).2) := by
  unfold process_zwave
  rw [frame_loop E i o send s g L body hb hL1 hL2 hs hbuf]
  simp

theorem scan_quiet (E : Env) (i o : Endpoint) (send : Bool) (hx : List Char) :
    ∀ (ms : List monitor) (s : zwave_state) (g : Globals),
      (∀ m ∈ ms, m.armed = true → m.intercept = send → m.pattern.regexec hx = none) →
      scan_monitors E i o send hx ms s g = (ms.map (arm_rule send hx), s, g, false) := by
  intro ms
  induction ms with
  | nil => intro s g _; rfl
  | cons m rest ih =>
    intro s g h
    have hrest := ih s g (fun m1 h1 => h m1 (List.mem_cons_of_mem _ h1))
    have hm := h m (List.mem_cons_self _ _)
    rw [scan_monitors, hrest]
    cases ha : m.armed <;> cases hi : m.intercept <;> cases send <;>
      simp [arm_rule, ha, hi] at hm ⊢
    all_goals first
      | rw [hm]
      | (cases hr : m.arm_pattern.regexec hx <;> simp [ha])
  

theorem hexbuff_loop_congr (a b : List Nat) : ∀ (n i : Nat),
    (∀ j, i ≤ j → j < i + n → a.getD j 0 = b.getD j 0) →
    hexbuff_loop a i n = hexbuff_loop b i n := by
  intro n
  induction n with
  | zero => intro i _; rfl
  | succ n ih =>
    intro i h
    rw [hexbuff_loop, hexbuff_loop, h i (Nat.le_refl _) (by omega),
      ih (i + 1) (fun j h1 h2 => h j (by omega) (by omega))]

theorem store_frame (buf f : List Nat) (h : f.length ≤ buf.length) :
    store_bytes buf 0 f = f ++ buf.drop f.length := by
  rw [store_bytes_eq f buf 0 (by omega)]
  simp

theorem hexbuff_store (buf f : List Nat) (h : f.length ≤ buf.length) :
    hexbuff (store_bytes buf 0 f) f.length = hex_of f := by
  unfold hexbuff hex_of hexbuff
  apply hexbuff_loop_congr
  intro j _ hj
  rw [store_frame buf f h]
  simp only [List.getD_eq_getElem?_getD]
  rw [List.getElem?_append_left (by omega)]

theorem take_store (buf f : List Nat) (h : f.length ≤ buf.length) :
    (store_bytes buf 0 f).take f.length = f := by
  rw [store_frame buf f h]
  simp

/-- C1. A valid frame of `L+2` bytes, `1 ≤ L ≤ 126`, fed in one read to an idle
scanner of either direction (`send` true or false, `o` the opposite endpoint),
with no armed rule of that direction whose pattern matches the hex rendering of
the frame: the only serial write is the frame itself, to the opposite endpoint,
no request is queued or sent, no clock is read, and the scanner is idle again. -/
theorem C1_unmatched_frame_passes (E : Env) (i o : Endpoint) (send : Bool) (s : zwave_state)
    (g : Globals) (f : List Nat) (hv : valid_frame f) (h3 : 3 ≤ f.length)
    (h128 : f.length ≤ 128) (hs : s.state = 0)
    (hbuf : s.packet_buff.length = MAX_ZWAVE_BUFF_SIZE)
    (hq : ∀ m ∈ g.monitors, m.armed = true → m.intercept = send →
      m.pattern.regexec (hex_of f) = none) :
    (process_zwave E i o send s g f).2.serial = g.serial ++ [(o, f)]
    ∧ (process_zwave E i o send s g f).2.requests = g.requests
    ∧ (process_zwave E i o send s g f).2.http_sink = g.http_sink
    ∧ (process_zwave E i o send s g f).2.clock_reads = g.clock_reads
    ∧ (process_zwave E i o send s g f).1.state = 0 := by
  obtain ⟨⟨L, body, rfl, hb, hL, _⟩, hx⟩ := hv
  simp only [List.length_cons] at h3 h128
  have hlen : (1 :: L :: body).length = L + 2 := by simp [hb]
  rw [process_zwave_frame E i o send s g L body hb (by omega) hL hs hbuf]
  have hbuf2 : (1 :: L :: body).length ≤ s.packet_buff.length := by
    rw [hbuf, hlen]; simp [MAX_ZWAVE_BUFF_SIZE]; omega
  have hh : hexbuff (at_checksum send s (1 :: L :: body)).packet_buff (L + 2)
      = hex_of (1 :: L :: body) := by
    rw [← hlen]; exact hexbuff_store _ _ hbuf2
  have ht : (at_checksum send s (1 :: L :: body)).packet_buff.take (L + 2)
      = 1 :: L :: body := by
    rw [← hlen]; exact take_store _ _ hbuf2
  have hc : (at_checksum send s (1 :: L :: body)).checksum = 0 := hx
  unfold frame_complete
  rw [if_pos hc, hh, scan_quiet E i o send _ g.monitors _ g hq]
  simp [ht]


/-! ## What the synthesizer leaves alone -/

theorem addZwaveResponseByte_packet_buff (s : zwave_state) (c : Nat) :
    (addZwaveResponseByte s c).packet_buff = s.packet_buff := by
  unfold addZwaveResponseByte
  split
  · split <;> rfl
  · rfl

theorem foldl_addZwaveResponseByte_packet_buff (cs : List Nat) : ∀ (s : zwave_state),
    (cs.foldl addZwaveResponseByte s).packet_buff = s.packet_buff := by
  induction cs with
  | nil => intro s; rfl
  | cons c cs ih => intro s; rw [List.foldl_cons, ih, addZwaveResponseByte_packet_buff]

theorem addZwaveResponseData_packet_buff (E : Env) (m : monitor) (s : zwave_state)
    (g : Globals) (data : List Nat) (len : Int) :
    (addZwaveResponseData E m s g data len).1.packet_buff = s.packet_buff := by
  unfold addZwaveResponseData
  split
  · rfl
  · exact foldl_addZwaveResponseByte_packet_buff _ _

theorem response_switch_packet_buff (E : Env) (m : monitor) (pm : Nat → regmatch_t)
    (st : ResponseLoop) (val : Nat) :
    (response_switch E m pm st val).s.packet_buff = st.s.packet_buff := by
  unfold response_switch
  split
  · rfl
  · exact addZwaveResponseData_packet_buff ..
  · exact addZwaveResponseData_packet_buff ..
  · split
    · rfl
    · exact addZwaveResponseData_packet_buff ..
  · simp only
    split
    · rfl
    · exact addZwaveResponseData_packet_buff ..
  · rfl

theorem response_char_packet_buff (E : Env) (m : monitor) (pm : Nat → regmatch_t)
    (st : ResponseLoop) (c : Char) :
    (response_char E m pm st c).s.packet_buff = st.s.packet_buff := by
  unfold response_char
  repeat' split
  all_goals first
    | rfl
    | exact response_switch_packet_buff ..

theorem response_loop_packet_buff (E : Env) (m : monitor) (pm : Nat → regmatch_t)
    (r : List Char) : ∀ (st : ResponseLoop),
    (response_loop E m pm r st).s.packet_buff = st.s.packet_buff := by
  induction r with
  | nil => intro st; rfl
  | cons c r ih =>
    intro st
    rw [response_loop]
    split
    · rfl
    · rw [ih, response_char_packet_buff]

theorem synthesize_packet_buff (E : Env) (m : monitor) (pm : Nat → regmatch_t)
    (r : List Char) (s : zwave_state) (g : Globals) :
    (synthesize E m pm r s g).s.packet_buff = s.packet_buff := by
  unfold synthesize
  simp only
  split
  · simp only [addZwaveResponseData_packet_buff, response_loop_packet_buff]
  · rw [response_loop_packet_buff]

theorem respond_packet_buff (fd : Endpoint) (s : zwave_state) (g : Globals) :
    (respond fd s g).1.packet_buff = s.packet_buff := by
  unfold respond
  simp only
  split <;> rfl

theorem scan_monitors_packet_buff (E : Env) (i o : Endpoint) (send : Bool) (hx : List Char) :
    ∀ (ms : List monitor) (s : zwave_state) (g : Globals),
      (scan_monitors E i o send hx ms s g).2.1.packet_buff = s.packet_buff := by
  intro ms
  induction ms with
  | nil => intro s g; rfl
  | cons m rest ih =>
    intro s g
    rw [scan_monitors]
    split
    · split
      · exact ih s g
      · split
        · exact ih s g
        · cases hr : m.response with
          | none => simp only [Bool.false_eq_true, if_false]; split <;> simp [ih]
          | some resp =>
            simp only
            split
            · simp [synthesize_packet_buff]
            · simp [respond_packet_buff, synthesize_packet_buff]
    · exact ih s g

/-! ## A whole frame in one read -/

theorem frame_shape (f : List Nat) (hf : is_frame f) (h3 : 3 ≤ f.length) :
    ∃ L body, f = 1 :: L :: body ∧ body.length = L ∧ 1 ≤ L ∧ L < 128 ∧ f.length = L + 2 := by
  obtain ⟨L, body, rfl, hb, hL, _⟩ := hf
  simp only [List.length_cons] at h3
  exact ⟨L, body, rfl, hb, by omega, hL, by simp [hb]⟩

theorem process_zwave_bad (E : Env) (i o : Endpoint) (send : Bool) (s : zwave_state)
    (g : Globals) (f : List Nat) (hf : is_frame f) (h3 : 3 ≤ f.length) (h128 : f.length ≤ 128)
    (hs : s.state = 0) (hbuf : s.packet_buff.length = MAX_ZWAVE_BUFF_SIZE)
    (hx : xor_sum f.tail ≠ 0) :
    process_zwave E i o send s g f =
      ({ at_checksum send s f with state := 0 }, { g with serial := g.serial ++ [(o, f)] }) := by
  obtain ⟨L, body, rfl, hb, hL1, hL2, hlen⟩ := frame_shape f hf h3
  rw [process_zwave_frame E i o send s g L body hb hL1 hL2 hs hbuf]
  have hbuf2 : (1 :: L :: body).length ≤ s.packet_buff.length := by
    rw [hbuf]; simpa [MAX_ZWAVE_BUFF_SIZE] using h128
  have ht : (at_checksum send s (1 :: L :: body)).packet_buff.take (L + 2)
      = 1 :: L :: body := by
    rw [← hlen]; exact take_store _ _ hbuf2
  have hc : ¬ (at_checksum send s (1 :: L :: body)).checksum = 0 := hx
  unfold frame_complete
  rw [if_neg hc, ht]

theorem process_zwave_good (E : Env) (i o : Endpoint) (send : Bool) (s : zwave_state)
    (g : Globals) (f : List Nat) (hf : is_frame f) (h3 : 3 ≤ f.length) (h128 : f.length ≤ 128)
    (hs : s.state = 0) (hbuf : s.packet_buff.length = MAX_ZWAVE_BUFF_SIZE)
    (hx : xor_sum f.tail = 0) :
    process_zwave E i o send s g f =
      ({ (scan_monitors E i o send (hex_of f) g.monitors (at_checksum send s f) g).2.1
            with state := 0 },
       if (scan_monitors E i o send (hex_of f) g.monitors (at_checksum send s f) g).2.2.2 then
         { (scan_monitors E i o send (hex_of f) g.monitors (at_checksum send s f) g).2.2.1 with
           monitors :=
             (scan_monitors E i o send (hex_of f) g.monitors (at_checksum send s f) g).1 }
       else
         { (scan_monitors E i o send (hex_of f) g.monitors (at_checksum send s f) g).2.2.1 with
           monitors :=
             (scan_monitors E i o send (hex_of f) g.monitors (at_checksum send s f) g).1
           serial :=
             (scan_monitors E i o send (hex_of f) g.monitors (at_checksum send s f) g).2.2.1.serial
               ++ [(o, f)] }) := by
  obtain ⟨L, body, rfl, hb, hL1, hL2, hlen⟩ := frame_shape f hf h3
  rw [process_zwave_frame E i o send s g L body hb hL1 hL2 hs hbuf]
  have hbuf2 : (1 :: L :: body).length ≤ s.packet_buff.length := by
    rw [hbuf]; simpa [MAX_ZWAVE_BUFF_SIZE] using h128
  have hh : hexbuff (at_checksum send s (1 :: L :: body)).packet_buff (L + 2)
      = hex_of (1 :: L :: body) := by
    rw [← hlen]; exact hexbuff_store _ _ hbuf2
  have ht : (at_checksum send s (1 :: L :: body)).packet_buff.take (L + 2)
      = 1 :: L :: body := by
    rw [← hlen]; exact take_store _ _ hbuf2
  have hc : (at_checksum send s (1 :: L :: body)).checksum = 0 := hx
  unfold frame_complete
  rw [if_pos hc, hh]
  split <;> simp_all [scan_monitors_packet_buff]

theorem xor_sum_concat (bs : List Nat) (c : Nat) : xor_sum (bs ++ [c]) = xor_sum bs ^^^ c := by
  simp [xor_sum, List.foldl_append]

/-- C2. For a well-formed frame of `L+2` bytes (`1 ≤ L ≤ 126`) fed to an idle
scanner: the running checksum over the bytes after SOF is 0 exactly when the
last byte equals the running checksum of the bytes between SOF and it; when it
is 0 the outcome is that of the rule scan on the hex rendering of the frame
(with the frame written to the opposite endpoint unless a rule intercepted);
when it is not 0 the globals change by the one write of the whole frame to the
opposite endpoint and by nothing else, whatever the rules are: no rule changes
and nothing is queued. -/
theorem C2_checksum_decides_dispatch (E : Env) (i o : Endpoint) (send : Bool)
    (s : zwave_state) (g : Globals) (f : List Nat) (hf : is_frame f) (h3 : 3 ≤ f.length)
    (h128 : f.length ≤ 128) (hs : s.state = 0)
    (hbuf : s.packet_buff.length = MAX_ZWAVE_BUFF_SIZE) :
    (xor_sum f.tail = 0 ↔ f.getLast? = some (xor_sum f.tail.dropLast))
    ∧ (xor_sum f.tail = 0 →
        process_zwave E i o send s g f =
          ({ (scan_monitors E i o send (hex_of f) g.monitors (at_checksum send s f) g).2.1
                with state := 0 },
           if (scan_monitors E i o send (hex_of f) g.monitors (at_checksum send s f) g).2.2.2
           then
             { (scan_monitors E i o send (hex_of f) g.monitors (at_checksum send s f) g).2.2.1
               with monitors :=
                 (scan_monitors E i o send (hex_of f) g.monitors (at_checksum send s f) g).1 }
           else
             { (scan_monitors E i o send (hex_of f) g.monitors (at_checksum send s f) g).2.2.1
               with
               monitors :=
                 (scan_monitors E i o send (hex_of f) g.monitors (at_checksum send s f) g).1
               serial :=
                 (scan_monitors E i o send (hex_of f) g.monitors
                    (at_checksum send s f) g).2.2.1.serial ++ [(o, f)] }))
    ∧ (xor_sum f.tail ≠ 0 →
        process_zwave E i o send s g f =
          ({ at_checksum send s f with state := 0 },
           { g with serial := g.serial ++ [(o, f)] })) := by
  refine ⟨?_, process_zwave_good E i o send s g f hf h3 h128 hs hbuf,
    process_zwave_bad E i o send s g f hf h3 h128 hs hbuf⟩
  obtain ⟨L, body, rfl, hb, hL1, _, _⟩ := frame_shape f hf h3
  obtain ⟨init, last, rfl⟩ : ∃ init last, body = init ++ [last] := by
    rcases List.eq_nil_or_concat body with h | ⟨init, last, h⟩
    · subst h; simp at hb; omega
    · exact ⟨init, last, by simpa using h⟩
  have e1 : (1 :: L :: (init ++ [last])).tail = (L :: init) ++ [last] := by simp
  have e2 : (1 :: L :: (init ++ [last])).getLast? = some last := by
    have : 1 :: L :: (init ++ [last]) = (1 :: L :: init) ++ [last] := by simp
    rw [this, List.getLast?_append]
    rfl
  rw [e1, xor_sum_concat, List.dropLast_concat, e2, Nat.xor_eq_zero]
  constructor
  · intro h; rw [h]
  · intro h; exact (Option.some.inj h).symm


/-! ## One rule of the scan -/

theorem scan_skip (E : Env) (i o : Endpoint) (send : Bool) (hx : List Char) (m : monitor)
    (rest : List monitor) (s : zwave_state) (g : Globals)
    (h : Bool.xor (Bool.xor m.intercept send) m.armed = false) :
    scan_monitors E i o send hx (m :: rest) s g =
      (m :: (scan_monitors E i o send hx rest s g).1,
       (scan_monitors E i o send hx rest s g).2) := by
  rw [scan_monitors]
  simp [h]

theorem scan_nomatch (E : Env) (i o : Endpoint) (send : Bool) (hx : List Char) (m : monitor)
    (rest : List monitor) (s : zwave_state) (g : Globals)
    (h : (if m.armed then m.pattern else m.arm_pattern).regexec hx = none) :
    scan_monitors E i o send hx (m :: rest) s g =
      (m :: (scan_monitors E i o send hx rest s g).1,
       (scan_monitors E i o send hx rest s g).2) := by
  rw [scan_monitors]
  split
  · rw [h]
  · rfl

theorem scan_arm (E : Env) (i o : Endpoint) (send : Bool) (hx : List Char) (m : monitor)
    (rest : List monitor) (s : zwave_state) (g : Globals) (pm : Nat → regmatch_t)
    (ha : m.armed = false) (hd : m.intercept ≠ send)
    (h : m.arm_pattern.regexec hx = some pm) :
    scan_monitors E i o send hx (m :: rest) s g =
      ({ m with armed := true } :: (scan_monitors E i o send hx rest s g).1,
       (scan_monitors E i o send hx rest s g).2) := by
  rw [scan_monitors]
  have hx3 : Bool.xor (Bool.xor m.intercept send) m.armed = true := by
    rw [ha]; cases hi : m.intercept <;> cases send <;> simp_all
  rw [if_pos hx3]
  simp [ha, h]

theorem scan_fire_plain (E : Env) (i o : Endpoint) (send : Bool) (hx : List Char) (m : monitor)
    (rest : List monitor) (s : zwave_state) (g : Globals) (pm : Nat → regmatch_t)
    (ha : m.armed = true) (hd : m.intercept = send)
    (h : m.pattern.regexec hx = some pm) (hr : m.response = none) :
    scan_monitors E i o send hx (m :: rest) s g =
      (after_fire m ++ (scan_monitors E i o send hx rest s (notify_fire E send hx m pm s g)).1,
       (scan_monitors E i o send hx rest s (notify_fire E send hx m pm s g)).2) := by
  rw [scan_monitors]
  have hx3 : Bool.xor (Bool.xor m.intercept send) m.armed = true := by
    rw [ha, hd]; cases send <;> rfl
  rw [if_pos hx3]
  simp [ha, h, hr, after_fire, notify_fire]

theorem scan_fire_error (E : Env) (i o : Endpoint) (send : Bool) (hx : List Char) (m : monitor)
    (rest : List monitor) (s : zwave_state) (g : Globals) (pm : Nat → regmatch_t)
    (resp : List Char)
    (ha : m.armed = true) (hd : m.intercept = send)
    (h : m.pattern.regexec hx = some pm) (hr : m.response = some resp)
    (he : (synthesize E m pm resp s g).error = true) :
    scan_monitors E i o send hx (m :: rest) s g =
      (m :: rest, (synthesize E m pm resp s g).s, (synthesize E m pm resp s g).g, false) := by
  rw [scan_monitors]
  have hx3 : Bool.xor (Bool.xor m.intercept send) m.armed = true := by
    rw [ha, hd]; cases send <;> rfl
  rw [if_pos hx3]
  simp [ha, h, hr, he]

theorem scan_fire_response (E : Env) (i o : Endpoint) (send : Bool) (hx : List Char)
    (m : monitor) (rest : List monitor) (s : zwave_state) (g : Globals)
    (pm : Nat → regmatch_t) (resp : List Char)
    (ha : m.armed = true) (hd : m.intercept = send)
    (h : m.pattern.regexec hx = some pm) (hr : m.response = some resp)
    (he : (synthesize E m pm resp s g).error = false) :
    scan_monitors E i o send hx (m :: rest) s g =
      (after_fire m ++ rest,
       (respond (if m.forward then o else i) (synthesize E m pm resp s g).s
          (synthesize E m pm resp s g).g).1,
       notify_fire E send hx m pm
         (respond (if m.forward then o else i) (synthesize E m pm resp s g).s
            (synthesize E m pm resp s g).g).1
         (respond (if m.forward then o else i) (synthesize E m pm resp s g).s
            (synthesize E m pm resp s g).g).2,
       true) := by
  rw [scan_monitors]
  have hx3 : Bool.xor (Bool.xor m.intercept send) m.armed = true := by
    rw [ha, hd]; cases send <;> rfl
  rw [if_pos hx3]
  simp [ha, h, hr, he, after_fire, notify_fire]


/-! ## The notification queue -/

theorem DequeueHTTPData_history (E : Env) (g : Globals) :
    http_history (DequeueHTTPData E g) = http_history g := by
  unfold DequeueHTTPData http_history
  split
  · rfl
  · rename_i req rest hreq
    split
    · simp [hreq]
    · rfl

theorem DequeueHTTPData_clock (E : Env) (g : Globals) :
    (DequeueHTTPData E g).clock_reads = g.clock_reads := by
  unfold DequeueHTTPData
  split
  · rfl
  · split <;> rfl

theorem DequeueHTTPData_sink (E : Env) (g : Globals) :
    (DequeueHTTPData E g).http_sink = g.http_sink
    ∨ (g.http_active = false ∧ g.http_holdoff = false
        ∧ ∃ req, g.requests.head? = some req
          ∧ (DequeueHTTPData E g).http_sink
              = g.http_sink ++ [(req, E.http_write g.http_sink.length)]
          ∧ (E.http_write g.http_sink.length = true →
              (DequeueHTTPData E g).http_active = true)) := by
  unfold DequeueHTTPData
  split
  · exact Or.inl rfl
  · rename_i req rest hreq
    split
    · rename_i hg
      right
      simp only [Bool.and_eq_true, Bool.not_eq_true'] at hg
      refine ⟨hg.1, hg.2, req, by simp [hreq], rfl, ?_⟩
      intro hw
      simp [hw]
    · exact Or.inl rfl

theorem DequeueHTTPData_active (E : Env) (g : Globals) (h : g.http_active = true) :
    DequeueHTTPData E g = g := by
  unfold DequeueHTTPData
  split
  · rfl
  · simp [h]

theorem http_step_history (E : Env) (g : Globals) (e : HttpEvent) :
    http_history (http_step E g e) = http_history g ++ enqueued E g.clock_reads [e]
    ∧ (http_step E g e).clock_reads = g.clock_reads + (enqueued E g.clock_reads [e]).length := by
  cases e with
  | send m command hexbuff pmatch error_message =>
    simp only [http_step, send_http, enqueued]
    split
    · simp
    · rw [DequeueHTTPData_history, DequeueHTTPData_clock]
      simp [http_history]
  | dequeue => simp [http_step, enqueued, DequeueHTTPData_history, DequeueHTTPData_clock]
  | readable =>
    simp only [http_step, enqueued, http_readable, DequeueHTTPData_history,
      DequeueHTTPData_clock]
    simp [http_history]
  | holdoff b => simp [http_step, enqueued, http_history]

theorem enqueued_cons (E : Env) (clock : Nat) (e : HttpEvent) (evs : List HttpEvent) :
    enqueued E clock (e :: evs)
      = enqueued E clock [e] ++ enqueued E (clock + (enqueued E clock [e]).length) evs := by
  cases e with
  | send m command hexbuff pmatch error_message =>
    simp only [enqueued]
    split <;> simp
  | dequeue => simp [enqueued]
  | readable => simp [enqueued]
  | holdoff b => simp [enqueued]

theorem http_run_history (E : Env) (evs : List HttpEvent) : ∀ (g : Globals),
    http_history (http_run E g evs) = http_history g ++ enqueued E g.clock_reads evs := by
  induction evs with
  | nil => intro g; simp [http_run, enqueued]
  | cons e evs ih =>
    intro g
    have h := http_step_history E g e
    have := ih (http_step E g e)
    simp only [http_run, List.foldl_cons] at this ⊢
    rw [this, h.1, h.2, enqueued_cons E g.clock_reads e evs, List.append_assoc]

theorem http_step_sink (E : Env) (a : Globals) (e : HttpEvent) :
    (http_step E a e).http_sink = a.http_sink
    ∨ ((e = HttpEvent.readable ∨ a.http_active = false) ∧ a.http_holdoff = false
        ∧ ∃ req, (a.requests ++ enqueued E a.clock_reads [e]).head? = some req
          ∧ (http_step E a e).http_sink
              = a.http_sink ++ [(req, E.http_write a.http_sink.length)]
          ∧ (E.http_write a.http_sink.length = true →
              (http_step E a e).http_active = true)) := by
  cases e with
  | send m command hexbuff pmatch error_message =>
    simp only [http_step, send_http, enqueued]
    split
    · exact Or.inl rfl
    · rcases DequeueHTTPData_sink E
        { a with requests := a.requests ++ [http_text m command (E.now_fp_seconds a.clock_reads)
            hexbuff pmatch error_message], clock_reads := a.clock_reads + 1 } with h | h
      · exact Or.inl h
      · exact Or.inr ⟨Or.inr h.1, h.2.1, h.2.2⟩
  | dequeue =>
    rcases DequeueHTTPData_sink E a with h | h
    · exact Or.inl h
    · refine Or.inr ⟨Or.inr h.1, h.2.1, ?_⟩
      simpa [enqueued, http_step] using h.2.2
  | readable =>
    rcases DequeueHTTPData_sink E { a with http_active := false } with h | h
    · exact Or.inl h
    · refine Or.inr ⟨Or.inl rfl, h.2.1, ?_⟩
      simpa [enqueued, http_step, http_readable] using h.2.2
  | holdoff b => exact Or.inl rfl

theorem http_step_active (E : Env) (a : Globals) (e : HttpEvent)
    (h : a.http_active = true) (he : e ≠ HttpEvent.readable) :
    (http_step E a e).http_active = true ∧ (http_step E a e).http_sink = a.http_sink := by
  cases e with
  | send m command hexbuff pmatch error_message =>
    simp only [http_step, send_http]
    split
    · exact ⟨h, rfl⟩
    · rw [DequeueHTTPData_active E _ (by exact h)]
      exact ⟨h, rfl⟩
  | dequeue =>
    simp only [http_step]
    rw [DequeueHTTPData_active E _ h]
    exact ⟨h, rfl⟩
  | readable => exact absurd rfl he
  | holdoff b => exact ⟨h, rfl⟩

/-! ## The synthesized bytes do not depend on the globals -/

theorem addZwaveResponseData_indep (E : Env) (m : monitor) (s : zwave_state)
    (g g0 : Globals) (data : List Nat) (len : Int) :
    (addZwaveResponseData E m s g data len).1 = (addZwaveResponseData E m s g0 data len).1
    ∧ (addZwaveResponseData E m s g data len).2.2
        = (addZwaveResponseData E m s g0 data len).2.2 := by
  unfold addZwaveResponseData
  split <;> exact ⟨rfl, rfl⟩

theorem response_switch_indep (E : Env) (m : monitor) (pm : Nat → regmatch_t)
    (st st0 : ResponseLoop) (val : Nat)
    (hs : st.s = st0.s) (hr : st.rstate = st0.rstate) (hb : st.byte = st0.byte)
    (he : st.error = st0.error) :
    (response_switch E m pm st val).s = (response_switch E m pm st0 val).s
    ∧ (response_switch E m pm st val).rstate = (response_switch E m pm st0 val).rstate
    ∧ (response_switch E m pm st val).byte = (response_switch E m pm st0 val).byte
    ∧ (response_switch E m pm st val).error = (response_switch E m pm st0 val).error := by
  obtain ⟨s, g, rstate, byte, error⟩ := st
  obtain ⟨s0, g0, rstate0, byte0, error0⟩ := st0
  simp only at hs hr hb he
  subst hs hr hb he
  rcases rstate with _ | _ | _ | _ | _ | _ | n
  · exact ⟨rfl, rfl, rfl, rfl⟩
  · have := addZwaveResponseData_indep E m s g g0 [((byte <<< 4) + val) % 256] 1
    exact ⟨this.1, rfl, rfl, this.2⟩
  · have := addZwaveResponseData_indep E m s g g0 [byte] 1
    exact ⟨this.1, rfl, rfl, this.2⟩
  · simp only [response_switch, zero_add, Nat.reduceAdd]
    split
    · simp
    · have := addZwaveResponseData_indep E m s g g0
        (s.packet_buff.drop ((pm val).rm_so / 3).toNat)
        ((2 + (pm val).rm_eo - (pm val).rm_so) / 3)
      simp [this.1, this.2]
  · exact ⟨rfl, rfl, rfl, rfl⟩
  · simp only [response_switch, zero_add, Nat.reduceAdd]
    split
    · simp
    · rw [(addZwaveResponseData_indep E m _ g g0 _ _).1,
        (addZwaveResponseData_indep E m _ g g0 _ _).2]
      simp
  · exact ⟨rfl, rfl, rfl, rfl⟩

theorem response_switch_same (E : Env) (m : monitor) (pm : Nat → regmatch_t)
    (st st0 : ResponseLoop) (val : Nat) (h : same_synthesis st st0) :
    same_synthesis (response_switch E m pm st val) (response_switch E m pm st0 val) :=
  response_switch_indep E m pm st st0 val h.1 h.2.1 h.2.2.1 h.2.2.2

theorem response_char_same (E : Env) (m : monitor) (pm : Nat → regmatch_t)
    (st st0 : ResponseLoop) (c : Char) (h : same_synthesis st st0) :
    same_synthesis (response_char E m pm st c) (response_char E m pm st0 c) := by
  have hr : st.rstate = st0.rstate := h.2.1
  unfold response_char
  rw [hr]
  repeat' split
  all_goals first
    | exact response_switch_same E m pm _ _ _ h
    | exact h
    | exact response_switch_same E m pm _ _ _ ⟨h.1, rfl, h.2.2.1, h.2.2.2⟩
    | exact ⟨h.1, rfl, h.2.2.1, h.2.2.2⟩
    | exact ⟨h.1, hr, h.2.2.1, rfl⟩
    | exact ⟨h.1, rfl, h.2.2.1, rfl⟩

theorem response_loop_same (E : Env) (m : monitor) (pm : Nat → regmatch_t) (r : List Char) :
    ∀ (st st0 : ResponseLoop), same_synthesis st st0 →
      same_synthesis (response_loop E m pm r st) (response_loop E m pm r st0) := by
  induction r with
  | nil => intro st st0 h; exact h
  | cons c r ih =>
    intro st st0 h
    rw [response_loop, response_loop, h.2.2.2]
    split
    · exact h
    · exact ih _ _ (response_char_same E m pm st st0 c h)

theorem synthesize_same (E : Env) (m : monitor) (pm : Nat → regmatch_t) (r : List Char)
    (s : zwave_state) (g g0 : Globals) :
    same_synthesis (synthesize E m pm r s g) (synthesize E m pm r s g0) := by
  unfold synthesize
  have h := response_loop_same E m pm r
    { s := { s with
        response_zpos := 0
        response_numParts := 0
        response_partNum := 0
        response_partpos := s.response_partpos.set 0 0
        response_zstate := 0 }, g := g, rstate := 0, byte := 0, error := false }
    { s := { s with
        response_zpos := 0
        response_numParts := 0
        response_partNum := 0
        response_partpos := s.response_partpos.set 0 0
        response_zstate := 0 }, g := g0, rstate := 0, byte := 0, error := false }
    ⟨rfl, rfl, rfl, rfl⟩
  simp only
  rw [h.2.2.2, h.2.1]
  split
  · refine ⟨?_, rfl, ?_, ?_⟩
    · simp only []
      rw [h.1, h.2.2.1]
      exact (addZwaveResponseData_indep E m _ _ _ _ _).1
    · exact h.2.2.1
    · simp only []
      rw [h.1, h.2.2.1]
      exact (addZwaveResponseData_indep E m _ _ _ _ _).2
  · exact h

/-! ## What a notification leaves alone -/

theorem DequeueHTTPData_frame (E : Env) (g : Globals) :
    (DequeueHTTPData E g).serial = g.serial
    ∧ (DequeueHTTPData E g).monitors = g.monitors
    ∧ (DequeueHTTPData E g).http_holdoff = g.http_holdoff
    ∧ (DequeueHTTPData E g).registered = g.registered := by
  unfold DequeueHTTPData
  split
  · exact ⟨rfl, rfl, rfl, rfl⟩
  · split <;> exact ⟨rfl, rfl, rfl, rfl⟩

theorem send_http_frame (E : Env) (m : monitor) (command hexbuff : List Char)
    (pm : Option (Nat → regmatch_t)) (err : Option (List Char)) (g : Globals) :
    (send_http E m command hexbuff pm err g).serial = g.serial
    ∧ (send_http E m command hexbuff pm err g).monitors = g.monitors
    ∧ (send_http E m command hexbuff pm err g).http_holdoff = g.http_holdoff
    ∧ (send_http E m command hexbuff pm err g).registered = g.registered := by
  unfold send_http
  split
  · exact ⟨rfl, rfl, rfl, rfl⟩
  · exact DequeueHTTPData_frame E _

theorem notify_fire_serial (E : Env) (send : Bool) (hx : List Char) (m : monitor)
    (pm : Nat → regmatch_t) (s : zwave_state) (g : Globals) :
    (notify_fire E send hx m pm s g).serial = g.serial := by
  unfold notify_fire
  rw [(send_http_frame E m _ hx (some pm) none _).1]
  split <;> rfl

theorem scan_observers (E : Env) (i o : Endpoint) (send : Bool) (hx : List Char)
    (ms : List monitor) : ∀ (pre : List monitor) (s : zwave_state) (g : Globals),
    observers send hx pre →
    scan_monitors E i o send hx (pre ++ ms) s g =
        ((scan_monitors E i o send hx pre s g).1
            ++ (scan_monitors E i o send hx ms s (scan_monitors E i o send hx pre s g).2.2.1).1,
         (scan_monitors E i o send hx ms s (scan_monitors E i o send hx pre s g).2.2.1).2)
    ∧ (scan_monitors E i o send hx pre s g).2.1 = s
    ∧ (scan_monitors E i o send hx pre s g).2.2.2 = false
    ∧ (scan_monitors E i o send hx pre s g).2.2.1.serial = g.serial := by
  intro pre
  induction pre with
  | nil => intro s g _; exact ⟨by simp [scan_monitors], rfl, rfl, rfl⟩
  | cons p pre ih =>
    intro s g hobs
    have hpre : observers send hx pre := fun q hq => hobs q (List.mem_cons_of_mem _ hq)
    have hp := hobs p (List.mem_cons_self _ _)
    rw [List.cons_append]
    cases hx3 : Bool.xor (Bool.xor p.intercept send) p.armed with
    | false =>
      rw [scan_skip E i o send hx p _ s g hx3, scan_skip E i o send hx p _ s g hx3]
      obtain ⟨h1, h2, h3, h4⟩ := ih s g hpre
      exact ⟨by rw [h1]; rfl, h2, h3, h4⟩
    | true =>
      cases hr : (if p.armed then p.pattern else p.arm_pattern).regexec hx with
      | none =>
        rw [scan_nomatch E i o send hx p _ s g hr, scan_nomatch E i o send hx p _ s g hr]
        obtain ⟨h1, h2, h3, h4⟩ := ih s g hpre
        exact ⟨by rw [h1]; rfl, h2, h3, h4⟩
      | some pm =>
        cases ha : p.armed with
        | false =>
          rw [ha] at hr hx3
          have hd : p.intercept ≠ send := by
            intro h; rw [h] at hx3; cases send <;> simp at hx3
          rw [scan_arm E i o send hx p _ s g pm ha hd hr,
            scan_arm E i o send hx p _ s g pm ha hd hr]
          obtain ⟨h1, h2, h3, h4⟩ := ih s g hpre
          exact ⟨by rw [h1]; rfl, h2, h3, h4⟩
        | true =>
          rw [ha] at hr hx3
          have hd : p.intercept = send := by
            cases hi : p.intercept <;> cases send <;> simp_all
          have hresp := hp ha hd (by simp at hr; simp [hr])
          rw [scan_fire_plain E i o send hx p _ s g pm ha hd hr hresp,
            scan_fire_plain E i o send hx p _ s g pm ha hd hr hresp]
          obtain ⟨h1, h2, h3, h4⟩ := ih s (notify_fire E send hx p pm s g) hpre
          refine ⟨by rw [h1]; simp, h2, h3, ?_⟩
          rw [h4, notify_fire_serial]

/-! ## A synthesis without error leaves the globals alone -/

theorem addZwaveResponseData_ok (E : Env) (m : monitor) (s : zwave_state) (g : Globals)
    (data : List Nat) (len : Int) (h : (addZwaveResponseData E m s g data len).2.2 = false) :
    (addZwaveResponseData E m s g data len).2.1 = g := by
  unfold addZwaveResponseData at h ⊢
  split
  · rename_i hc; simp [hc] at h
  · rfl

theorem response_switch_ok (E : Env) (m : monitor) (pm : Nat → regmatch_t)
    (st : ResponseLoop) (val : Nat) (h : (response_switch E m pm st val).error = false)
    (h0 : st.error = false) :
    (response_switch E m pm st val).g = st.g := by
  obtain ⟨s, g, rstate, byte, error⟩ := st
  rcases rstate with _ | _ | _ | _ | _ | _ | n
  · rfl
  · exact addZwaveResponseData_ok E m s g _ _ h
  · exact addZwaveResponseData_ok E m s g _ _ h
  · simp only [response_switch, zero_add, Nat.reduceAdd] at h ⊢
    split
    · rename_i hc; simp [hc] at h
    · rename_i hc
      simp only [hc, if_false] at h
      exact addZwaveResponseData_ok E m s g _ _ h
  · rfl
  · simp only [response_switch, zero_add, Nat.reduceAdd] at h ⊢
    split
    · rename_i hc; simp [hc] at h
    · rename_i hc
      simp only [hc, if_false, Bool.or_eq_false_iff] at h
      exact addZwaveResponseData_ok E m _ g _ _ h.1
  · rfl

theorem response_char_cases (E : Env) (m : monitor) (pm : Nat → regmatch_t)
    (st : ResponseLoop) (c : Char) :
    (∃ st1 val, response_char E m pm st c = response_switch E m pm st1 val
        ∧ st1.g = st.g ∧ st1.error = st.error ∧ st1.s = st.s)
    ∨ ((response_char E m pm st c).g = st.g ∧ (response_char E m pm st c).s = st.s
        ∧ (response_char E m pm st c).error = st.error)
    ∨ ((response_char E m pm st c).error = true ∧ (response_char E m pm st c).s = st.s) := by
  unfold response_char
  repeat' split
  all_goals first
    | exact Or.inl ⟨_, _, rfl, rfl, rfl, rfl⟩
    | exact Or.inr (Or.inl ⟨rfl, rfl, rfl⟩)
    | exact Or.inr (Or.inr ⟨rfl, rfl⟩)

theorem response_char_ok (E : Env) (m : monitor) (pm : Nat → regmatch_t)
    (st : ResponseLoop) (c : Char) (h : (response_char E m pm st c).error = false)
    (h0 : st.error = false) :
    (response_char E m pm st c).g = st.g := by
  rcases response_char_cases E m pm st c with ⟨st1, val, he, hg, her, _⟩ | hg | hg
  · rw [he] at h ⊢
    rw [response_switch_ok E m pm st1 val h (her.trans h0), hg]
  · exact hg.1
  · rw [hg.1] at h; cases h

theorem response_loop_error (E : Env) (m : monitor) (pm : Nat → regmatch_t) (r : List Char)
    (st : ResponseLoop) (h : st.error = true) : response_loop E m pm r st = st := by
  cases r with
  | nil => rfl
  | cons c r => rw [response_loop, if_pos h]

theorem response_loop_ok (E : Env) (m : monitor) (pm : Nat → regmatch_t) (r : List Char) :
    ∀ (st : ResponseLoop), (response_loop E m pm r st).error = false →
      (response_loop E m pm r st).g = st.g := by
  induction r with
  | nil => intro st _; rfl
  | cons c r ih =>
    intro st h
    rw [response_loop] at h ⊢
    split
    · rfl
    · rename_i h0
      rw [if_neg h0] at h
      have h0 : st.error = false := by simpa using h0
      cases hc : (response_char E m pm st c).error with
      | true => rw [response_loop_error E m pm r _ hc] at h; rw [hc] at h; cases h
      | false => rw [ih _ h, response_char_ok E m pm st c hc h0]

theorem synthesize_ok (E : Env) (m : monitor) (pm : Nat → regmatch_t) (r : List Char)
    (s : zwave_state) (g : Globals) (h : (synthesize E m pm r s g).error = false) :
    (synthesize E m pm r s g).g = g := by
  unfold synthesize at h ⊢
  simp only at h ⊢
  split
  · rename_i hc
    rw [if_pos hc] at h
    simp only [Bool.and_eq_true, Bool.not_eq_true', decide_eq_true_eq] at hc
    simp only at h
    rw [addZwaveResponseData_ok E m _ _ _ _ h, response_loop_ok E m pm r _ hc.1]
  · rename_i hc
    rw [if_neg hc] at h
    rw [response_loop_ok E m pm r _ h]

theorem respond_eq (fd : Endpoint) (s : zwave_state) (g g0 : Globals) :
    (respond fd s g).1 = (respond fd s g0).1
    ∧ (respond fd s g).2 = { g with serial := g.serial ++
        [(fd, (respond fd s g0).1.response_buff.take
                ((respond fd s g0).1.response_partpos.getD 1 0))] } := by
  unfold respond
  exact ⟨rfl, rfl⟩

/-! ## The first part starts at offset 0 -/

theorem foldl_addZwaveResponseByte_partpos (cs : List Nat) : ∀ (s : zwave_state),
    (cs.foldl addZwaveResponseByte s).response_partpos = s.response_partpos
    ∧ (cs.foldl addZwaveResponseByte s).response_numParts = s.response_numParts := by
  induction cs with
  | nil => intro s; exact ⟨rfl, rfl⟩
  | cons c cs ih =>
    intro s
    rw [List.foldl_cons, (ih _).1, (ih _).2]
    unfold addZwaveResponseByte
    split
    · split <;> exact ⟨rfl, rfl⟩
    · exact ⟨rfl, rfl⟩

theorem addZwaveResponseData_partpos (E : Env) (m : monitor) (s : zwave_state)
    (g : Globals) (data : List Nat) (len : Int) :
    (addZwaveResponseData E m s g data len).1.response_partpos = s.response_partpos
    ∧ (addZwaveResponseData E m s g data len).1.response_numParts = s.response_numParts := by
  unfold addZwaveResponseData
  split
  · exact ⟨rfl, rfl⟩
  · exact foldl_addZwaveResponseByte_partpos _ _

theorem response_switch_partpos0 (E : Env) (m : monitor) (pm : Nat → regmatch_t)
    (st : ResponseLoop) (val : Nat) :
    (response_switch E m pm st val).s.response_partpos.getD 0 0
      = st.s.response_partpos.getD 0 0 := by
  obtain ⟨s, g, rstate, byte, error⟩ := st
  rcases rstate with _ | _ | _ | _ | _ | _ | n
  · rfl
  · exact congrArg (fun l => List.getD l 0 0) (addZwaveResponseData_partpos E m s g _ _).1
  · exact congrArg (fun l => List.getD l 0 0) (addZwaveResponseData_partpos E m s g _ _).1
  · simp only [response_switch, zero_add, Nat.reduceAdd]
    split
    · rfl
    · exact congrArg (fun l => List.getD l 0 0) (addZwaveResponseData_partpos E m s g _ _).1
  · rfl
  · simp only [response_switch, zero_add, Nat.reduceAdd, List.getD_eq_getElem?_getD]
    rw [List.getElem?_set_ne (by omega)]
    split
    · rfl
    · rw [(addZwaveResponseData_partpos E m _ g _ _).1]
  · rfl

theorem response_loop_partpos0 (E : Env) (m : monitor) (pm : Nat → regmatch_t)
    (r : List Char) : ∀ (st : ResponseLoop),
    (response_loop E m pm r st).s.response_partpos.getD 0 0
      = st.s.response_partpos.getD 0 0 := by
  induction r with
  | nil => intro st; rfl
  | cons c r ih =>
    intro st
    rw [response_loop]
    split
    · rfl
    · rw [ih]
      rcases response_char_cases E m pm st c with ⟨st1, val, he, _, _, hs⟩ | hg | hg
      · rw [he, response_switch_partpos0, hs]
      · rw [hg.2.1]
      · rw [hg.2]

theorem set_zero_getD (l : List Nat) : (l.set 0 0).getD 0 0 = 0 := by
  cases l <;> rfl

theorem synthesize_partpos0 (E : Env) (m : monitor) (pm : Nat → regmatch_t) (r : List Char)
    (s : zwave_state) (g : Globals) :
    (synthesize E m pm r s g).s.response_partpos.getD 0 0 = 0 := by
  unfold synthesize
  simp only
  split
  · simp only [(addZwaveResponseData_partpos E m _ _ _ _).1, response_loop_partpos0]
    exact set_zero_getD _
  · rw [response_loop_partpos0]
    exact set_zero_getD _

theorem respond_first_part (fd : Endpoint) (s : zwave_state) (g : Globals)
    (h : s.response_partpos.getD 0 0 = 0) :
    (respond fd s g).2 = { g with serial := g.serial ++
        [(fd, response_part (respond fd s g).1 0)] } := by
  have h0 : (respond fd s g).1.response_partpos.getD 0 0 = 0 := by
    unfold respond
    simp only
    split
    · simp only [List.getD_eq_getElem?_getD] at h ⊢
      rw [List.getElem?_set_ne (by omega)]
      exact h
    · exact h
  rw [(respond_eq fd s g g).2]
  unfold response_part
  rw [h0]
  simp

/-! ## A frame that fires a rule with a response -/

theorem process_zwave_fire_response (E : Env) (i o : Endpoint) (send : Bool)
    (s : zwave_state) (g : Globals) (f : List Nat) (pre post : List monitor) (m : monitor)
    (pm : Nat → regmatch_t) (resp : List Char)
    (hv : valid_frame f) (h3 : 3 ≤ f.length) (h128 : f.length ≤ 128) (hs : s.state = 0)
    (hbuf : s.packet_buff.length = MAX_ZWAVE_BUFF_SIZE)
    (hg : g.monitors = pre ++ m :: post) (hpre : observers send (hex_of f) pre)
    (ha : m.armed = true) (hd : m.intercept = send)
    (hm : m.pattern.regexec (hex_of f) = some pm) (hr : m.response = some resp)
    (he : (synthesize E m pm resp (at_checksum send s f) g).error = false) :
    process_zwave E i o send s g f =
      ({ (respond (if m.forward then o else i)
            (synthesize E m pm resp (at_checksum send s f) g).s g).1 with state := 0 },
       { notify_fire E send (hex_of f) m pm
           (respond (if m.forward then o else i)
              (synthesize E m pm resp (at_checksum send s f) g).s g).1
           { (scan_monitors E i o send (hex_of f) pre (at_checksum send s f) g).2.2.1 with
             serial := g.serial ++ [(if m.forward then o else i,
               response_part (respond (if m.forward then o else i)
                 (synthesize E m pm resp (at_checksum send s f) g).s g).1 0)] }
         with monitors :=
           (scan_monitors E i o send (hex_of f) pre (at_checksum send s f) g).1
             ++ after_fire m ++ post }) := by
  rw [process_zwave_good E i o send s g f hv.1 h3 h128 hs hbuf hv.2, hg]
  obtain ⟨h1, h2, _, h4⟩ := scan_observers E i o send (hex_of f) (m :: post) pre
    (at_checksum send s f) g hpre
  have hsame := synthesize_same E m pm resp (at_checksum send s f)
    (scan_monitors E i o send (hex_of f) pre (at_checksum send s f) g).2.2.1 g
  have he2 : (synthesize E m pm resp (at_checksum send s f)
      (scan_monitors E i o send (hex_of f) pre (at_checksum send s f) g).2.2.1).error = false :=
    hsame.2.2.2.trans he
  rw [h1, scan_fire_response E i o send (hex_of f) m post _ _ pm resp ha hd hm hr he2]
  simp only [if_true]
  rw [synthesize_ok E m pm resp _ _ he2, hsame.1,
    respond_first_part _ _ _ (synthesize_partpos0 E m pm resp _ g),
    (respond_eq (if m.forward then o else i) (synthesize E m pm resp (at_checksum send s f) g).s
      (scan_monitors E i o send (hex_of f) pre (at_checksum send s f) g).2.2.1 g).1, h4]
  simp only [List.append_assoc]

/-! ## Fixtures for the concrete scenarios -/

/-- Scenario S1 as an instance of C1: no rules, the host writes
`01 03 00 02 FE`, the controller endpoint gets the same five bytes, nothing is
queued. -/
theorem C1_witness_pure_passthrough :
    valid_frame [1, 3, 0, 2, 0xFE]
    ∧ (process_zwave env_ok Endpoint.host Endpoint.controller true zwave_state.init
          Globals.init [1, 3, 0, 2, 0xFE]).2.serial
        = [(Endpoint.controller, [1, 3, 0, 2, 0xFE])]
    ∧ (process_zwave env_ok Endpoint.host Endpoint.controller true zwave_state.init
          Globals.init [1, 3, 0, 2, 0xFE]).2.requests = []
    ∧ (process_zwave env_ok Endpoint.host Endpoint.controller true zwave_state.init
          Globals.init [1, 3, 0, 2, 0xFE]).2.http_sink = [] :=
  have hv : valid_frame [1, 3, 0, 2, 0xFE] :=
    ⟨⟨3, [0, 2, 0xFE], rfl, rfl, by decide, by decide⟩, by decide⟩
  have h := C1_unmatched_frame_passes env_ok Endpoint.host Endpoint.controller true
    zwave_state.init Globals.init [1, 3, 0, 2, 0xFE] hv (by decide) (by decide) rfl rfl
    (fun m hm => by cases hm)
  ⟨hv, h.1, h.2.1, h.2.2.1⟩

/-- An instance of C2 with a bad checksum: the host writes `01 03 00 02 00`
while the S6 rule is registered; the five bytes go to the controller and the
rule list is as before. -/
theorem C2_witness_bad_checksum :
    xor_sum [3, 0, 2, 0] ≠ 0
    ∧ (process_zwave env_ok Endpoint.host Endpoint.controller true zwave_state.init
          { Globals.init with monitors := [s6_rule] } [1, 3, 0, 2, 0]).2.serial
        = [(Endpoint.controller, [1, 3, 0, 2, 0])] :=
  have hx : xor_sum [3, 0, 2, 0] ≠ 0 := by decide
  ⟨hx, congrArg (fun r => r.2.serial)
    ((C2_checksum_decides_dispatch env_ok Endpoint.host Endpoint.controller true
      zwave_state.init { Globals.init with monitors := [s6_rule] } [1, 3, 0, 2, 0]
      ⟨3, [0, 2, 0], rfl, rfl, by decide, by decide⟩ (by decide) (by decide) rfl rfl).2.2 hx)⟩

/-- C3, evaluated where it fails: with no rules, the two bytes `01 80` read in
one chunk are both written to the controller, but read as the chunks `01` and
`80` only `80` is written: the SOF byte is lost although the scanner is idle
at the end. -/
theorem C3_split_after_sof_loses_byte :
    (process_zwave env_ok Endpoint.host Endpoint.controller true zwave_state.init
        Globals.init [1, 0x80]).2.serial = [(Endpoint.controller, [1, 0x80])]
    ∧ (process_zwave env_ok Endpoint.host Endpoint.controller true
        (process_zwave env_ok Endpoint.host Endpoint.controller true zwave_state.init
          Globals.init [1]).1
        (process_zwave env_ok Endpoint.host Endpoint.controller true zwave_state.init
          Globals.init [1]).2 [0x80]).2.serial = [(Endpoint.controller, [0x80])]
    ∧ (process_zwave env_ok Endpoint.host Endpoint.controller true
        (process_zwave env_ok Endpoint.host Endpoint.controller true zwave_state.init
          Globals.init [1]).1
        (process_zwave env_ok Endpoint.host Endpoint.controller true zwave_state.init
          Globals.init [1]).2 [0x80]).1.state = 0 := by
  refine ⟨by decide, by decide, by decide⟩

/-- C10. Over any sequence of queue events (calls of `send_http` and of
`DequeueHTTPData`, HTTP-readable events, assignments of `http_holdoff` by the
dispatcher): the requests handed to the socket so far followed by those still
queued are the requests that were there at the start followed by the enqueued
ones, in enqueue order; one more event hands at most one request to the
socket, and when it does, `http_holdoff` was clear, `http_active` was clear or
is cleared by this very event (HTTP-readable), the request is the oldest one
not yet handed over, and a successful write sets `http_active`; and while
`http_active` is set no event but HTTP-readable hands anything to the socket
or clears it. -/
theorem C10_queue_is_fifo (E : Env) (g : Globals) (evs : List HttpEvent) (e : HttpEvent) :
    http_history (http_run E g evs) = http_history g ++ enqueued E g.clock_reads evs
    ∧ ((http_step E (http_run E g evs) e).http_sink = (http_run E g evs).http_sink
        ∨ ((e = HttpEvent.readable ∨ (http_run E g evs).http_active = false)
            ∧ (http_run E g evs).http_holdoff = false
            ∧ ∃ req, ((http_run E g evs).requests
                        ++ enqueued E (http_run E g evs).clock_reads [e]).head? = some req
              ∧ (http_step E (http_run E g evs) e).http_sink
                  = (http_run E g evs).http_sink
                      ++ [(req, E.http_write (http_run E g evs).http_sink.length)]
              ∧ (E.http_write (http_run E g evs).http_sink.length = true →
                  (http_step E (http_run E g evs) e).http_active = true)))
    ∧ ((http_run E g evs).http_active = true → e ≠ HttpEvent.readable →
        (http_step E (http_run E g evs) e).http_active = true
        ∧ (http_step E (http_run E g evs) e).http_sink = (http_run E g evs).http_sink) :=
  ⟨http_run_history E evs g, http_step_sink E _ e, http_step_active E _ e⟩

/-- C9, evaluated where it fails. After `ack_rule` fired on a host frame the
expectation is one ACK and `http_holdoff` is set. (a) The host then writes
`15` instead of `06`: the expectation is gone (`response_numParts = 0`) but
`http_holdoff` is still set and the notification is still queued. (b) The host
instead writes `06`, the sink answers, and the host writes the valid frame
`01 03 00 02 FE`, which fires `observer_rule`, a rule without response:
`http_holdoff` is set again although no ACK is awaited
(`response_partNum = response_numParts`), and its notification stays queued. -/
theorem C9_holdoff_without_expectation :
    (after_ack_rule_fired.2.http_holdoff = true
      ∧ after_ack_rule_fired.1.response_partNum = 0
      ∧ after_ack_rule_fired.1.response_numParts = 1)
    ∧ ((host_readable env_ok after_ack_rule_fired.1 after_ack_rule_fired.2
          [0x15]).1.response_numParts = 0
      ∧ (host_readable env_ok after_ack_rule_fired.1 after_ack_rule_fired.2
          [0x15]).2.http_holdoff = true
      ∧ (host_readable env_ok after_ack_rule_fired.1 after_ack_rule_fired.2
          [0x15]).2.requests.length = 1
      ∧ (host_readable env_ok after_ack_rule_fired.1 after_ack_rule_fired.2
          [0x15]).2.http_sink = [])
    ∧ ((host_readable env_ok
          (host_readable env_ok after_ack_rule_fired.1 after_ack_rule_fired.2 [6]).1
          (http_readable env_ok
            (host_readable env_ok after_ack_rule_fired.1 after_ack_rule_fired.2 [6]).2)
          [1, 3, 0, 2, 0xFE]).2.http_holdoff = true
      ∧ (host_readable env_ok
          (host_readable env_ok after_ack_rule_fired.1 after_ack_rule_fired.2 [6]).1
          (http_readable env_ok
            (host_readable env_ok after_ack_rule_fired.1 after_ack_rule_fired.2 [6]).2)
          [1, 3, 0, 2, 0xFE]).1.response_partNum = 1
      ∧ (host_readable env_ok
          (host_readable env_ok after_ack_rule_fired.1 after_ack_rule_fired.2 [6]).1
          (http_readable env_ok
            (host_readable env_ok after_ack_rule_fired.1 after_ack_rule_fired.2 [6]).2)
          [1, 3, 0, 2, 0xFE]).1.response_numParts = 1
      ∧ (host_readable env_ok
          (host_readable env_ok after_ack_rule_fired.1 after_ack_rule_fired.2 [6]).1
          (http_readable env_ok
            (host_readable env_ok after_ack_rule_fired.1 after_ack_rule_fired.2 [6]).2)
          [1, 3, 0, 2, 0xFE]).2.requests.length = 1
      ∧ (host_readable env_ok
          (host_readable env_ok after_ack_rule_fired.1 after_ack_rule_fired.2 [6]).1
          (http_readable env_ok
            (host_readable env_ok after_ack_rule_fired.1 after_ack_rule_fired.2 [6]).2)
          [1, 3, 0, 2, 0xFE]).2.http_active = false) := by
  refine ⟨⟨by decide, by decide, by decide⟩, ⟨by decide, by decide, by decide, by decide⟩,
    ⟨by decide, by decide, by decide, by decide, by decide⟩⟩

/-! ## ACK accounting -/

theorem ack_more (E : Env) (i o : Endpoint) (s : zwave_state) (g : Globals)
    (hs : s.state = 0) (h : s.response_partNum + 1 < s.response_numParts) :
    process_byte E i o true { s := s, g := g, pending := [] } 6 =
      { s := { s with response_partNum := s.response_partNum + 1 }
        g := { g with serial := g.serial ++ [(i, response_part s (s.response_partNum + 1))] }
        pending := [] } := by
  unfold process_byte
  have hc : (true = true ∧ s.response_partNum < s.response_numParts ∧ s.state = 0) :=
    ⟨rfl, by omega, hs⟩
  simp only [hc, and_self, if_true, h]
  rfl

theorem ack_last (E : Env) (i o : Endpoint) (s : zwave_state) (g : Globals)
    (hs : s.state = 0) (h : s.response_partNum + 1 = s.response_numParts) :
    process_byte E i o true { s := s, g := g, pending := [] } 6 =
      { s := { s with response_partNum := s.response_partNum + 1 }
        g := DequeueHTTPData E { g with http_holdoff := false }
        pending := [] } := by
  unfold process_byte
  have hc : (true = true ∧ s.response_partNum < s.response_numParts ∧ s.state = 0) :=
    ⟨rfl, by omega, hs⟩
  have hn : ¬ (s.response_partNum + 1 < s.response_numParts) := by omega
  simp only [hc, and_self, if_true, hn, if_false]

theorem ack_loop (E : Env) (i o : Endpoint) : ∀ (j : Nat) (s : zwave_state) (g : Globals),
    s.state = 0 → s.response_partNum + j < s.response_numParts →
    (List.replicate j 6).foldl (process_byte E i o true) { s := s, g := g, pending := [] } =
      { s := { s with response_partNum := s.response_partNum + j }
        g := { g with serial := g.serial ++
          (List.range j).map (fun t => (i, response_part s (s.response_partNum + 1 + t))) }
        pending := [] } := by
  intro j
  induction j with
  | zero => intro s g _ _; simp
  | succ j ih =>
    intro s g hs h
    rw [List.replicate_succ, List.foldl_cons, ack_more E i o s g hs (by omega),
      ih { s with response_partNum := s.response_partNum + 1 } _ hs (by simp only; omega)]
    have e1 : s.response_partNum + 1 + j = s.response_partNum + (j + 1) := by omega
    have e2 : (g.serial ++ [(i, response_part s (s.response_partNum + 1))]) ++
        List.map (fun t => (i, response_part { s with response_partNum := s.response_partNum + 1 }
          (s.response_partNum + 1 + 1 + t))) (List.range j)
        = g.serial ++ List.map (fun t => (i, response_part s (s.response_partNum + 1 + t)))
          (List.range (j + 1)) := by
      rw [List.range_succ_eq_map, List.map_cons, List.map_map, List.append_assoc]
      congr 1
      simp only [List.singleton_append, Nat.add_zero]
      congr 1
      apply List.map_congr_left
      intro t _
      simp only [Function.comp]
      rw [show s.response_partNum + 1 + 1 + t = s.response_partNum + 1 + (t + 1) by omega]
      rfl
    simp only [e1, e2]

theorem DequeueHTTPData_held (E : Env) (g : Globals) (h : g.http_holdoff = true) :
    DequeueHTTPData E g = g := by
  unfold DequeueHTTPData
  split
  · rfl
  · simp [h]

theorem notify_fire_holdoff (E : Env) (hx : List Char) (m : monitor)
    (pm : Nat → regmatch_t) (s : zwave_state) (g : Globals) (h : 1 ≤ s.response_numParts) :
    (notify_fire E true hx m pm s g).http_holdoff = true
    ∧ (notify_fire E true hx m pm s g).http_sink = g.http_sink := by
  unfold notify_fire
  have hc : (true && decide (s.response_numParts > 0)) = true := by simp; omega
  rw [if_pos hc]
  refine ⟨by rw [(send_http_frame E m _ hx (some pm) none _).2.2.1], ?_⟩
  unfold send_http
  split
  · rfl
  · rw [DequeueHTTPData_held E _ (by rfl)]

/-! ## Arm, then fire -/

theorem at_checksum_idle (send : Bool) (s : zwave_state) (f : List Nat)
    (hbuf : s.packet_buff.length = MAX_ZWAVE_BUFF_SIZE) :
    ({ at_checksum send s f with state := 0 } : zwave_state).state = 0
    ∧ ({ at_checksum send s f with state := 0 } : zwave_state).packet_buff.length
        = MAX_ZWAVE_BUFF_SIZE := by
  refine ⟨rfl, ?_⟩
  simp only [at_checksum, store_bytes_length, hbuf]

theorem notify_fire_history (E : Env) (send : Bool) (hx : List Char) (m : monitor)
    (pm : Nat → regmatch_t) (s : zwave_state) (g : Globals)
    (hk : m.key.head? ≠ some '*') :
    http_history (notify_fire E send hx m pm s g) = http_history g ++
      [http_text m (if send then "Intercept".toList else "Monitor".toList)
        (E.now_fp_seconds g.clock_reads) hx (some pm) none] := by
  unfold notify_fire send_http
  rw [if_neg hk, DequeueHTTPData_history]
  split <;> simp [http_history]

theorem notify_fire_frame (E : Env) (send : Bool) (hx : List Char) (m : monitor)
    (pm : Nat → regmatch_t) (s : zwave_state) (g : Globals) :
    (notify_fire E send hx m pm s g).monitors = g.monitors
    ∧ (notify_fire E send hx m pm s g).registered = g.registered := by
  unfold notify_fire
  rw [(send_http_frame E m _ hx (some pm) none _).2.1,
    (send_http_frame E m _ hx (some pm) none _).2.2.2]
  split <;> exact ⟨rfl, rfl⟩

/-- C4. (1) In the scan of a valid frame of direction `send`, a rule that is
armed and of the other direction, or unarmed and of this direction, is passed
over whatever its patterns are. (2) An unarmed rule of the other direction is
decided by its arm pattern alone: it becomes armed when that matches and is
passed over when not. (3) An armed rule of this direction whose pattern does
not match is passed over, whatever its arm pattern. (4) Scenario S5 for any
intercept rule `m` with an arm pattern, not yet armed, without response, alone
in the list: a valid host frame `f1` goes to the controller and leaves the
globals otherwise untouched even when the pattern of `m` matches it; a valid
controller frame `f2` matching the arm pattern goes to the host and arms `m`
with nothing queued; and then a valid host frame `f3` matching the pattern
fires `m`: the frame goes to the controller, `m` is left disarmed (or removed
when oneshot), and, unless the key is silent, exactly one request, the
`Intercept` notification of `m` for `f3`, enters the queue. -/
theorem C4_rule_applies_by_direction_and_phase (E : Env) (i o : Endpoint) (send : Bool)
    (hx : List Char) (m : monitor) (rest : List monitor) (s ss sr : zwave_state)
    (g : Globals) (f1 f2 f3 : List Nat) (pm2 pm3 : Nat → regmatch_t) :
    ((m.armed = true ∧ m.intercept ≠ send) ∨ (m.armed = false ∧ m.intercept = send) →
        scan_monitors E i o send hx (m :: rest) s g =
          (m :: (scan_monitors E i o send hx rest s g).1,
           (scan_monitors E i o send hx rest s g).2))
    ∧ (m.armed = false → m.intercept ≠ send →
        scan_monitors E i o send hx (m :: rest) s g =
          ((if (m.arm_pattern.regexec hx).isSome then { m with armed := true } else m)
              :: (scan_monitors E i o send hx rest s g).1,
           (scan_monitors E i o send hx rest s g).2))
    ∧ (m.armed = true → m.intercept = send → m.pattern.regexec hx = none →
        scan_monitors E i o send hx (m :: rest) s g =
          (m :: (scan_monitors E i o send hx rest s g).1,
           (scan_monitors E i o send hx rest s g).2))
    ∧ (g.monitors = [m] → m.intercept = true → m.armed = false → m.response = none →
        valid_frame f1 → 3 ≤ f1.length → f1.length ≤ 128 →
        valid_frame f2 → 3 ≤ f2.length → f2.length ≤ 128 →
        valid_frame f3 → 3 ≤ f3.length → f3.length ≤ 128 →
        ss.state = 0 → ss.packet_buff.length = MAX_ZWAVE_BUFF_SIZE →
        sr.state = 0 → sr.packet_buff.length = MAX_ZWAVE_BUFF_SIZE →
        m.arm_pattern.regexec (hex_of f2) = some pm2 →
        m.pattern.regexec (hex_of f3) = some pm3 →
        (host_readable E ss g f1).2 = { g with serial := g.serial ++ [(Endpoint.controller, f1)] }
        ∧ (controller_readable E sr (host_readable E ss g f1).2 f2).2 =
            { g with
              monitors := [{ m with armed := true }]
              serial := g.serial ++ [(Endpoint.controller, f1), (Endpoint.host, f2)] }
        ∧ (host_readable E (host_readable E ss g f1).1
              (controller_readable E sr (host_readable E ss g f1).2 f2).2 f3).2.serial =
            g.serial ++ [(Endpoint.controller, f1), (Endpoint.host, f2), (Endpoint.controller, f3)]
        ∧ (host_readable E (host_readable E ss g f1).1
              (controller_readable E sr (host_readable E ss g f1).2 f2).2 f3).2.monitors =
            after_fire { m with armed := true }
        ∧ (m.key.head? ≠ some '*' →
            http_history (host_readable E (host_readable E ss g f1).1
              (controller_readable E sr (host_readable E ss g f1).2 f2).2 f3).2 =
            http_history g ++ [http_text m "Intercept".toList (E.now_fp_seconds g.clock_reads)
              (hex_of f3) (some pm3) none])) := by
  refine ⟨?_, ?_, ?_, ?_⟩
  · intro h
    apply scan_skip
    rcases h with ⟨ha, hd⟩ | ⟨ha, hd⟩
    · rw [ha]; cases hi : m.intercept <;> cases send <;> simp_all
    · rw [ha, hd]; cases send <;> rfl
  · intro ha hd
    cases hr : m.arm_pattern.regexec hx with
    | none =>
      rw [scan_nomatch E i o send hx m rest s g (by rw [ha]; exact hr)]
      rfl
    | some pm =>
      rw [scan_arm E i o send hx m rest s g pm ha hd hr]
      rfl
  · intro ha _ hr
    exact scan_nomatch E i o send hx m rest s g (by rw [ha]; exact hr)
  · intro hg hi ha hresp hv1 h31 h1281 hv2 h32 h1282 hv3 h33 h1283 hss hbs hsr hbr hm2 hm3
    have e1 : (host_readable E ss g f1) =
        ({ at_checksum true ss f1 with state := 0 },
         { g with serial := g.serial ++ [(Endpoint.controller, f1)] }) := by
      unfold host_readable
      rw [process_zwave_good E _ _ true ss g f1 hv1.1 h31 h1281 hss hbs hv1.2, hg,
        scan_skip E _ _ true _ m [] _ g (by rw [ha, hi]; rfl)]
      simp [scan_monitors, ← hg]
    have e2 : (controller_readable E sr
        { g with serial := g.serial ++ [(Endpoint.controller, f1)] } f2).2 =
        { g with
          monitors := [{ m with armed := true }]
          serial := g.serial ++ [(Endpoint.controller, f1), (Endpoint.host, f2)] } := by
      unfold controller_readable
      rw [process_zwave_good E _ _ false sr _ f2 hv2.1 h32 h1282 hsr hbr hv2.2]
      simp only [hg]
      rw [scan_arm E _ _ false _ m [] _ _ pm2 ha (by rw [hi]; simp) hm2]
      simp [scan_monitors]
    obtain ⟨hi1, hi2⟩ := at_checksum_idle true ss f1 hbs
    have e3 : (host_readable E { at_checksum true ss f1 with state := 0 }
        { g with
          monitors := [{ m with armed := true }]
          serial := g.serial ++ [(Endpoint.controller, f1), (Endpoint.host, f2)] } f3).2 =
        { notify_fire E true (hex_of f3) { m with armed := true } pm3
            (at_checksum true { at_checksum true ss f1 with state := 0 } f3)
            { g with
              monitors := [{ m with armed := true }]
              serial := g.serial ++ [(Endpoint.controller, f1), (Endpoint.host, f2)] } with
          monitors := after_fire { m with armed := true }
          serial := g.serial ++
            [(Endpoint.controller, f1), (Endpoint.host, f2), (Endpoint.controller, f3)] } := by
      unfold host_readable
      rw [process_zwave_good E _ _ true _ _ f3 hv3.1 h33 h1283 hi1 hi2 hv3.2]
      simp only
      rw [scan_fire_plain E _ _ true _ { m with armed := true } [] _ _ pm3 rfl hi hm3 hresp]
      simp [scan_monitors, notify_fire_serial]
    rw [e1]
    simp only
    rw [e2, e3]
    refine ⟨by trivial, by trivial, rfl, rfl, ?_⟩
    intro hk
    have := notify_fire_history E true (hex_of f3) { m with armed := true } pm3
      (at_checksum true { at_checksum true ss f1 with state := 0 } f3)
      { g with
        monitors := [{ m with armed := true }]
        serial := g.serial ++ [(Endpoint.controller, f1), (Endpoint.host, f2)] } hk
    simp only [http_history, if_true] at this ⊢
    exact this

/-- Scenario S5 as an instance of C4: `s5_rule` alone in the list; the host
frame `01 03 01 41 BC` passes with nothing queued and the rule unarmed; the
controller frame `01 03 00 41 BD` arms the rule; the same host frame then
fires it, and the one `Intercept` request is in the queue history. -/
theorem C4_witness_arm_then_fire :
    (host_readable env_ok zwave_state.init { Globals.init with monitors := [s5_rule] }
        [1, 3, 1, 0x41, 0xBC]).2.serial = [(Endpoint.controller, [1, 3, 1, 0x41, 0xBC])]
    ∧ http_history (host_readable env_ok zwave_state.init
        { Globals.init with monitors := [s5_rule] } [1, 3, 1, 0x41, 0xBC]).2 = []
    ∧ http_history (host_readable env_ok
        (host_readable env_ok zwave_state.init { Globals.init with monitors := [s5_rule] }
          [1, 3, 1, 0x41, 0xBC]).1
        (controller_readable env_ok zwave_state.init
          (host_readable env_ok zwave_state.init { Globals.init with monitors := [s5_rule] }
            [1, 3, 1, 0x41, 0xBC]).2 [1, 3, 0, 0x41, 0xBD]).2
        [1, 3, 1, 0x41, 0xBC]).2
      = [http_text s5_rule "Intercept".toList "0.000000".toList
          (hex_of [1, 3, 1, 0x41, 0xBC]) (some (whole_match 11)) none] := by
  have h := (C4_rule_applies_by_direction_and_phase env_ok Endpoint.host Endpoint.controller
    true [] s5_rule [] zwave_state.init zwave_state.init zwave_state.init
    { Globals.init with monitors := [s5_rule] }
    [1, 3, 1, 0x41, 0xBC] [1, 3, 0, 0x41, 0xBD] [1, 3, 1, 0x41, 0xBC]
    (whole_match 11) (whole_match 11)).2.2.2 rfl rfl rfl rfl
    ⟨⟨3, [1, 0x41, 0xBC], rfl, rfl, by decide, by decide⟩, by decide⟩ (by decide) (by decide)
    ⟨⟨3, [0, 0x41, 0xBD], rfl, rfl, by decide, by decide⟩, by decide⟩ (by decide) (by decide)
    ⟨⟨3, [1, 0x41, 0xBC], rfl, rfl, by decide, by decide⟩, by decide⟩ (by decide) (by decide)
    rfl rfl rfl rfl rfl rfl
  refine ⟨?_, ?_, ?_⟩
  · rw [h.1]; rfl
  · rw [h.1]; rfl
  · exact h.2.2.2.2 (by decide)

/-! ## How the scan changes the rule list -/

theorem scan_head_cases (E : Env) (i o : Endpoint) (send : Bool) (hx : List Char)
    (m : monitor) (rest : List monitor) (s : zwave_state) (g : Globals) :
    ∃ tail, (tail = rest ∨ ∃ s1 g1, tail = (scan_monitors E i o send hx rest s1 g1).1)
      ∧ ((scan_monitors E i o send hx (m :: rest) s g).1 = m :: tail
        ∨ (m.armed = false ∧ m.intercept ≠ send ∧ (m.arm_pattern.regexec hx).isSome = true
            ∧ (scan_monitors E i o send hx (m :: rest) s g).1 = { m with armed := true } :: tail)
        ∨ (m.armed = true ∧ m.intercept = send ∧ (m.pattern.regexec hx).isSome = true
            ∧ (∀ resp pm, m.response = some resp → m.pattern.regexec hx = some pm →
                (synthesize E m pm resp s g).error = false)
            ∧ (scan_monitors E i o send hx (m :: rest) s g).1 = after_fire m ++ tail)) := by
  cases hx3 : Bool.xor (Bool.xor m.intercept send) m.armed with
  | false =>
    exact ⟨_, Or.inr ⟨s, g, rfl⟩, Or.inl (by rw [scan_skip E i o send hx m rest s g hx3])⟩
  | true =>
    cases hr : (if m.armed then m.pattern else m.arm_pattern).regexec hx with
    | none =>
      exact ⟨_, Or.inr ⟨s, g, rfl⟩, Or.inl (by rw [scan_nomatch E i o send hx m rest s g hr])⟩
    | some pm =>
      cases ha : m.armed with
      | false =>
        rw [ha] at hr hx3
        have hd : m.intercept ≠ send := by
          intro h; rw [h] at hx3; cases send <;> simp at hx3
        simp only [Bool.false_eq_true, if_false] at hr
        exact ⟨_, Or.inr ⟨s, g, rfl⟩, Or.inr (Or.inl ⟨rfl, hd, by rw [hr]; rfl,
          by rw [scan_arm E i o send hx m rest s g pm ha hd hr]⟩)⟩
      | true =>
        rw [ha] at hr hx3
        have hd : m.intercept = send := by
          cases hi : m.intercept <;> cases send <;> simp_all
        simp only [if_true] at hr
        cases hresp : m.response with
        | none =>
          refine ⟨_, Or.inr ⟨s, notify_fire E send hx m pm s g, rfl⟩, Or.inr (Or.inr
            ⟨rfl, hd, by rw [hr]; rfl, ?_, ?_⟩)⟩
          · intro resp pm1 h; cases h
          · rw [scan_fire_plain E i o send hx m rest s g pm ha hd hr hresp]
        | some resp =>
          cases he : (synthesize E m pm resp s g).error with
          | true =>
            exact ⟨rest, Or.inl rfl, Or.inl (by
              rw [scan_fire_error E i o send hx m rest s g pm resp ha hd hr hresp he])⟩
          | false =>
            refine ⟨rest, Or.inl rfl, Or.inr (Or.inr ⟨rfl, hd, by rw [hr]; rfl, ?_, ?_⟩)⟩
            · intro resp1 pm1 h1 h2
              cases h1
              rw [hr] at h2
              cases h2
              exact he
            · rw [scan_fire_response E i o send hx m rest s g pm resp ha hd hr hresp he]

theorem after_fire_disarmed (m : monitor) :
    (after_fire m).map disarmed = if m.oneshot then [] else [disarmed m] := by
  unfold after_fire
  split
  · rfl
  · split <;> rfl

theorem scan_sublist (E : Env) (i o : Endpoint) (send : Bool) (hx : List Char) :
    ∀ (ms : List monitor) (s : zwave_state) (g : Globals),
      List.Sublist ((scan_monitors E i o send hx ms s g).1.map disarmed) (ms.map disarmed) := by
  intro ms
  induction ms with
  | nil => intro s g; simp [scan_monitors]
  | cons m rest ih =>
    intro s g
    obtain ⟨tail, htail, h⟩ := scan_head_cases E i o send hx m rest s g
    have ht : List.Sublist (tail.map disarmed) (rest.map disarmed) := by
      rcases htail with h | ⟨s1, g1, h⟩
      · rw [h]
      · rw [h]; exact ih s1 g1
    rcases h with h | ⟨_, _, _, h⟩ | ⟨_, _, _, _, h⟩
    · rw [h]; simp only [List.map_cons]; exact ht.cons₂ _
    · rw [h]; simp only [List.map_cons]; exact ht.cons₂ _
    · rw [h, List.map_append, after_fire_disarmed]
      split
      · simp only [List.nil_append, List.map_cons]; exact ht.cons _
      · simp only [List.singleton_append, List.map_cons]; exact ht.cons₂ _

theorem scan_fire_list (E : Env) (i o : Endpoint) (send : Bool) (hx : List Char)
    (m : monitor) (post : List monitor) (s : zwave_state) (g g0 : Globals)
    (pm : Nat → regmatch_t) (ha : m.armed = true) (hd : m.intercept = send)
    (hm : m.pattern.regexec hx = some pm)
    (hok : ∀ resp, m.response = some resp → (synthesize E m pm resp s g0).error = false) :
    ∃ tail, (scan_monitors E i o send hx (m :: post) s g).1 = after_fire m ++ tail
      ∧ List.Sublist (tail.map disarmed) (post.map disarmed) := by
  cases hresp : m.response with
  | none =>
    rw [scan_fire_plain E i o send hx m post s g pm ha hd hm hresp]
    exact ⟨_, rfl, scan_sublist E i o send hx post _ _⟩
  | some resp =>
    have he : (synthesize E m pm resp s g).error = false :=
      (synthesize_same E m pm resp s g g0).2.2.2.trans (hok resp hresp)
    rw [scan_fire_response E i o send hx m post s g pm resp ha hd hm hresp he]
    exact ⟨post, rfl, List.Sublist.refl _⟩

theorem mem_insert_monitor (m : monitor) : ∀ (ms : List monitor), m ∈ insert_monitor m ms := by
  intro ms
  induction ms with
  | nil => simp [insert_monitor]
  | cons m2 rest ih =>
    rw [insert_monitor]
    split
    · exact List.mem_cons_of_mem _ ih
    · exact List.mem_cons_self _ _

/-- C6. (1) The rule that `monitor`/`intercept` puts into the list is armed
exactly when it has no arm pattern. (2) In the scan of a frame every rule is
left in its place unchanged, or was unarmed, of the other direction, matched by
its arm pattern and is now armed, or was armed, of the frame's direction,
matched by its pattern, fired without synthesis error and is left as
`after_fire` says: removed when oneshot, else disarmed when it has an arm
pattern, else unchanged. (3) The rules left by a scan are, apart from their
`armed` flags, a sublist of the rules before: relative order is kept. (4) When
the first rule of the list that fires is oneshot (here: `m`, after rules `pre`
that do not fire with a response), the list after the scan is, apart from
`armed` flags, a sublist of `pre ++ post`: `m` is gone and the others keep
their order. (5) A rule with arm pattern, not oneshot and unarmed becomes
armed by an arm match and is unarmed again, and still in the list, after the
firing that follows. (6) When the pattern of the armed rule `m` matches and
the interpretation of its response template fails, `m` stays in the list as
it is, also when it is oneshot, and so does every rule after it: the scan ends
there without interception. -/
theorem C6_arm_flag_and_membership (E : Env) (i o : Endpoint) (send : Bool)
    (hx : List Char) (m : monitor) (pre post : List monitor) (s : zwave_state) (g : Globals)
    (pm : Nat → regmatch_t)
    (now : Int) (is_intercept : Bool) (device_num : Int) (key : List Char) (pattern : regex_t)
    (oneshot : Bool) (timeout : Int) (arm_pattern : Option regex_t) (response : List Char)
    (forward : Bool) :
    (∃ m0, (wwint_monitor_intercept now is_intercept device_num key pattern oneshot timeout
              arm_pattern response forward g).monitors = insert_monitor m0 g.monitors
        ∧ m0 ∈ insert_monitor m0 g.monitors
        ∧ m0.has_arm_pattern = arm_pattern.isSome
        ∧ m0.armed = !m0.has_arm_pattern)
    ∧ (∃ tail, (tail = post ∨ ∃ s1 g1, tail = (scan_monitors E i o send hx post s1 g1).1)
        ∧ ((scan_monitors E i o send hx (m :: post) s g).1 = m :: tail
          ∨ (m.armed = false ∧ m.intercept ≠ send ∧ (m.arm_pattern.regexec hx).isSome = true
              ∧ (scan_monitors E i o send hx (m :: post) s g).1
                  = { m with armed := true } :: tail)
          ∨ (m.armed = true ∧ m.intercept = send ∧ (m.pattern.regexec hx).isSome = true
              ∧ (∀ resp pm, m.response = some resp → m.pattern.regexec hx = some pm →
                  (synthesize E m pm resp s g).error = false)
              ∧ (scan_monitors E i o send hx (m :: post) s g).1 = after_fire m ++ tail)))
    ∧ (after_fire m =
        if m.oneshot then [] else if m.has_arm_pattern then [{ m with armed := false }] else [m])
    ∧ List.Sublist ((scan_monitors E i o send hx (pre ++ m :: post) s g).1.map disarmed)
        ((pre ++ m :: post).map disarmed)
    ∧ (observers send hx pre → m.armed = true → m.intercept = send →
        m.pattern.regexec hx = some pm →
        (∀ resp, m.response = some resp → (synthesize E m pm resp s g).error = false) →
        m.oneshot = true →
        List.Sublist ((scan_monitors E i o send hx (pre ++ m :: post) s g).1.map disarmed)
          ((pre ++ post).map disarmed))
    ∧ (m.armed = false → m.has_arm_pattern = true → m.oneshot = false →
        (m.intercept ≠ send → m.arm_pattern.regexec hx = some pm →
          scan_monitors E i o send hx (m :: post) s g =
            ({ m with armed := true } :: (scan_monitors E i o send hx post s g).1,
             (scan_monitors E i o send hx post s g).2))
        ∧ (m.intercept = send → m.pattern.regexec hx = some pm →
            (∀ resp, m.response = some resp →
              (synthesize E { m with armed := true } pm resp s g).error = false) →
            ∃ tail, (scan_monitors E i o send hx ({ m with armed := true } :: post) s g).1
              = m :: tail))
    ∧ (observers send hx pre → m.armed = true → m.intercept = send →
        m.pattern.regexec hx = some pm →
        ∀ resp, m.response = some resp → (synthesize E m pm resp s g).error = true →
          (scan_monitors E i o send hx (pre ++ m :: post) s g).1
            = (scan_monitors E i o send hx pre s g).1 ++ m :: post
          ∧ (scan_monitors E i o send hx (pre ++ m :: post) s g).2.2.2 = false) := by
  refine ⟨⟨_, rfl, mem_insert_monitor _ _, rfl, rfl⟩, scan_head_cases E i o send hx m post s g,
    ?_, scan_sublist E i o send hx _ s g, ?_, ?_, ?_⟩
  · unfold after_fire
    split
    · rfl
    · split <;> rfl
  · intro hobs ha hd hm hok hone
    obtain ⟨h1, h2, _, _⟩ := scan_observers E i o send hx (m :: post) pre s g hobs
    obtain ⟨tail, ht1, ht2⟩ := scan_fire_list E i o send hx m post s
      (scan_monitors E i o send hx pre s g).2.2.1 g pm ha hd hm hok
    rw [h1]
    simp only
    rw [ht1, List.map_append, List.map_append, List.map_append, after_fire_disarmed,
      if_pos hone, List.nil_append]
    exact List.Sublist.append (scan_sublist E i o send hx pre s g) ht2
  · intro ha harm hone
    refine ⟨fun hd hm => scan_arm E i o send hx m post s g pm ha hd hm, ?_⟩
    intro hd hm hok
    obtain ⟨tail, ht1, _⟩ := scan_fire_list E i o send hx { m with armed := true } post s g g
      pm rfl hd hm hok
    refine ⟨tail, ?_⟩
    rw [ht1]
    unfold after_fire
    simp only [hone, harm, Bool.false_eq_true, if_false, if_true, List.singleton_append]
    congr 1
    cases m
    simp_all
  · intro hobs ha hd hm resp hr he
    obtain ⟨h1, _, _, _⟩ := scan_observers E i o send hx (m :: post) pre s g hobs
    have he2 : (synthesize E m pm resp s
        (scan_monitors E i o send hx pre s g).2.2.1).error = true :=
      (synthesize_same E m pm resp s (scan_monitors E i o send hx pre s g).2.2.1
        g).2.2.2.trans he
    rw [h1, scan_fire_error E i o send hx m post s _ pm resp ha hd hm hr he2]
    exact ⟨rfl, rfl⟩

/-- An instance of C6: the oneshot rule `ack_rule` fires on the host frame
`01 03 00 13 EF` and is gone from the list, `observer_rule` stays. -/
theorem C6_witness_oneshot_removed :
    observers true (hex_of [1, 3, 0, 0x13, 0xEF]) []
    ∧ List.Sublist
        ((scan_monitors env_ok Endpoint.host Endpoint.controller true
            (hex_of [1, 3, 0, 0x13, 0xEF]) ([] ++ ack_rule :: [observer_rule])
            zwave_state.init Globals.init).1.map disarmed)
        (([] ++ [observer_rule]).map disarmed) :=
  ⟨(fun p hp => by cases hp),
   (C6_arm_flag_and_membership env_ok Endpoint.host Endpoint.controller true
      (hex_of [1, 3, 0, 0x13, 0xEF]) ack_rule [] [observer_rule] zwave_state.init Globals.init
      (whole_match 11) 0 true 5 [] no_pattern true 0 none [] false).2.2.2.2.1
      (fun p hp => by cases hp) rfl rfl rfl
      (fun resp h => by cases h; decide) rfl⟩

set_option maxRecDepth 100000 in
/-- C6 fails as stated: the oneshot rule `no_group_rule` has no arm pattern
and is armed, and its pattern matches the host frame `01 03 00 13 EF`; its
response template asks for a group that the pattern does not have, so the
interpretation fails. After the frame the rule is still in the list, armed as
before, the frame has gone to the controller and the one request enqueued is
the `Error` request; after the same frame once more it is still there. -/
theorem C6_failed_response_keeps_oneshot :
    no_group_rule.oneshot = true ∧ no_group_rule.has_arm_pattern = false
    ∧ no_group_rule.armed = true ∧ no_group_rule.intercept = true
    ∧ (no_group_rule.pattern.regexec (hex_of [1, 3, 0, 0x13, 0xEF])).isSome = true
    ∧ (host_readable env_ok zwave_state.init
        { Globals.init with monitors := [no_group_rule, observer_rule] }
        [1, 3, 0, 0x13, 0xEF]).2.monitors.map (fun r => (r.key, r.armed))
        = [("k12".toList, true), ("k2".toList, true)]
    ∧ (host_readable env_ok zwave_state.init
        { Globals.init with monitors := [no_group_rule, observer_rule] }
        [1, 3, 0, 0x13, 0xEF]).2.serial = [(Endpoint.controller, [1, 3, 0, 0x13, 0xEF])]
    ∧ (http_history (host_readable env_ok zwave_state.init
        { Globals.init with monitors := [no_group_rule, observer_rule] }
        [1, 3, 0, 0x13, 0xEF]).2).length = 1
    ∧ (host_readable env_ok zwave_state.init
        { Globals.init with monitors := [no_group_rule, observer_rule] }
        ([1, 3, 0, 0x13, 0xEF] ++ [1, 3, 0, 0x13, 0xEF])).2.monitors.map
          (fun r => (r.key, r.armed))
        = [("k12".toList, true), ("k2".toList, true)] := by
  refine ⟨by decide, by decide, by decide, by decide, by decide, by decide, by decide,
    by decide, by decide⟩

/-! ## Slices of the response buffer -/

theorem take_set_ge (l : List Nat) (m n c : Nat) (h : m ≤ n) :
    (l.set n c).take m = l.take m := by
  rw [List.set_take, List.set_eq_of_length_le]
  simp only [List.length_take]
  omega

theorem slice_set_ge (l : List Nat) (a b i c : Nat) (h : b ≤ i) :
    slice (l.set i c) a b = slice l a b := by
  unfold slice
  by_cases hab : a ≤ b
  · rw [List.drop_set, if_neg (by omega), take_set_ge _ _ _ _ (by omega)]
  · rw [show b - a = 0 by omega]; simp

theorem slice_self (l : List Nat) (a : Nat) : slice l a a = [] := by
  simp [slice]

theorem slice_snoc (l : List Nat) (a b c : Nat) (hab : a ≤ b) (hb : b < l.length) :
    slice (l.set b c) a (b + 1) = slice l a b ++ [c] := by
  unfold slice
  rw [List.set_eq_take_cons_drop c hb]
  have e1 : (List.take b l).length = b := by simp; omega
  have e2 : List.drop a (List.take b l ++ c :: List.drop (b + 1) l)
      = List.drop a (List.take b l) ++ c :: List.drop (b + 1) l := by
    rw [List.drop_append_of_le_length (by omega)]
  rw [e2]
  have e3 : (List.drop a (List.take b l)).length = b - a := by simp; omega
  rw [show b + 1 - a = (List.drop a (List.take b l)).length + 1 by omega,
    List.take_append, List.take_succ_cons, List.take_zero]
  congr 1
  rw [List.drop_take]

theorem slice_length (l : List Nat) (a b : Nat) (hb : b ≤ l.length) :
    (slice l a b).length = b - a := by
  simp [slice]; omega

theorem slice_split (l : List Nat) (a m b : Nat) (h1 : a ≤ m) (h2 : m ≤ b) :
    slice l a b = slice l a m ++ slice l m b := by
  unfold slice
  have : b - a = (m - a) + (b - m) := by omega
  rw [this, List.take_add, List.drop_drop]
  congr 3
  omega

theorem slice_one (l : List Nat) (a : Nat) (h : a < l.length) :
    slice l a (a + 1) = [l.getD a 0] := by
  unfold slice
  rw [show a + 1 - a = 1 by omega, List.drop_eq_getElem_cons h]
  simp only [List.take_succ_cons, List.take_zero, List.getD_eq_getElem?_getD,
    List.getElem?_eq_getElem h, Option.getD_some]

theorem slice_take (l : List Nat) (a b n : Nat) (h : b ≤ n) :
    slice (l.take n) a b = slice l a b := by
  unfold slice
  rw [List.drop_take, List.take_take]
  congr 1
  omega

theorem take_set_snoc (l : List Nat) (b c : Nat) (hb : b < l.length) :
    (l.set b c).take (b + 1) = l.take b ++ [c] := by
  have h := slice_snoc l 0 b c (Nat.zero_le _) hb
  simpa [slice] using h

theorem getD_set_self (l : List Nat) (i c : Nat) (h : i < l.length) :
    (l.set i c).getD i 0 = c := by
  simp [List.getD_eq_getElem?_getD, List.getElem?_set_self h]

theorem getD_set_ne (l : List Nat) (i j c : Nat) (h : i ≠ j) :
    (l.set i c).getD j 0 = l.getD j 0 := by
  simp [List.getD_eq_getElem?_getD, List.getElem?_set_ne h]

theorem addZwaveResponseByte_inv (s : zwave_state) (c : Nat) (h : SynthInv s)
    (hpos : s.response_zpos < 128) (hc : c < 256) :
    SynthInv (addZwaveResponseByte s c) := by
  have hlen := h.buff_len
  have hp := h.part_le
  unfold addZwaveResponseByte
  by_cases hz : s.response_zstate = 0
  · by_cases hc1 : c = 1
    · simp only [hz, hc1, if_true]
      refine ⟨by simp [hlen], h.pp_len, by simp only; omega, by simp only; omega, ?_, ?_, ?_, ?_⟩
      · simp only
        rw [take_set_snoc _ _ _ (by omega)]
        intro b hb
        rcases List.mem_append.1 hb with hb | hb
        · exact h.bytes b hb
        · simp at hb; omega
      · intro h0; simp at h0
      · intro _
        dsimp only
        rw [Nat.add_sub_cancel]
        refine ⟨hp, rfl, rfl, ?_, getD_set_self _ _ _ (by omega), ?_, by decide⟩
        · rw [slice_set_ge _ _ _ _ _ (Nat.le_refl _)]
          exact h.idle hz
        · rw [slice_self]; rfl
      · intro k hk
        simp only
        obtain ⟨h1, h2⟩ := h.closed k hk
        refine ⟨h1, ?_⟩
        rw [slice_set_ge _ _ _ _ _ (by omega)]
        exact h2
    · simp only [hz, hc1, if_true, if_false]
      refine ⟨by simp [hlen], h.pp_len, by simp only; omega, by simp only; omega, ?_, ?_, ?_, ?_⟩
      · simp only
        rw [take_set_snoc _ _ _ (by omega)]
        intro b hb
        rcases List.mem_append.1 hb with hb | hb
        · exact h.bytes b hb
        · simp at hb; omega
      · intro _
        simp only
        rw [slice_snoc _ _ _ _ hp (by omega)]
        intro hmem
        rcases List.mem_append.1 hmem with hb | hb
        · exact h.idle hz hb
        · simp at hb; exact hc1 hb.symm
      · intro h1; simp only [hz] at h1; omega
      · intro k hk
        simp only
        obtain ⟨h1, h2⟩ := h.closed k hk
        refine ⟨h1, ?_⟩
        rw [slice_set_ge _ _ _ _ _ (by omega)]
        exact h2
  · simp only [hz, if_false]
    obtain ⟨f1, f2, f3, f4, f5, f6, f7⟩ := h.framing (by omega)
    refine ⟨by simp [hlen], h.pp_len, by simp only; omega, by simp only; omega, ?_, ?_, ?_, ?_⟩
    · simp only
      rw [take_set_snoc _ _ _ (by omega)]
      intro b hb
      rcases List.mem_append.1 hb with hb | hb
      · exact h.bytes b hb
      · simp at hb; omega
    · intro h0; simp only at h0; omega
    · intro _
      simp only
      refine ⟨f1, by omega, f3, ?_, ?_, ?_, ?_⟩
      · rw [slice_set_ge _ _ _ _ _ (by omega)]
        exact f4
      · rw [getD_set_ne _ _ _ _ (by omega)]
        exact f5
      · rw [slice_snoc _ _ _ _ (by omega) (by omega), xor_sum_concat, f6]
      · exact Nat.xor_lt_two_pow (n := 8) f7 hc
    · intro k hk
      simp only
      obtain ⟨h1, h2⟩ := h.closed k hk
      refine ⟨h1, ?_⟩
      rw [slice_set_ge _ _ _ _ _ (by omega)]
      exact h2

theorem addZwaveResponseByte_zpos (s : zwave_state) (c : Nat) :
    (addZwaveResponseByte s c).response_zpos = s.response_zpos + 1 := by
  unfold addZwaveResponseByte
  split
  · split <;> rfl
  · rfl

theorem foldl_addZwaveResponseByte_inv (cs : List Nat) : ∀ (s : zwave_state), SynthInv s →
    s.response_zpos + cs.length ≤ 128 → (∀ b ∈ cs, b < 256) →
    SynthInv (cs.foldl addZwaveResponseByte s) := by
  induction cs with
  | nil => intro s h _ _; exact h
  | cons c cs ih =>
    intro s h hl hb
    simp only [List.length_cons] at hl
    rw [List.foldl_cons]
    apply ih
    · exact addZwaveResponseByte_inv s c h (by omega) (hb c (List.mem_cons_self _ _))
    · rw [addZwaveResponseByte_zpos]; omega
    · exact fun b hm => hb b (List.mem_cons_of_mem _ hm)

theorem addZwaveResponseData_inv (E : Env) (m : monitor) (s : zwave_state) (g : Globals)
    (data : List Nat) (len : Int) (h : SynthInv s) (hb : ∀ b ∈ data, b < 256)
    (he : (addZwaveResponseData E m s g data len).2.2 = false) :
    SynthInv (addZwaveResponseData E m s g data len).1 := by
  unfold addZwaveResponseData at he ⊢
  split
  · rename_i hc; simp [hc] at he
  · rename_i hc
    simp only [MAX_ZWAVE_BUFF_SIZE, Nat.cast_ofNat, gt_iff_lt, not_lt] at hc
    apply foldl_addZwaveResponseByte_inv _ _ h
    · have : (data.take len.toNat).length ≤ len.toNat := by simp
      have := h.pos_le
      omega
    · exact fun b hm => hb b (List.mem_of_mem_take hm)

theorem addZwaveResponseData_one (E : Env) (m : monitor) (s : zwave_state) (g : Globals)
    (c : Nat) (he : (addZwaveResponseData E m s g [c] 1).2.2 = false) :
    (addZwaveResponseData E m s g [c] 1).1 = addZwaveResponseByte s c
    ∧ s.response_zpos < 128 := by
  unfold addZwaveResponseData at he ⊢
  split
  · rename_i hc; simp [hc] at he
  · rename_i hc
    simp only [MAX_ZWAVE_BUFF_SIZE, Nat.cast_ofNat, gt_iff_lt, not_lt] at hc
    exact ⟨rfl, by omega⟩

theorem foldl_xor_init (t : List Nat) : ∀ (x : Nat),
    t.foldl (fun a b => a ^^^ b) x = x ^^^ t.foldl (fun a b => a ^^^ b) 0 := by
  induction t with
  | nil => intro x; simp
  | cons a t ih =>
    intro x
    rw [List.foldl_cons, List.foldl_cons, ih (x ^^^ a), ih (0 ^^^ a), Nat.zero_xor,
      Nat.xor_assoc]

theorem xor_sum_cons (a : Nat) (t : List Nat) : xor_sum (a :: t) = a ^^^ xor_sum t := by
  unfold xor_sum
  rw [List.foldl_cons, foldl_xor_init t (0xFF ^^^ a), foldl_xor_init t 0xFF,
    Nat.xor_comm 0xFF a, Nat.xor_assoc]

theorem xor_sum_lt (t : List Nat) (h : ∀ b ∈ t, b < 256) : xor_sum t < 256 := by
  induction t with
  | nil => decide
  | cons a t ih =>
    rw [xor_sum_cons]
    exact Nat.xor_lt_two_pow (n := 8) (h a (List.mem_cons_self _ _))
      (ih (fun b hb => h b (List.mem_cons_of_mem _ hb)))

theorem dropWhile_junk (junk rest : List Nat) (h : 1 ∉ junk) :
    (junk ++ 1 :: rest).dropWhile (fun b => b != 1) = 1 :: rest := by
  induction junk with
  | nil => simp
  | cons a junk ih =>
    have ha : a ≠ 1 := fun e => h (by rw [e]; exact List.mem_cons_self _ _)
    have : (a != 1) = true := by simpa using ha
    rw [List.cons_append, List.dropWhile_cons, this, if_pos rfl]
    exact ih (fun hm => h (List.mem_cons_of_mem _ hm))

theorem slice_cons (l : List Nat) (a b : Nat) (hab : a < b) (hb : b ≤ l.length) :
    slice l a b = l.getD a 0 :: slice l (a + 1) b := by
  rw [slice_split l a (a + 1) b (by omega) (by omega), slice_one l a (by omega)]
  rfl

theorem mem_slice (l : List Nat) (a b n x : Nat) (hb : b ≤ n) (h : x ∈ slice l a b) :
    x ∈ l.take n := by
  rw [← slice_take l a b n hb] at h
  unfold slice at h
  exact List.mem_of_mem_drop (List.mem_of_mem_take h)

theorem slice_set_lt (l : List Nat) (a b i c : Nat) (h : i < a) :
    slice (l.set i c) a b = slice l a b := by
  unfold slice
  rw [List.drop_set, if_pos h]

theorem getD_mem_take (l : List Nat) (i n : Nat) (h : i < n) (hn : n ≤ l.length) :
    l.getD i 0 ∈ l.take n := by
  have h1 : l.getD i 0 ∈ slice l i (i + 1) := by
    rw [slice_one l i (by omega)]; exact List.mem_singleton_self _
  exact mem_slice l i (i + 1) n _ (by omega) h1

theorem xor_fix (old x len : Nat) : (old ^^^ x) ^^^ (len ^^^ old) = len ^^^ x := by
  rw [Nat.xor_comm old x, Nat.xor_comm len old, Nat.xor_assoc, Nat.xor_cancel_left,
    Nat.xor_comm]

theorem fix_length_inv (s : zwave_state) (h : SynthInv s) (hz : 2 ≤ s.response_zstate) :
    SynthInv (fix_length s)
    ∧ (fix_length s).response_buff.getD (s.response_zstart + 1) 0 = s.response_zstate - 1 := by
  obtain ⟨f1, f2, f3, f4, f5, f6, f7⟩ := h.framing (by omega)
  have hlen := h.buff_len
  have hpos := h.pos_le
  have hnl : (s.response_zstate - 1) % 256 = s.response_zstate - 1 := by
    apply Nat.mod_eq_of_lt; omega
  have hold : s.response_buff.getD s.response_lenpos 0 < 256 :=
    h.bytes _ (getD_mem_take _ _ _ (by omega) (by omega))
  have hsl : slice s.response_buff (s.response_zstart + 1) s.response_zpos
      = s.response_buff.getD s.response_lenpos 0
          :: slice s.response_buff (s.response_zstart + 2) s.response_zpos := by
    rw [slice_cons _ _ _ (by omega) (by omega), f3]
  have hcs : s.response_checksum ^^^
      ((s.response_zstate - 1) ^^^ s.response_buff.getD s.response_lenpos 0)
      = (s.response_zstate - 1)
          ^^^ xor_sum (slice s.response_buff (s.response_zstart + 2) s.response_zpos) := by
    rw [f6, hsl, xor_sum_cons, xor_fix]
  have hcslt : s.response_checksum ^^^
      ((s.response_zstate - 1) ^^^ s.response_buff.getD s.response_lenpos 0) < 256 :=
    Nat.xor_lt_two_pow (n := 8) f7
      (Nat.xor_lt_two_pow (n := 8) (by omega) hold)
  unfold fix_length
  rw [hnl, Nat.mod_eq_of_lt hcslt]
  refine ⟨⟨by simp [hlen], h.pp_len, hpos, h.part_le, ?_, ?_, ?_, ?_⟩, ?_⟩
  · simp only
    rw [List.set_take]
    intro b hb
    rcases List.mem_or_eq_of_mem_set hb with hb | hb
    · exact h.bytes b hb
    · omega
  · intro h0; simp only at h0; omega
  · intro _
    simp only
    refine ⟨f1, f2, f3, ?_, ?_, ?_, hcslt⟩
    · rw [slice_set_ge _ _ _ _ _ (by omega)]; exact f4
    · rw [getD_set_ne _ _ _ _ (by omega)]; exact f5
    · have e : slice (s.response_buff.set s.response_lenpos (s.response_zstate - 1))
          (s.response_zstart + 1) s.response_zpos
          = (s.response_zstate - 1)
              :: slice s.response_buff (s.response_zstart + 2) s.response_zpos := by
        rw [slice_cons _ _ _ (by omega) (by simp only [List.length_set]; omega), f3,
          getD_set_self _ _ _ (by omega), slice_set_lt _ _ _ _ _ (by omega)]
      rw [e, xor_sum_cons, hcs]
  · intro k hk
    simp only
    obtain ⟨h1, h2⟩ := h.closed k hk
    refine ⟨h1, ?_⟩
    rw [slice_set_ge _ _ _ _ _ (by omega)]
    exact h2
  · simp only
    rw [f3, getD_set_self _ _ _ (by omega)]

theorem close_part_inv (s : zwave_state) (h : SynthInv s) (hz : 2 ≤ s.response_zstate)
    (hpos : s.response_zpos < 128) (hn : s.response_numParts + 1 ≤ 3) :
    SynthInv (close_part s) := by
  obtain ⟨I1, hL⟩ := fix_length_inv s h hz
  obtain ⟨f1, f2, f3, f4, f5, f6, f7⟩ := h.framing (by omega)
  have hzs : (fix_length s).response_zstart = s.response_zstart := rfl
  have hnp : (fix_length s).response_numParts = s.response_numParts := rfl
  have hpp : (fix_length s).response_partpos = s.response_partpos := rfl
  have hzp : (fix_length s).response_zpos = s.response_zpos := rfl
  have hzt : (fix_length s).response_zstate = s.response_zstate := rfl
  have g7 : (fix_length s).response_checksum < 256 := (I1.framing (by rw [hzt]; omega)).2.2.2.2.2.2
  have I2 := addZwaveResponseByte_inv (fix_length s) (fix_length s).response_checksum I1
    hpos g7
  have hne : ¬ (fix_length s).response_zstate = 0 := by rw [hzt]; omega
  have e : addZwaveResponseByte (fix_length s) (fix_length s).response_checksum =
      { fix_length s with
        response_buff := (fix_length s).response_buff.set s.response_zpos
          (fix_length s).response_checksum
        response_zpos := s.response_zpos + 1
        response_zstate := s.response_zstate + 1
        response_checksum := (fix_length s).response_checksum
          ^^^ (fix_length s).response_checksum } := by
    unfold addZwaveResponseByte
    rw [if_neg hne]
    rfl
  rw [e] at I2
  have K := I2.framing (by dsimp only; omega)
  dsimp only at K
  rw [hzs, hnp, hpp, Nat.xor_self] at K
  obtain ⟨-, -, -, k4, k5, k6, -⟩ := K
  have hbytes := I2.bytes
  have hclosed := I2.closed
  dsimp only at hbytes hclosed
  rw [hnp, hpp] at hclosed
  have hpl := h.pp_len
  have hp := h.part_le
  have hbl : ((fix_length s).response_buff.set s.response_zpos
      (fix_length s).response_checksum).length = 128 := I2.buff_len
  unfold close_part
  rw [e]
  refine ⟨I2.buff_len, ?_, I2.pos_le, ?_, I2.bytes, ?_, ?_, ?_⟩
  · dsimp only
    rw [List.length_set]
    exact hpl
  · dsimp only
    rw [getD_set_self _ _ _ (by omega)]
  · intro _
    dsimp only
    rw [getD_set_self _ _ _ (by omega), slice_self]
    exact List.not_mem_nil _
  · intro h1; dsimp only at h1; omega
  · intro k hk
    dsimp only at hk ⊢
    rw [getD_set_self _ _ _ (by omega)]
    by_cases hkn : k < s.response_numParts
    · obtain ⟨c1, c2⟩ := hclosed k hkn
      rw [getD_set_ne _ _ _ _ (by omega), getD_set_ne _ _ _ _ (by omega)]
      exact ⟨by omega, c2⟩
    · have hk' : k = s.response_numParts := by omega
      subst hk'
      rw [getD_set_self _ _ _ (by omega), getD_set_ne _ _ _ _ (by omega)]
      refine ⟨Nat.le_refl _, ?_⟩
      rw [slice_split _ _ s.response_zstart _ f1 (by omega),
        slice_cons _ s.response_zstart _ (by omega) (by omega), k5, dropWhile_junk _ _ k4]
      have hl2 : ((fix_length s).response_buff.set s.response_zpos
          (fix_length s).response_checksum).getD (s.response_zstart + 1) 0
            = s.response_zstate - 1 := by
        rw [getD_set_ne _ _ _ _ (by omega)]; exact hL
      refine ⟨⟨⟨s.response_zstate - 1,
        slice ((fix_length s).response_buff.set s.response_zpos
          (fix_length s).response_checksum) (s.response_zstart + 2) (s.response_zpos + 1),
        ?_, ?_, by omega, ?_⟩, ?_⟩, ?_, ?_⟩
      · rw [slice_cons _ (s.response_zstart + 1) _ (by omega) (by omega), hl2]
      · rw [slice_length _ _ _ (by omega)]; omega
      · intro b hb
        rcases List.mem_cons.1 hb with hb | hb
        · omega
        · exact hbytes b (mem_slice _ _ _ (s.response_zpos + 1) _ (Nat.le_refl _) hb)
      · simp only [List.tail_cons]
        exact k6.symm
      · rw [List.length_cons, slice_length _ _ _ (by omega)]; omega
      · rw [List.length_cons, slice_length _ _ _ (by omega)]; omega

theorem response_switch_close (E : Env) (m : monitor) (pm : Nat → regmatch_t)
    (s : zwave_state) (g : Globals) (byte : Nat) (error : Bool) (val : Nat)
    (hc : ¬ s.response_zstate < 2)
    (he : (response_switch E m pm
      { s := s, g := g, rstate := 5, byte := byte, error := error } val).error = false) :
    (response_switch E m pm
      { s := s, g := g, rstate := 5, byte := byte, error := error } val).s = close_part s
    ∧ s.response_zpos < 128 ∧ s.response_numParts + 1 ≤ 3 := by
  have hsw : response_switch E m pm
      { s := s, g := g, rstate := 5, byte := byte, error := error } val =
      { s := { (addZwaveResponseData E m (fix_length s) g
                  [(fix_length s).response_checksum] 1).1 with
          response_numParts := (addZwaveResponseData E m (fix_length s) g
            [(fix_length s).response_checksum] 1).1.response_numParts + 1
          response_partpos := (addZwaveResponseData E m (fix_length s) g
            [(fix_length s).response_checksum] 1).1.response_partpos.set
              ((addZwaveResponseData E m (fix_length s) g
                [(fix_length s).response_checksum] 1).1.response_numParts + 1)
              (addZwaveResponseData E m (fix_length s) g
                [(fix_length s).response_checksum] 1).1.response_zpos
          response_zstart := (addZwaveResponseData E m (fix_length s) g
            [(fix_length s).response_checksum] 1).1.response_zpos
          response_zstate := 0 }
        g := (addZwaveResponseData E m (fix_length s) g
                  [(fix_length s).response_checksum] 1).2.1
        rstate := 0
        byte := byte
        error := (addZwaveResponseData E m (fix_length s) g
                  [(fix_length s).response_checksum] 1).2.2
          || decide ((addZwaveResponseData E m (fix_length s) g
                  [(fix_length s).response_checksum] 1).1.response_numParts + 1
                > MAX_RESPONSE_PARTS) } := by
    simp only [response_switch]
    rw [if_neg hc]
    rfl
  rw [hsw] at he ⊢
  simp only [Bool.or_eq_false_iff, decide_eq_false_iff_not, MAX_RESPONSE_PARTS] at he
  obtain ⟨he1, he2⟩ := he
  have h1 := addZwaveResponseData_one E m (fix_length s) g _ he1
  have hq := foldl_addZwaveResponseByte_partpos [(fix_length s).response_checksum]
    (fix_length s)
  simp only [List.foldl_cons, List.foldl_nil] at hq
  have hz : (addZwaveResponseByte (fix_length s)
      (fix_length s).response_checksum).response_zpos = s.response_zpos + 1 :=
    addZwaveResponseByte_zpos _ _
  rw [h1.1] at he2 ⊢
  rw [hq.2] at he2
  refine ⟨?_, h1.2, ?_⟩
  · unfold close_part
    dsimp only
    rw [hz, hq.1, hq.2]
    rfl
  · have : (fix_length s).response_numParts = s.response_numParts := rfl
    rw [this] at he2
    omega

theorem response_switch_inv (E : Env) (m : monitor) (pm : Nat → regmatch_t)
    (st : ResponseLoop) (val : Nat) (h : SynthInv st.s) (hb : st.byte < 256)
    (hv : val < 16) (hp : ∀ b ∈ st.s.packet_buff, b < 256)
    (he : (response_switch E m pm st val).error = false) :
    SynthInv (response_switch E m pm st val).s ∧ (response_switch E m pm st val).byte < 256 := by
  obtain ⟨s, g, rstate, byte, error⟩ := st
  dsimp only at h hb hp
  rcases rstate with _ | _ | _ | _ | _ | _ | n
  · exact ⟨h, by show val < 256; omega⟩
  · refine ⟨addZwaveResponseData_inv E m s g _ _ h ?_ he, Nat.mod_lt _ (by decide)⟩
    intro b hm
    rw [List.mem_singleton.1 hm]
    exact Nat.mod_lt _ (by decide)
  · refine ⟨addZwaveResponseData_inv E m s g _ _ h ?_ he, hb⟩
    intro b hm
    rw [List.mem_singleton.1 hm]
    exact hb
  · simp only [response_switch, zero_add, Nat.reduceAdd] at he ⊢
    split
    · rename_i hc; simp [hc] at he
    · rename_i hc
      simp only [hc, if_false] at he
      exact ⟨addZwaveResponseData_inv E m s g _ _ h
        (fun b hm => hp b (List.mem_of_mem_drop hm)) he, hb⟩
  · exact ⟨h, hb⟩
  · by_cases hc : s.response_zstate < 2
    · simp [response_switch, hc] at he
    · obtain ⟨h1, h2, h3⟩ := response_switch_close E m pm s g byte error val hc he
      refine ⟨?_, hb⟩
      rw [h1]
      exact close_part_inv s h (by omega) h2 h3
  · exact ⟨h, hb⟩

theorem response_char_digit (E : Env) (m : monitor) (pm : Nat → regmatch_t)
    (st : ResponseLoop) (c : Char) :
    (∃ st1 val, response_char E m pm st c = response_switch E m pm st1 val
        ∧ st1.s = st.s ∧ st1.byte = st.byte ∧ val < 16)
    ∨ ((response_char E m pm st c).s = st.s ∧ (response_char E m pm st c).byte = st.byte)
    ∨ (response_char E m pm st c).error = true := by
  unfold response_char
  by_cases h1 : '0' ≤ c ∧ c ≤ '9' ∧ st.rstate < 4
  · rw [if_pos h1]
    have h2 : c.val.toNat ≤ ('9' : Char).val.toNat := Char.le_def.1 h1.2.1
    have h3 : c.toNat ≤ 57 := h2
    exact Or.inl ⟨st, _, rfl, rfl, rfl, by show c.toNat - 48 < 16; omega⟩
  rw [if_neg h1]
  by_cases h2 : 'a' ≤ c ∧ c ≤ 'f' ∧ st.rstate ≤ 1
  · rw [if_pos h2]
    have h3 : c.val.toNat ≤ ('f' : Char).val.toNat := Char.le_def.1 h2.2.1
    have h4 : ('a' : Char).val.toNat ≤ c.val.toNat := Char.le_def.1 h2.1
    have h5 : c.toNat ≤ 102 := h3
    have h6 : 97 ≤ c.toNat := h4
    exact Or.inl ⟨st, _, rfl, rfl, rfl, by show c.toNat - 97 + 10 < 16; omega⟩
  rw [if_neg h2]
  by_cases h3 : 'A' ≤ c ∧ c ≤ 'F' ∧ st.rstate ≤ 1
  · rw [if_pos h3]
    have h4 : c.val.toNat ≤ ('F' : Char).val.toNat := Char.le_def.1 h3.2.1
    have h5 : ('A' : Char).val.toNat ≤ c.val.toNat := Char.le_def.1 h3.1
    have h6 : c.toNat ≤ 70 := h4
    have h7 : 65 ≤ c.toNat := h5
    exact Or.inl ⟨st, _, rfl, rfl, rfl, by show c.toNat - 65 + 10 < 16; omega⟩
  rw [if_neg h3]
  repeat' split
  all_goals first
    | exact Or.inl ⟨_, 0, rfl, rfl, rfl, by decide⟩
    | exact Or.inr (Or.inl ⟨rfl, rfl⟩)

theorem response_char_inv (E : Env) (m : monitor) (pm : Nat → regmatch_t)
    (st : ResponseLoop) (c : Char) (h : SynthInv st.s) (hb : st.byte < 256)
    (hp : ∀ b ∈ st.s.packet_buff, b < 256)
    (he : (response_char E m pm st c).error = false) :
    SynthInv (response_char E m pm st c).s ∧ (response_char E m pm st c).byte < 256 := by
  rcases response_char_digit E m pm st c with ⟨st1, val, e, hs, hby, hv⟩ | ⟨hs, hby⟩ | herr
  · rw [e] at he ⊢
    exact response_switch_inv E m pm st1 val (hs ▸ h) (hby ▸ hb) hv (hs ▸ hp) he
  · rw [hs, hby]; exact ⟨h, hb⟩
  · rw [herr] at he; cases he

theorem response_loop_inv (E : Env) (m : monitor) (pm : Nat → regmatch_t) (r : List Char) :
    ∀ (st : ResponseLoop), SynthInv st.s → st.byte < 256 →
      (∀ b ∈ st.s.packet_buff, b < 256) → (response_loop E m pm r st).error = false →
      SynthInv (response_loop E m pm r st).s ∧ (response_loop E m pm r st).byte < 256 := by
  induction r with
  | nil => intro st h hb _ _; exact ⟨h, hb⟩
  | cons c r ih =>
    intro st h hb hp he
    rw [response_loop] at he ⊢
    split
    · exact ⟨h, hb⟩
    · rename_i h0
      rw [if_neg h0] at he
      cases hc : (response_char E m pm st c).error with
      | true => rw [response_loop_error E m pm r _ hc, hc] at he; cases he
      | false =>
        obtain ⟨i1, i2⟩ := response_char_inv E m pm st c h hb hp hc
        exact ih _ i1 i2 (by rw [response_char_packet_buff]; exact hp) he

theorem slice_zero_right (l : List Nat) (a : Nat) : slice l a 0 = [] := by
  simp [slice]

theorem synthesize_inv (E : Env) (m : monitor) (pm : Nat → regmatch_t) (r : List Char)
    (s : zwave_state) (g : Globals) (hbl : s.response_buff.length = 128)
    (hpl : s.response_partpos.length = 4) (hp : ∀ b ∈ s.packet_buff, b < 256)
    (he : (synthesize E m pm r s g).error = false) :
    SynthInv (synthesize E m pm r s g).s := by
  have h0 : SynthInv { s with
      response_zpos := 0
      response_numParts := 0
      response_partNum := 0
      response_partpos := s.response_partpos.set 0 0
      response_zstate := 0 } := by
    refine ⟨hbl, by simp [hpl], by simp, ?_, by simp, ?_, ?_, ?_⟩
    · dsimp only; rw [set_zero_getD]
    · intro _; dsimp only; rw [slice_zero_right]; exact List.not_mem_nil _
    · intro h1; dsimp only at h1; omega
    · intro k hk; dsimp only at hk; omega
  unfold synthesize at he ⊢
  dsimp only at he ⊢
  split
  · rename_i hc
    rw [if_pos hc] at he
    simp only [Bool.and_eq_true, Bool.not_eq_true', decide_eq_true_eq] at hc
    dsimp only at he ⊢
    obtain ⟨i1, i2⟩ := response_loop_inv E m pm r _ h0 (Nat.zero_lt_succ _) hp hc.1
    exact addZwaveResponseData_inv E m _ _ _ _ i1 (by
      intro b hm
      rw [List.mem_singleton.1 hm]
      exact i2) he
  · rename_i hc
    rw [if_neg hc] at he
    exact (response_loop_inv E m pm r _ h0 (Nat.zero_lt_succ _) hp he).1

theorem frame_passes (E : Env) (i o : Endpoint) (send : Bool) (s : zwave_state)
    (g : Globals) (f : List Nat) (hv : valid_frame f) (h3 : 3 ≤ f.length)
    (h128 : f.length ≤ 128) (hs : s.state = 0)
    (hbuf : s.packet_buff.length = MAX_ZWAVE_BUFF_SIZE)
    (hq : ∀ m ∈ g.monitors, m.armed = true → m.intercept = send →
      m.pattern.regexec (hex_of f) = none) :
    (process_zwave E i o send s g f).2.serial = g.serial ++ [(o, f)]
    ∧ (process_zwave E i o send s g f).2.requests = g.requests
    ∧ (process_zwave E i o send s g f).2.http_sink = g.http_sink
    ∧ (process_zwave E i o send s g f).2.clock_reads = g.clock_reads
    ∧ (process_zwave E i o send s g f).1.state = 0 := by
  rw [process_zwave_good E i o send s g f hv.1 h3 h128 hs hbuf hv.2,
    scan_quiet E i o send _ g.monitors _ g hq]
  simp

theorem respond_keeps_closed (fd : Endpoint) (s : zwave_state) (g : Globals) (k : Nat)
    (hk : k < s.response_numParts) :
    response_part (respond fd s g).1 k = response_part s k := by
  unfold respond response_part
  dsimp only
  split
  · dsimp only
    rw [getD_set_ne _ _ _ _ (by omega), getD_set_ne _ _ _ _ (by omega)]
  · rfl

/-- C7. The template of a firing rule is interpreted without error (the
response buffer has its 128 bytes, the part table its 4 entries, the frame
buffer holds bytes). Then for every part `k` that an `XX` token closed, the
bytes of the part from its first byte 1 (the SOF) on form a valid frame: the
byte after SOF is the number of bytes that follow it, the last of them the
checksum, and the running checksum from the length byte through the checksum
byte is 0; the frame has between 3 and 128 bytes; the part is sent as it was
synthesized; and an idle scanner without rules that reads these bytes finds
the checksum good and passes exactly this frame on. -/
theorem C7_closed_subframe_is_valid (E : Env) (m : monitor) (pm : Nat → regmatch_t)
    (resp : List Char) (s : zwave_state) (g : Globals) (fd : Endpoint) (k : Nat)
    (hbl : s.response_buff.length = MAX_ZWAVE_BUFF_SIZE)
    (hpl : s.response_partpos.length = MAX_RESPONSE_PARTS + 1)
    (hp : ∀ b ∈ s.packet_buff, b < 256)
    (he : (synthesize E m pm resp s g).error = false)
    (hk : k < (synthesize E m pm resp s g).s.response_numParts) :
    response_part (respond fd (synthesize E m pm resp s g).s (synthesize E m pm resp s g).g).1 k
      = response_part (synthesize E m pm resp s g).s k
    ∧ valid_frame ((response_part (synthesize E m pm resp s g).s k).dropWhile (fun b => b != 1))
    ∧ ((response_part (synthesize E m pm resp s g).s k).dropWhile (fun b => b != 1)).getD 1 0 + 2
        = ((response_part (synthesize E m pm resp s g).s k).dropWhile (fun b => b != 1)).length
    ∧ 3 ≤ ((response_part (synthesize E m pm resp s g).s k).dropWhile (fun b => b != 1)).length
    ∧ ((response_part (synthesize E m pm resp s g).s k).dropWhile (fun b => b != 1)).length ≤ 128
    ∧ ∀ (E1 : Env) (i o : Endpoint) (send : Bool) (s1 : zwave_state) (g1 : Globals),
        s1.state = 0 → s1.packet_buff.length = MAX_ZWAVE_BUFF_SIZE → g1.monitors = [] →
        (at_checksum send s1
          ((response_part (synthesize E m pm resp s g).s k).dropWhile
            (fun b => b != 1))).checksum = 0
        ∧ (process_zwave E1 i o send s1 g1
            ((response_part (synthesize E m pm resp s g).s k).dropWhile
              (fun b => b != 1))).2.serial
          = g1.serial ++ [(o, (response_part (synthesize E m pm resp s g).s k).dropWhile
              (fun b => b != 1))]
        ∧ (process_zwave E1 i o send s1 g1
            ((response_part (synthesize E m pm resp s g).s k).dropWhile
              (fun b => b != 1))).1.state = 0 := by
  have hinv := synthesize_inv E m pm resp s g hbl hpl hp he
  obtain ⟨_, hv, h3, h128⟩ := hinv.closed k hk
  have e : response_part (synthesize E m pm resp s g).s k
      = slice (synthesize E m pm resp s g).s.response_buff
          ((synthesize E m pm resp s g).s.response_partpos.getD k 0)
          ((synthesize E m pm resp s g).s.response_partpos.getD (k + 1) 0) := rfl
  rw [e]
  refine ⟨?_, hv, ?_, h3, h128, ?_⟩
  · rw [← e]; exact respond_keeps_closed fd _ _ k hk
  · obtain ⟨⟨L, body, hf, hb, _, _⟩, _⟩ := hv
    rw [hf]
    simp [hb]
  · intro E1 i o send s1 g1 hs1 hb1 hm1
    have := frame_passes E1 i o send s1 g1 _ hv h3 h128 hs1 hb1 (by
      intro m hm; rw [hm1] at hm; cases hm)
    exact ⟨hv.2, this.1, this.2.2.2.2⟩

/-- An instance of C7: the first part of the response of `two_part_rule`,
from its SOF on, is a valid frame. -/
theorem C7_witness_two_part_template :
    valid_frame ((response_part (synthesize env_ok two_part_rule (whole_match 11)
      "06 01 00 01 13 01 XX 01 00 00 02 XX".toList zwave_state.init
      Globals.init).s 0).dropWhile (fun b => b != 1))
    ∧ (response_part (synthesize env_ok two_part_rule (whole_match 11)
      "06 01 00 01 13 01 XX 01 00 00 02 XX".toList zwave_state.init
      Globals.init).s 0).dropWhile (fun b => b != 1) = [1, 4, 1, 0x13, 1, 0xE8] :=
  ⟨(C7_closed_subframe_is_valid env_ok two_part_rule (whole_match 11)
      "06 01 00 01 13 01 XX 01 00 00 02 XX".toList zwave_state.init Globals.init
      Endpoint.host 0 rfl rfl
      (fun b hb => by have := List.eq_of_mem_replicate hb; omega)
      (by decide) (by decide)).2.1, by decide⟩

theorem acks_some (E : Env) (i o : Endpoint) (s : zwave_state) (g : Globals) (j : Nat)
    (hs : s.state = 0) (hj : s.response_partNum + j < s.response_numParts) :
    process_zwave E i o true s g (List.replicate j 6) =
      ({ s with response_partNum := s.response_partNum + j },
       { g with serial := g.serial ++
          (List.range j).map (fun t => (i, response_part s (s.response_partNum + 1 + t))) }) := by
  unfold process_zwave
  rw [ack_loop E i o j s g hs hj]
  simp only [ne_eq, not_true_eq_false, and_false, if_false]

theorem acks_rest (E : Env) (i o : Endpoint) (s : zwave_state) (g : Globals) (j : Nat)
    (hs : s.state = 0) (hj : s.response_partNum + j + 1 = s.response_numParts) :
    process_zwave E i o true s g (List.replicate (j + 1) 6) =
      ({ s with response_partNum := s.response_numParts },
       DequeueHTTPData E { g with
          serial := g.serial ++
            (List.range j).map (fun t => (i, response_part s (s.response_partNum + 1 + t)))
          http_holdoff := false }) := by
  unfold process_zwave
  rw [List.replicate_succ', List.foldl_append, ack_loop E i o j s g hs (by omega)]
  simp only [List.foldl_cons, List.foldl_nil]
  rw [ack_last E i o { s with response_partNum := s.response_partNum + j } _ hs
    (by simp only; omega)]
  simp only [ne_eq, not_true_eq_false, and_false, if_false]
  rw [show s.response_partNum + j + 1 = s.response_numParts from hj]

/-- C8. A valid host frame read by the idle send scanner fires the intercept
rule `m` (the first rule of the list that fires with a response), its template
is interpreted without error and the response has `k ≥ 1` parts. Then:
after that read the scanner is idle with no part ACKed, `http_holdoff` is set
and the sink has not been given the notification of `m`; with `p` ACKs
consumed so far, a read of `j` bytes `06` with `p + j < k` writes nothing to
the controller, writes parts `p+2 … p+j+1` of the response to the host, one
per ACK, and changes nothing else in the globals (`http_holdoff` stays as it
is, queue and sink are untouched); the read that brings the `k`-th ACK writes
the remaining parts to the host, clears `http_holdoff` and calls
`DequeueHTTPData`; and `p = 0` is the state right after the firing. -/
theorem C8_acks_release_notification (E : Env) (s : zwave_state) (g : Globals)
    (f : List Nat) (pre post : List monitor) (m : monitor) (pm : Nat → regmatch_t)
    (resp : List Char) (k : Nat)
    (hv : valid_frame f) (h3 : 3 ≤ f.length) (h128 : f.length ≤ 128) (hs : s.state = 0)
    (hbuf : s.packet_buff.length = MAX_ZWAVE_BUFF_SIZE)
    (hg : g.monitors = pre ++ m :: post) (hpre : observers true (hex_of f) pre)
    (ha : m.armed = true) (hd : m.intercept = true)
    (hm : m.pattern.regexec (hex_of f) = some pm) (hr : m.response = some resp)
    (he : (synthesize E m pm resp (at_checksum true s f) g).error = false)
    (hk : (host_readable E s g f).1.response_numParts = k) (hk1 : 1 ≤ k) :
    ((host_readable E s g f).1.state = 0
      ∧ (host_readable E s g f).1.response_partNum = 0
      ∧ (host_readable E s g f).2.http_holdoff = true
      ∧ (host_readable E s g f).2.http_sink =
          (scan_monitors E Endpoint.host Endpoint.controller true (hex_of f) pre
            (at_checksum true s f) g).2.2.1.http_sink)
    ∧ (∀ (p j : Nat) (G : Globals), p + j < k →
        host_readable E { (host_readable E s g f).1 with response_partNum := p } G
            (List.replicate j 6) =
          ({ (host_readable E s g f).1 with response_partNum := p + j },
           { G with
             serial := G.serial ++
               (List.range j).map (fun t =>
                 (Endpoint.host, response_part (host_readable E s g f).1 (p + 1 + t))) }))
    ∧ (∀ (p j : Nat) (G : Globals), p + j + 1 = k →
        host_readable E { (host_readable E s g f).1 with response_partNum := p } G
            (List.replicate (j + 1) 6) =
          ({ (host_readable E s g f).1 with response_partNum := k },
           DequeueHTTPData E { G with
             serial := G.serial ++
               (List.range j).map (fun t =>
                 (Endpoint.host, response_part (host_readable E s g f).1 (p + 1 + t)))
             http_holdoff := false }))
    ∧ ({ (host_readable E s g f).1 with response_partNum := 0 } : zwave_state)
        = (host_readable E s g f).1 := by
  subst hk
  have hfire := process_zwave_fire_response E Endpoint.host Endpoint.controller true s g f
    pre post m pm resp hv h3 h128 hs hbuf hg hpre ha hd hm hr he
  have h0 : (host_readable E s g f).1.state = 0 := by
    unfold host_readable; rw [hfire]
  have hp : (host_readable E s g f).1.response_partNum = 0 := by
    unfold host_readable; rw [hfire]; rfl
  have hn : (respond (if m.forward then Endpoint.controller else Endpoint.host)
      (synthesize E m pm resp (at_checksum true s f) g).s g).1.response_numParts
        = (host_readable E s g f).1.response_numParts := by
    unfold host_readable; rw [hfire]
  have hh := notify_fire_holdoff E (hex_of f) m pm
    (respond (if m.forward then Endpoint.controller else Endpoint.host)
      (synthesize E m pm resp (at_checksum true s f) g).s g).1
    { (scan_monitors E Endpoint.host Endpoint.controller true (hex_of f) pre
        (at_checksum true s f) g).2.2.1 with
      serial := g.serial ++ [(if m.forward then Endpoint.controller else Endpoint.host,
        response_part (respond (if m.forward then Endpoint.controller else Endpoint.host)
          (synthesize E m pm resp (at_checksum true s f) g).s g).1 0)] }
    (by rw [hn]; exact hk1)
  refine ⟨⟨h0, hp, ?_, ?_⟩, ?_, ?_, ?_⟩
  · unfold host_readable; rw [hfire]; exact hh.1
  · unfold host_readable; rw [hfire]; exact hh.2
  · intro p j G hj
    exact acks_some E Endpoint.host Endpoint.controller
      { (host_readable E s g f).1 with response_partNum := p } G j h0 hj
  · intro p j G hj
    exact acks_rest E Endpoint.host Endpoint.controller
      { (host_readable E s g f).1 with response_partNum := p } G j h0 hj
  · cases hr0 : (host_readable E s g f).1
    rw [hr0] at hp
    simp only at hp
    simp [hp]

/-- An instance of C8: `two_part_rule` alone in the list, the host writes the
valid frame `01 03 00 13 EF` and then two ACKs in two reads. The first ACK
makes the host receive the second part `01 03 00 02 FE` with the sink still
empty; after the second ACK the sink has been given the one notification. -/
theorem C8_witness_two_parts :
    (host_readable env_ok zwave_state.init { Globals.init with monitors := [two_part_rule] }
        [1, 3, 0, 0x13, 0xEF]).2.serial = [(Endpoint.host, [6, 1, 4, 1, 0x13, 1, 0xE8])]
    ∧ (host_readable env_ok
        (host_readable env_ok zwave_state.init
          { Globals.init with monitors := [two_part_rule] } [1, 3, 0, 0x13, 0xEF]).1
        (host_readable env_ok zwave_state.init
          { Globals.init with monitors := [two_part_rule] } [1, 3, 0, 0x13, 0xEF]).2
        [6]).2.serial
      = [(Endpoint.host, [6, 1, 4, 1, 0x13, 1, 0xE8]), (Endpoint.host, [1, 3, 0, 2, 0xFE])]
    ∧ (host_readable env_ok
        (host_readable env_ok zwave_state.init
          { Globals.init with monitors := [two_part_rule] } [1, 3, 0, 0x13, 0xEF]).1
        (host_readable env_ok zwave_state.init
          { Globals.init with monitors := [two_part_rule] } [1, 3, 0, 0x13, 0xEF]).2
        [6]).2.http_sink = []
    ∧ (host_readable env_ok
        (host_readable env_ok zwave_state.init
          { Globals.init with monitors := [two_part_rule] } [1, 3, 0, 0x13, 0xEF]).1
        (host_readable env_ok zwave_state.init
          { Globals.init with monitors := [two_part_rule] } [1, 3, 0, 0x13, 0xEF]).2
        [6, 6]).2.http_sink.length = 1 := by
  have h := C8_acks_release_notification env_ok zwave_state.init
    { Globals.init with monitors := [two_part_rule] } [1, 3, 0, 0x13, 0xEF] [] []
    two_part_rule (whole_match 11) "06 01 00 01 13 01 XX 01 00 00 02 XX".toList 2
    ⟨⟨3, [0, 0x13, 0xEF], rfl, rfl, by decide, by decide⟩, by decide⟩
    (by decide) (by decide) rfl rfl rfl (fun p hp => by cases hp) rfl rfl rfl rfl
    (by decide) (by decide) (by decide)
  have h1 := h.2.1 0 1 (host_readable env_ok zwave_state.init
    { Globals.init with monitors := [two_part_rule] } [1, 3, 0, 0x13, 0xEF]).2 (by decide)
  have h2 := h.2.2.1 0 1 (host_readable env_ok zwave_state.init
    { Globals.init with monitors := [two_part_rule] } [1, 3, 0, 0x13, 0xEF]).2 (by decide)
  rw [h.2.2.2, show List.replicate 1 6 = [6] from rfl] at h1
  rw [h.2.2.2, show List.replicate (1 + 1) 6 = [6, 6] from rfl] at h2
  rw [h1, h2]
  decide

theorem store_bytes_bytes (cs : List Nat) : ∀ (buf : List Nat) (k : Nat),
    (∀ b ∈ buf, b < 256) → (∀ b ∈ cs, b < 256) → ∀ b ∈ store_bytes buf k cs, b < 256 := by
  induction cs with
  | nil => intro buf k h _; exact h
  | cons c cs ih =>
    intro buf k h hc
    rw [store_bytes]
    apply ih
    · intro b hb
      rcases List.mem_or_eq_of_mem_set hb with hb | hb
      · exact h b hb
      · rw [hb]; exact hc c (List.mem_cons_self _ _)
    · exact fun b hb => hc b (List.mem_cons_of_mem _ hb)

theorem dropWhile_length_le (l : List Nat) (p : Nat → Bool) :
    (l.dropWhile p).length ≤ l.length := by
  induction l with
  | nil => simp
  | cons a l ih =>
    rw [List.dropWhile_cons]
    split
    · simp only [List.length_cons]; omega
    · exact Nat.le_refl _

theorem respond_first (fd : Endpoint) (S : zwave_state) (g0 : Globals) (hinv : SynthInv S)
    (h0 : S.response_partpos.getD 0 0 = 0) (hz : 0 < S.response_zpos) :
    1 ≤ (respond fd S g0).1.response_numParts
    ∧ 0 < (respond fd S g0).1.response_partpos.getD 1 0
    ∧ (respond fd S g0).1.response_partpos.getD 1 0 ≤ S.response_zpos
    ∧ response_part (respond fd S g0).1 0
        = S.response_buff.take ((respond fd S g0).1.response_partpos.getD 1 0) := by
  have hpl := hinv.pp_len
  have hpart : response_part (respond fd S g0).1 0
      = S.response_buff.take ((respond fd S g0).1.response_partpos.getD 1 0) := by
    have h1 := respond_first_part fd S g0 h0
    have h2 := (respond_eq fd S g0 g0).2
    rw [h1] at h2
    have h3 := congrArg Globals.serial h2
    simp only [List.append_cancel_left_eq, List.cons.injEq, Prod.mk.injEq, true_and,
      and_true] at h3
    rw [h3]
    unfold respond
    dsimp only
    split <;> rfl
  refine ⟨?_, ?_, ?_, hpart⟩
  all_goals
    unfold respond
    dsimp only
    by_cases hn : S.response_numParts = 0
    · rw [hn, if_pos ⟨by rw [h0]; exact hz, by decide⟩] <;> dsimp only <;>
        first
          | omega
          | (rw [getD_set_self _ _ _ (by omega)] <;> exact hz)
    · obtain ⟨c1, _, c3, _⟩ := hinv.closed 0 (by omega)
      have hle := hinv.part_le
      have hl1 := dropWhile_length_le (slice S.response_buff (S.response_partpos.getD 0 0)
        (S.response_partpos.getD (0 + 1) 0)) (fun b => b != 1)
      have hl2 : (slice S.response_buff (S.response_partpos.getD 0 0)
          (S.response_partpos.getD (0 + 1) 0)).length
          ≤ S.response_partpos.getD (0 + 1) 0 - S.response_partpos.getD 0 0 := by
        unfold slice
        rw [List.length_take]
        exact Nat.min_le_left _ _
      simp only [Nat.zero_add] at c1 c3 hl1 hl2
      split
      · dsimp only
        first
          | omega
          | (rw [getD_set_ne _ _ _ _ (by omega)]; omega)
      · omega

theorem first_part_synthesized (E : Env) (m : monitor) (pm : Nat → regmatch_t)
    (resp : List Char) (s : zwave_state) (g g0 : Globals) (fd : Endpoint)
    (hbl : s.response_buff.length = MAX_ZWAVE_BUFF_SIZE)
    (hpl : s.response_partpos.length = MAX_RESPONSE_PARTS + 1)
    (hp : ∀ b ∈ s.packet_buff, b < 256)
    (he : (synthesize E m pm resp s g).error = false)
    (hz : 0 < (synthesize E m pm resp s g).s.response_zpos) :
    1 ≤ (respond fd (synthesize E m pm resp s g).s g0).1.response_numParts
    ∧ 0 < (respond fd (synthesize E m pm resp s g).s g0).1.response_partpos.getD 1 0
    ∧ (respond fd (synthesize E m pm resp s g).s g0).1.response_partpos.getD 1 0
        ≤ (synthesize E m pm resp s g).s.response_zpos
    ∧ response_part (respond fd (synthesize E m pm resp s g).s g0).1 0
        = (synthesize E m pm resp s g).s.response_buff.take
            ((respond fd (synthesize E m pm resp s g).s g0).1.response_partpos.getD 1 0) :=
  respond_first fd _ g0 (synthesize_inv E m pm resp s g hbl hpl hp he)
    (synthesize_partpos0 E m pm resp s g) hz

set_option maxRecDepth 100000 in
/-- C5. A valid frame read by an idle scanner, a rule list `pre ++ m :: post`
in which no rule of `pre` fires with a response, and `m` armed, of the frame's
direction, matched by its pattern, with a response template that is
interpreted without error. Then: the only serial write is
`response_buff[0 .. response_partpos[1])`, to the endpoint the frame came from
(`i`) when `forward` is false and to the opposite endpoint (`o`) when it is
true, so the frame itself is not written; the globals after the read are given
by the scan of `pre`, the response write and the notification of `m` alone,
with `post` left in the list as it was: no rule after `m` is tested; and when
the synthesis produced at least one byte (buffers of their declared sizes),
the bytes written are a non-empty prefix of the bytes just synthesized, ending
where the first part ends. When the synthesis produced no byte they are not:
no part is closed, `response_partpos[1]` keeps the value an earlier response
gave it, and the bytes of that earlier response are written. So with the rules
`ack_rule`, `blank_rule` in the list, after `ack_rule` answered a first host
frame with `06`, a second host frame `01 03 00 13 EF` fires `blank_rule`,
whose template of one space is interpreted without error and yields no byte:
the frame is not passed to the controller and the host receives the byte `06`
again, which is no byte of the synthesized response. -/
theorem C5_response_replaces_frame (E : Env) (i o : Endpoint) (send : Bool)
    (s : zwave_state) (g : Globals) (f : List Nat) (pre post : List monitor) (m : monitor)
    (pm : Nat → regmatch_t) (resp : List Char)
    (hv : valid_frame f) (h3 : 3 ≤ f.length) (h128 : f.length ≤ 128) (hs : s.state = 0)
    (hbuf : s.packet_buff.length = MAX_ZWAVE_BUFF_SIZE)
    (hg : g.monitors = pre ++ m :: post) (hpre : observers send (hex_of f) pre)
    (ha : m.armed = true) (hd : m.intercept = send)
    (hm : m.pattern.regexec (hex_of f) = some pm) (hr : m.response = some resp)
    (he : (synthesize E m pm resp (at_checksum send s f) g).error = false) :
    (process_zwave E i o send s g f).2.serial =
      g.serial ++ [(if m.forward then o else i,
        response_part (respond (if m.forward then o else i)
          (synthesize E m pm resp (at_checksum send s f) g).s g).1 0)]
    ∧ (process_zwave E i o send s g f).2 =
      { notify_fire E send (hex_of f) m pm
           (respond (if m.forward then o else i)
              (synthesize E m pm resp (at_checksum send s f) g).s g).1
           { (scan_monitors E i o send (hex_of f) pre (at_checksum send s f) g).2.2.1 with
             serial := g.serial ++ [(if m.forward then o else i,
               response_part (respond (if m.forward then o else i)
                 (synthesize E m pm resp (at_checksum send s f) g).s g).1 0)] }
         with monitors :=
           (scan_monitors E i o send (hex_of f) pre (at_checksum send s f) g).1
             ++ after_fire m ++ post }
    ∧ (s.response_buff.length = MAX_ZWAVE_BUFF_SIZE →
        s.response_partpos.length = MAX_RESPONSE_PARTS + 1 →
        (∀ b ∈ s.packet_buff, b < 256) →
        0 < (synthesize E m pm resp (at_checksum send s f) g).s.response_zpos →
        1 ≤ (respond (if m.forward then o else i)
              (synthesize E m pm resp (at_checksum send s f) g).s g).1.response_numParts
        ∧ 0 < (respond (if m.forward then o else i)
              (synthesize E m pm resp (at_checksum send s f) g).s g).1.response_partpos.getD 1 0
        ∧ (respond (if m.forward then o else i)
              (synthesize E m pm resp (at_checksum send s f) g).s g).1.response_partpos.getD 1 0
            ≤ (synthesize E m pm resp (at_checksum send s f) g).s.response_zpos
        ∧ response_part (respond (if m.forward then o else i)
              (synthesize E m pm resp (at_checksum send s f) g).s g).1 0
            = (synthesize E m pm resp (at_checksum send s f) g).s.response_buff.take
                ((respond (if m.forward then o else i)
                  (synthesize E m pm resp (at_checksum send s f) g).s
                    g).1.response_partpos.getD 1 0))
    ∧ (after_first_response.2.serial = [(Endpoint.host, [6])]
      ∧ after_first_response.2.monitors.map (fun r => r.key) = ["k5".toList]
      ∧ (synthesize env_ok blank_rule (whole_match 11) " ".toList
          (at_checksum true after_first_response.1 [1, 3, 0, 0x13, 0xEF])
          after_first_response.2).error = false
      ∧ (synthesize env_ok blank_rule (whole_match 11) " ".toList
          (at_checksum true after_first_response.1 [1, 3, 0, 0x13, 0xEF])
          after_first_response.2).s.response_zpos = 0
      ∧ after_blank_response.1.response_numParts = 0
      ∧ after_blank_response.2.serial = [(Endpoint.host, [6]), (Endpoint.host, [6])]) := by
  rw [process_zwave_fire_response E i o send s g f pre post m pm resp hv h3 h128 hs hbuf hg
    hpre ha hd hm hr he]
  refine ⟨notify_fire_serial E send (hex_of f) m pm _ _, rfl, ?_,
    by decide, by decide, by decide, by decide, by decide, by decide⟩
  intro hbl hpl hp hz
  obtain ⟨⟨L, body, hf, _, _, hbytes⟩, _⟩ := hv
  exact first_part_synthesized E m pm resp (at_checksum send s f) g g _ hbl hpl
    (store_bytes_bytes f s.packet_buff 0 hp hbytes) he hz

/-- Scenario S6 as an instance of C5: the forwarding monitor rule alone in the
list, the controller sends the valid frame `01 05 00 04 00 01 FF`, and the one
serial write is `01 03 00 02 FE` to the host. -/
theorem C5_witness_forward_rewrite :
    (process_zwave env_ok Endpoint.controller Endpoint.host false zwave_state.init
        { Globals.init with monitors := [s6_rule] } [1, 5, 0, 4, 0, 1, 0xFF]).2.serial
      = [(Endpoint.host, [1, 3, 0, 2, 0xFE])] :=
  (C5_response_replaces_frame env_ok Endpoint.controller Endpoint.host false zwave_state.init
    { Globals.init with monitors := [s6_rule] } [1, 5, 0, 4, 0, 1, 0xFF] [] [] s6_rule
    (whole_match 11) "01 03 00 02 FE".toList
    ⟨⟨5, [0, 4, 0, 1, 0xFF], rfl, rfl, by decide, by decide⟩, by decide⟩
    (by decide) (by decide) rfl rfl rfl
    (fun p hp => by cases hp) rfl rfl rfl rfl (by decide)).1


/-! ## The rule list: order of deadlines -/

theorem toInt32_small (x : Int) (h1 : -(2 ^ 31) ≤ x) (h2 : x < 2 ^ 31) : toInt32 x = x := by
  unfold toInt32
  have : (x + 2 ^ 31) % 2 ^ 32 = x + 2 ^ 31 := Int.emod_eq_of_lt (by omega) (by omega)
  omega

theorem compareTimeout_pos (m m2 : monitor)
    (h : m.timeout ≠ 0 → m2.timeout ≠ 0 → |m.timeout - m2.timeout| < 2 ^ 31) :
    (compareTimeout m.timeout m2.timeout > 0) ↔ earlier m m2 = true := by
  unfold compareTimeout earlier
  by_cases h1 : m.timeout = 0
  · by_cases h2 : m2.timeout = 0
    · simp [h1, h2, toInt32]
    · simp [h1, h2, toInt32]
  · by_cases h2 : m2.timeout = 0
    · simp [h1, h2, toInt32]
    · have hc := h h1 h2
      rw [abs_lt] at hc
      simp only [ne_eq, h1, not_false_eq_true, if_true, h2, false_or, true_and, decide_eq_true_eq]
      rw [toInt32_small _ (by omega) (by omega)]
      omega

theorem insert_monitor_split (m : monitor) : ∀ (ms : List monitor),
    insert_monitor m ms =
      ms.takeWhile (fun m2 => decide (compareTimeout m.timeout m2.timeout > 0))
        ++ m :: ms.dropWhile (fun m2 => decide (compareTimeout m.timeout m2.timeout > 0)) := by
  intro ms
  induction ms with
  | nil => rfl
  | cons m2 rest ih =>
    unfold insert_monitor
    by_cases h : compareTimeout m.timeout m2.timeout > 0
    · simp [h, List.takeWhile, List.dropWhile, ih]
    · simp [h, List.takeWhile, List.dropWhile]

theorem deadline_le_trans (a b c : Int) (h1 : deadline_le a b) (h2 : deadline_le b c) :
    deadline_le a c := by
  unfold deadline_le at *
  omega

theorem sorted_sublist (ms ms2 : List monitor) (h : List.Sublist ms2 ms)
    (hs : sorted_by_deadline ms) : sorted_by_deadline ms2 :=
  List.Pairwise.sublist h hs

theorem sorted_of_timeouts (ms ms2 : List monitor)
    (h : List.Sublist (ms2.map (fun m => m.timeout)) (ms.map (fun m => m.timeout)))
    (hs : sorted_by_deadline ms) : sorted_by_deadline ms2 := by
  unfold sorted_by_deadline at *
  have h1 : (ms.map (fun m => m.timeout)).Pairwise deadline_le := by
    rw [List.pairwise_map]; exact hs
  have h2 := List.Pairwise.sublist h h1
  rw [List.pairwise_map] at h2
  exact h2

theorem insert_monitor_sorted (m : monitor) : ∀ (ms : List monitor),
    sorted_by_deadline ms → deadlines_close m ms → sorted_by_deadline (insert_monitor m ms) := by
  intro ms
  induction ms with
  | nil => intro _ _; simp [insert_monitor, sorted_by_deadline]
  | cons m2 rest ih =>
    intro hs hc
    have hc2 := hc m2 (List.mem_cons_self _ _)
    have hcr : deadlines_close m rest := fun p hp => hc p (List.mem_cons_of_mem _ hp)
    unfold sorted_by_deadline at hs
    rw [List.pairwise_cons] at hs
    unfold insert_monitor
    by_cases h : compareTimeout m.timeout m2.timeout > 0
    · rw [if_pos h]
      have he := (compareTimeout_pos m m2 hc2).1 h
      unfold earlier at he
      simp only [decide_eq_true_eq] at he
      have ihs := ih hs.2 hcr
      unfold sorted_by_deadline
      rw [List.pairwise_cons]
      refine ⟨?_, ihs⟩
      intro p hp
      rw [insert_monitor_split, List.mem_append, List.mem_cons] at hp
      rcases hp with hp | hp | hp
      · exact hs.1 p (((List.takeWhile_prefix _).subset hp))
      · subst hp; unfold deadline_le; omega
      · exact hs.1 p (((List.dropWhile_suffix _).subset hp))
    · rw [if_neg h]
      have he : ¬ (earlier m m2 = true) := fun e => h ((compareTimeout_pos m m2 hc2).2 e)
      unfold earlier at he
      simp only [decide_eq_true_eq] at he
      have hle : deadline_le m.timeout m2.timeout := by unfold deadline_le; omega
      unfold sorted_by_deadline
      rw [List.pairwise_cons, List.pairwise_cons]
      refine ⟨?_, hs.1, hs.2⟩
      intro p hp
      rw [List.mem_cons] at hp
      rcases hp with hp | hp
      · subst hp; exact hle
      · exact deadline_le_trans _ _ _ hle (hs.1 p hp)


theorem cancel_loop_sublist (d : Int) (key : List Char) : ∀ (ms : List monitor),
    List.Sublist (cancel_loop d key ms).1 ms := by
  intro ms
  induction ms with
  | nil => simp [cancel_loop]
  | cons m rest ih =>
    unfold cancel_loop
    by_cases h : m.device_num = d ∧ m.key = key
    · rw [if_pos h]; exact List.sublist_cons_self _ _
    · rw [if_neg h]; exact List.Sublist.cons₂ _ ih

theorem unregister_loop_filter (d : Int) : ∀ (ms : List monitor),
    unregister_loop d ms = ms.filter (fun m => !decide (d < 0 ∨ d = m.device_num)) := by
  intro ms
  induction ms with
  | nil => rfl
  | cons m rest ih =>
    unfold unregister_loop
    by_cases h : d < 0 ∨ d = m.device_num
    · rw [if_pos h, ih, List.filter_cons_of_neg (by simp [h])]
    · rw [if_neg h, ih, List.filter_cons_of_pos (by simp [h])]

theorem unregister_loop_sublist (d : Int) (ms : List monitor) :
    List.Sublist (unregister_loop d ms) ms := by
  rw [unregister_loop_filter]; exact List.filter_sublist _

theorem zwint_unregister_sublist (ok : Bool) (arg : Option Int) (g : Globals) :
    List.Sublist (zwint_unregister ok arg g).1.monitors g.monitors := by
  unfold zwint_unregister
  by_cases h : g.registered ≤ 0
  · simp [h]
  · simp only [h, if_false]
    by_cases h1 : g.registered - 1 = 0
    · simp only [h1, if_true]
      cases ok
      · simp
      · simp only [if_true]; exact unregister_loop_sublist _ _
    · simp only [h1, if_false]; exact unregister_loop_sublist _ _

theorem expire_loop_eq (E : Env) (now : Int) : ∀ (ms : List monitor) (g : Globals),
    expire_loop E now ms g =
      (ms.dropWhile (expired now),
       http_run E g ((ms.takeWhile (expired now)).map
         (fun m => HttpEvent.send m "Timeout".toList [] none none))) := by
  intro ms
  induction ms with
  | nil => intro g; simp [expire_loop, http_run]
  | cons m rest ih =>
    intro g
    unfold expire_loop
    by_cases h : expired now m = true
    · rw [if_pos h, ih]
      simp [List.dropWhile, List.takeWhile, h, http_run, http_step]
    · rw [if_neg h]
      simp [List.dropWhile, List.takeWhile, h, http_run]

theorem expire_monitors_sublist (E : Env) (now : Int) (g : Globals) :
    List.Sublist (expire_monitors E now g).monitors g.monitors := by
  unfold expire_monitors
  rw [expire_loop_eq]
  exact (List.dropWhile_suffix _).sublist

theorem DequeueHTTPData_monitors (E : Env) (g : Globals) :
    (DequeueHTTPData E g).monitors = g.monitors := by
  unfold DequeueHTTPData
  split
  · rfl
  · split <;> rfl

theorem frame_complete_monitors (E : Env) (i o : Endpoint) (send : Bool) (s : zwave_state)
    (g : Globals) (len : Nat) :
    List.Sublist ((frame_complete E i o send s g len).2.monitors.map disarmed)
      (g.monitors.map disarmed) := by
  unfold frame_complete
  by_cases h : s.checksum = 0
  · rw [if_pos h]
    have := scan_sublist E i o send (hexbuff s.packet_buff len) g.monitors s g
    dsimp only
    split <;> exact this
  · rw [if_neg h]

theorem frame_byte_monitors (E : Env) (i o : Endpoint) (send : Bool) (l : ByteLoop) (c : Nat) :
    List.Sublist ((frame_byte E i o send l c).g.monitors.map disarmed)
      (l.g.monitors.map disarmed) := by
  unfold frame_byte
  split
  · split
    · split <;> exact List.Sublist.refl _
    · exact List.Sublist.refl _
  · split
    · split <;> exact List.Sublist.refl _
    · dsimp only
      split
      · exact frame_complete_monitors E i o send _ _ _
      · exact List.Sublist.refl _

theorem process_byte_monitors (E : Env) (i o : Endpoint) (send : Bool) (l : ByteLoop) (c : Nat) :
    List.Sublist ((process_byte E i o send l c).g.monitors.map disarmed)
      (l.g.monitors.map disarmed) := by
  unfold process_byte
  dsimp only
  split
  · split
    · split
      · exact List.Sublist.refl _
      · dsimp only; rw [DequeueHTTPData_monitors]
    · exact frame_byte_monitors E i o send _ c
  · exact frame_byte_monitors E i o send _ c

theorem process_zwave_monitors (E : Env) (i o : Endpoint) (send : Bool) (s : zwave_state)
    (g : Globals) (raw : List Nat) :
    List.Sublist ((process_zwave E i o send s g raw).2.monitors.map disarmed)
      (g.monitors.map disarmed) := by
  unfold process_zwave
  have key : ∀ (raw : List Nat) (l : ByteLoop),
      List.Sublist ((raw.foldl (process_byte E i o send) l).g.monitors.map disarmed)
        (l.g.monitors.map disarmed) := by
    intro raw
    induction raw with
    | nil => intro l; exact List.Sublist.refl _
    | cons c cs ih =>
      intro l
      rw [List.foldl_cons]
      exact (ih _).trans (process_byte_monitors E i o send l c)
  have := key raw { s := s, g := g, pending := [] }
  dsimp only
  split <;> exact this

theorem sorted_of_disarmed (ms ms2 : List monitor)
    (h : List.Sublist (ms2.map disarmed) (ms.map disarmed))
    (hs : sorted_by_deadline ms) : sorted_by_deadline ms2 := by
  apply sorted_of_timeouts ms ms2 _ hs
  have := h.map (fun m => m.timeout)
  simpa [List.map_map, Function.comp_def, disarmed] using this

theorem sorted_head (h : monitor) (rest : List monitor)
    (hs : sorted_by_deadline (h :: rest)) :
    (∀ p ∈ h :: rest, p.timeout = 0 ∨ (h.timeout ≠ 0 ∧ h.timeout ≤ p.timeout))
    ∧ (h.timeout = 0 ↔ ∀ p ∈ h :: rest, p.timeout = 0) := by
  unfold sorted_by_deadline at hs
  rw [List.pairwise_cons] at hs
  have h1 : ∀ p ∈ h :: rest, p.timeout = 0 ∨ (h.timeout ≠ 0 ∧ h.timeout ≤ p.timeout) := by
    intro p hp
    rw [List.mem_cons] at hp
    rcases hp with hp | hp
    · subst hp; omega
    · exact hs.1 p hp
  refine ⟨h1, ?_, fun hall => hall h (List.mem_cons_self _ _)⟩
  intro h0 p hp
  rcases h1 p hp with hz | hz
  · exact hz
  · exact absurd h0 hz.1

/-- C15. For a rule list sorted by deadline (ascending, 0 after every other
deadline) and a new rule whose deadline differs by less than `2^31` ms from
every deadline of the list that is not 0: the list after the insertion of
`wwint_monitor_intercept` is sorted and is the old list with the new rule put
in at one place; the list stays sorted when the rule at any position is
deleted, and after `zwint_cancel`, `zwint_unregister`, the expiry step and
`process_zwave` (which deletes oneshot rules); and the head rule has the
earliest deadline of the list, its deadline being 0 exactly when every rule of
the list has deadline 0. -/
theorem C15_list_stays_sorted (m : monitor) (ms : List monitor)
    (hs : sorted_by_deadline ms) (hc : deadlines_close m ms) :
    sorted_by_deadline (insert_monitor m ms)
    ∧ (∃ l1 l2, ms = l1 ++ l2 ∧ insert_monitor m ms = l1 ++ m :: l2)
    ∧ (∀ (now : Int) (is_intercept : Bool) (device_num : Int) (key : List Char)
        (pattern : regex_t) (oneshot : Bool) (timeout : Int) (arm_pattern : Option regex_t)
        (response : List Char) (forward : Bool) (g : Globals), g.monitors = ms →
        m.timeout = (if timeout ≠ 0 then now + timeout else 0) →
        sorted_by_deadline (wwint_monitor_intercept now is_intercept device_num key pattern
          oneshot timeout arm_pattern response forward g).monitors)
    ∧ (∀ k, sorted_by_deadline (delete_from_monitor_list k ms))
    ∧ (∀ (d : Int) (key : List Char) (g : Globals), g.monitors = ms →
        sorted_by_deadline (zwint_cancel d key g).1.monitors)
    ∧ (∀ (ok : Bool) (arg : Option Int) (g : Globals), g.monitors = ms →
        sorted_by_deadline (zwint_unregister ok arg g).1.monitors)
    ∧ (∀ (E : Env) (now : Int) (g : Globals), g.monitors = ms →
        sorted_by_deadline (expire_monitors E now g).monitors)
    ∧ (∀ (E : Env) (i o : Endpoint) (send : Bool) (s : zwave_state) (g : Globals)
        (raw : List Nat), g.monitors = ms →
        sorted_by_deadline (process_zwave E i o send s g raw).2.monitors)
    ∧ (∀ h rest, ms = h :: rest →
        (∀ p ∈ ms, p.timeout = 0 ∨ (h.timeout ≠ 0 ∧ h.timeout ≤ p.timeout))
        ∧ (h.timeout = 0 ↔ ∀ p ∈ ms, p.timeout = 0)) := by
  refine ⟨insert_monitor_sorted m ms hs hc, ?_, ?_, ?_, ?_, ?_, ?_, ?_, ?_⟩
  · exact ⟨_, _, (List.takeWhile_append_dropWhile _ ms).symm, insert_monitor_split m ms⟩
  · intro now is_intercept device_num key pattern oneshot timeout arm_pattern response forward
      g hg ht
    unfold wwint_monitor_intercept
    dsimp only
    rw [hg]
    apply insert_monitor_sorted _ ms hs
    intro p hp h1 h2
    dsimp only at h1 ⊢
    rw [← ht] at h1 ⊢
    exact hc p hp h1 h2
  · intro k
    exact sorted_sublist ms _ (List.eraseIdx_sublist ms k) hs
  · intro d key g hg
    subst hg
    exact sorted_sublist _ _ (cancel_loop_sublist d key g.monitors) hs
  · intro ok arg g hg
    subst hg
    exact sorted_sublist _ _ (zwint_unregister_sublist ok arg g) hs
  · intro E now g hg
    subst hg
    exact sorted_sublist _ _ (expire_monitors_sublist E now g) hs
  · intro E i o send s g raw hg
    subst hg
    exact sorted_of_disarmed _ _ (process_zwave_monitors E i o send s g raw) hs
  · intro h rest hms
    subst hms
    exact sorted_head h rest hs

/-- An instance of C15: a rule with deadline 50 inserted into the sorted list
of a rule with deadline 100 and a rule without deadline goes to the head. -/
theorem C15_witness_insert_between :
    sorted_by_deadline (insert_monitor (timed_rule "c".toList 50)
      [timed_rule "a".toList 100, timed_rule "b".toList 0])
    ∧ (insert_monitor (timed_rule "c".toList 50)
        [timed_rule "a".toList 100, timed_rule "b".toList 0]).map (fun m => m.key)
        = ["c".toList, "a".toList, "b".toList] :=
  ⟨(C15_list_stays_sorted (timed_rule "c".toList 50)
      [timed_rule "a".toList 100, timed_rule "b".toList 0]
      (by simp [sorted_by_deadline, deadline_le, timed_rule])
      (by
        intro p hp h1 h2
        simp only [List.mem_cons, List.mem_singleton, List.not_mem_nil, or_false] at hp
        rcases hp with hp | hp <;> subst hp <;> simp [timed_rule] at h2 ⊢)).1,
   by decide⟩

/-! ## Insertion order -/

theorem insert_monitor_earlier (m : monitor) : ∀ (ms : List monitor), deadlines_close m ms →
    insert_monitor m ms = ms.takeWhile (earlier m) ++ m :: ms.dropWhile (earlier m) := by
  intro ms
  induction ms with
  | nil => intro _; rfl
  | cons m2 rest ih =>
    intro hc
    have hc2 := hc m2 (List.mem_cons_self _ _)
    have hcr : deadlines_close m rest := fun p hp => hc p (List.mem_cons_of_mem _ hp)
    unfold insert_monitor
    by_cases h : compareTimeout m.timeout m2.timeout > 0
    · have he := (compareTimeout_pos m m2 hc2).1 h
      rw [if_pos h, ih hcr]
      simp [List.takeWhile, List.dropWhile, he]
    · have he : earlier m m2 = false := by
        cases hb : earlier m m2
        · rfl
        · exact absurd ((compareTimeout_pos m m2 hc2).2 hb) h
      rw [if_neg h]
      simp [List.takeWhile, List.dropWhile, he]

theorem dropWhile_head_not (p : monitor → Bool) : ∀ (ms : List monitor) (a : monitor)
    (rest : List monitor), ms.dropWhile p = a :: rest → p a = false := by
  intro ms
  induction ms with
  | nil => intro a rest h; simp at h
  | cons b bs ih =>
    intro a rest h
    by_cases hb : p b = true
    · rw [List.dropWhile_cons_of_pos hb] at h; exact ih a rest h
    · rw [List.dropWhile_cons_of_neg hb] at h
      injection h with h1 _
      subst h1
      simpa using hb

/-- C16, as the code has it. For a new rule whose deadline differs by less
than `2^31` ms from every deadline of the list that is not 0: insertion walks
past the rules whose deadline is strictly earlier than the new one (0 counting
as later than every other deadline) and puts the new rule immediately before
the first rule whose deadline is later or equal. So every rule of the list
with the same deadline comes after the new rule; when all rules have the
deadline of the new rule, the new rule becomes the head. -/
theorem C16_insert_before_first_not_earlier (m : monitor) (ms : List monitor)
    (hc : deadlines_close m ms) :
    insert_monitor m ms = ms.takeWhile (earlier m) ++ m :: ms.dropWhile (earlier m)
    ∧ (∀ p ∈ ms.takeWhile (earlier m),
        p.timeout ≠ 0 ∧ (m.timeout = 0 ∨ p.timeout < m.timeout))
    ∧ (∀ p rest, ms.dropWhile (earlier m) = p :: rest →
        p.timeout = 0 ∨ (m.timeout ≠ 0 ∧ m.timeout ≤ p.timeout))
    ∧ (∀ p ∈ ms.takeWhile (earlier m), p.timeout ≠ m.timeout)
    ∧ ((∀ p ∈ ms, p.timeout = m.timeout) → insert_monitor m ms = m :: ms) := by
  have h2 : ∀ p ∈ ms.takeWhile (earlier m),
      p.timeout ≠ 0 ∧ (m.timeout = 0 ∨ p.timeout < m.timeout) := by
    intro p hp
    have := List.mem_takeWhile_imp hp
    simpa [earlier] using this
  refine ⟨insert_monitor_earlier m ms hc, h2, ?_, ?_, ?_⟩
  · intro p rest h
    have := dropWhile_head_not (earlier m) ms p rest h
    simp only [earlier, decide_eq_false_iff_not] at this
    omega
  · intro p hp
    have := h2 p hp
    omega
  · intro hall
    rw [insert_monitor_earlier m ms hc]
    have : ∀ p ∈ ms, earlier m p = false := by
      intro p hp
      have := hall p hp
      simp only [earlier, decide_eq_false_iff_not]
      omega
    have ht : ms.takeWhile (earlier m) = [] := by
      cases ms with
      | nil => rfl
      | cons a as => rw [List.takeWhile_cons_of_neg (by simp [this a (List.mem_cons_self _ _)])]
    have hd : ms.dropWhile (earlier m) = ms := by
      cases ms with
      | nil => rfl
      | cons a as => rw [List.dropWhile_cons_of_neg (by simp [this a (List.mem_cons_self _ _)])]
    rw [ht, hd]; rfl

/-- An instance of C16: a rule without deadline inserted into a list of a rule
with deadline 100 and a rule without deadline goes between the two. -/
theorem C16_witness_before_equal :
    (insert_monitor (timed_rule "c".toList 0)
        [timed_rule "a".toList 100, timed_rule "b".toList 0]).map (fun m => m.key)
      = ["a".toList, "c".toList, "b".toList] := by
  rw [(C16_insert_before_first_not_earlier (timed_rule "c".toList 0)
      [timed_rule "a".toList 100, timed_rule "b".toList 0]
      (by intro p hp h1 h2; simp [timed_rule] at h1)).1]
  decide

/-- C16 fails as stated: two intercept rules registered with timeout 0, first
`a` (response `06`), then `b` (response `15`), stand in the list as `b, a`,
and a host frame that both match is answered by `b`: the rule registered last
is scanned first. -/
theorem C16_equal_deadlines_reverse_order :
    (register_intercept "b".toList "15".toList
        (register_intercept "a".toList "06".toList Globals.init)).monitors.map (fun m => m.key)
      = ["b".toList, "a".toList]
    ∧ (host_readable env_ok zwave_state.init
        (register_intercept "b".toList "15".toList
          (register_intercept "a".toList "06".toList Globals.init))
        [1, 3, 0, 0x13, 0xEF]).2.serial = [(Endpoint.host, [0x15])] := by
  refine ⟨by decide, by decide⟩

/-! ## Cancel -/

theorem cancel_loop_found (d : Int) (key : List Char) (m : monitor) (l2 : List monitor)
    (hd : m.device_num = d) (hk : m.key = key) : ∀ (l1 : List monitor),
    (∀ p ∈ l1, ¬ (p.device_num = d ∧ p.key = key)) →
    cancel_loop d key (l1 ++ m :: l2) = (l1 ++ l2, true) := by
  intro l1
  induction l1 with
  | nil => intro _; simp [cancel_loop, hd, hk]
  | cons a as ih =>
    intro h
    have ha := h a (List.mem_cons_self _ _)
    have := ih (fun p hp => h p (List.mem_cons_of_mem _ hp))
    rw [List.cons_append, cancel_loop, if_neg ha, this]
    rfl

theorem cancel_loop_none (d : Int) (key : List Char) : ∀ (ms : List monitor),
    (∀ p ∈ ms, ¬ (p.device_num = d ∧ p.key = key)) → cancel_loop d key ms = (ms, false) := by
  intro ms
  induction ms with
  | nil => intro _; rfl
  | cons a as ih =>
    intro h
    have ha := h a (List.mem_cons_self _ _)
    rw [cancel_loop, if_neg ha, ih (fun p hp => h p (List.mem_cons_of_mem _ hp))]

/-- C18. `zwint_cancel(device_num, key)`: when the list is `l1 ++ m :: l2`
with `m` the first rule whose `device_num` and `key` both equal the arguments
(no rule of `l1` has both), the list becomes `l1 ++ l2`, nothing else changes
and the call returns true, whatever rules `l2` holds; when no rule has both,
the globals are unchanged and the call returns false. -/
theorem C18_cancel_removes_first_match (device_num : Int) (key : List Char) (g : Globals) :
    (∀ (l1 : List monitor) (m : monitor) (l2 : List monitor), g.monitors = l1 ++ m :: l2 →
        (∀ p ∈ l1, ¬ (p.device_num = device_num ∧ p.key = key)) →
        m.device_num = device_num → m.key = key →
        zwint_cancel device_num key g = ({ g with monitors := l1 ++ l2 }, true))
    ∧ ((∀ p ∈ g.monitors, ¬ (p.device_num = device_num ∧ p.key = key)) →
        zwint_cancel device_num key g = (g, false)) := by
  constructor
  · intro l1 m l2 hg h1 hd hk
    unfold zwint_cancel
    rw [hg, cancel_loop_found device_num key m l2 hd hk l1 h1]
  · intro h
    unfold zwint_cancel
    rw [cancel_loop_none device_num key g.monitors h]

/-- An instance of C18: of two rules with device 5 and key `k`, after a rule
with another key, cancel removes the first of the two only. -/
theorem C18_witness_second_match_stays :
    zwint_cancel 5 "k".toList
        { Globals.init with monitors :=
            [timed_rule "a".toList 10, timed_rule "k".toList 20, timed_rule "k".toList 30] }
      = ({ Globals.init with monitors := [timed_rule "a".toList 10, timed_rule "k".toList 30] },
         true) :=
  (C18_cancel_removes_first_match 5 "k".toList
    { Globals.init with monitors :=
        [timed_rule "a".toList 10, timed_rule "k".toList 20, timed_rule "k".toList 30] }).1
    [timed_rule "a".toList 10] (timed_rule "k".toList 20) [timed_rule "k".toList 30] rfl
    (by intro p hp; simp at hp; subst hp; simp [timed_rule])
    rfl rfl

/-! ## Unregister and register -/

theorem unregister_loop_all (d : Int) (hd : d < 0) (ms : List monitor) :
    unregister_loop d ms = [] := by
  rw [unregister_loop_filter]
  simp [hd]

theorem unregister_loop_device (d : Int) (hd : 0 ≤ d) (ms : List monitor) :
    unregister_loop d ms = ms.filter (fun m => decide (m.device_num ≠ d)) := by
  rw [unregister_loop_filter]
  congr 1
  funext m
  have : ¬ d < 0 := by omega
  by_cases h : d = m.device_num
  · simp [this, h]
  · have h2 : ¬ m.device_num = d := fun e => h e.symm
    simp [this, h, h2]

/-- C19. The effect of `zwint_unregister`: with the registration count at 0
or below it fails with `Not registered` and changes nothing; with the count
above 1 it lowers the count by one and, for an argument `d ≥ 0`, removes
exactly the rules whose `device_num` is `d`, the others keeping their order,
while a missing or nil argument removes all rules, but so does every negative
argument `d`, whatever the `device_num` of the rules; with the count at 1 it
brings the count to 0 and removes all rules (when the `dup2` fails it returns
the system error with the count at 0 and the rules still in the list). -/
theorem C19_unregister_by_device (dup2_ok : Bool) (arg : Option Int) (g : Globals) :
    (g.registered ≤ 0 →
      zwint_unregister dup2_ok arg g = (g, ApiResult.error_string "Not registered".toList))
    ∧ (1 < g.registered → ∀ d, arg = some d → 0 ≤ d →
        zwint_unregister dup2_ok arg g =
          ({ g with registered := g.registered - 1
                    monitors := g.monitors.filter (fun m => decide (m.device_num ≠ d)) },
           ApiResult.ok))
    ∧ (1 < g.registered → ∀ d, arg = some d → d < 0 →
        zwint_unregister dup2_ok arg g =
          ({ g with registered := g.registered - 1, monitors := [] }, ApiResult.ok))
    ∧ (1 < g.registered → arg = none →
        zwint_unregister dup2_ok arg g =
          ({ g with registered := g.registered - 1, monitors := [] }, ApiResult.ok))
    ∧ (g.registered = 1 → dup2_ok = true →
        zwint_unregister dup2_ok arg g =
          ({ g with registered := 0, monitors := [] }, ApiResult.ok))
    ∧ (g.registered = 1 → dup2_ok = false →
        zwint_unregister dup2_ok arg g =
          ({ g with registered := 0 }, ApiResult.system_error)) := by
  refine ⟨?_, ?_, ?_, ?_, ?_, ?_⟩
  · intro h
    unfold zwint_unregister
    simp [h]
  · intro h d ha hd
    subst ha
    unfold zwint_unregister
    have h1 : ¬ g.registered ≤ 0 := by omega
    have h2 : ¬ g.registered - 1 = 0 := by omega
    simp only [h1, h2, if_false]
    rw [unregister_loop_device d hd]
  · intro h d ha hd
    subst ha
    unfold zwint_unregister
    have h1 : ¬ g.registered ≤ 0 := by omega
    have h2 : ¬ g.registered - 1 = 0 := by omega
    simp only [h1, h2, if_false]
    rw [unregister_loop_all d hd]
  · intro h ha
    subst ha
    unfold zwint_unregister
    have h1 : ¬ g.registered ≤ 0 := by omega
    have h2 : ¬ g.registered - 1 = 0 := by omega
    simp only [h1, h2, if_false]
    rw [unregister_loop_all (-1) (by omega)]
  · intro h hk
    subst hk
    unfold zwint_unregister
    have h1 : ¬ g.registered ≤ 0 := by omega
    have h2 : g.registered - 1 = 0 := by omega
    simp only [h1, h2, if_false, if_true]
    rw [unregister_loop_all (-1) (by omega)]
  · intro h hk
    subst hk
    unfold zwint_unregister
    have h1 : ¬ g.registered ≤ 0 := by omega
    have h2 : g.registered - 1 = 0 := by omega
    simp [h1, h2]

/-- An instance of C19: with two registrations and rules of the devices 5 and
7, `unregister(-2)` removes both rules although no rule has device number -2. -/
theorem C19_witness_negative_argument :
    zwint_unregister true (some (-2))
        { Globals.init with
          registered := 2
          monitors := [timed_rule "a".toList 0, { timed_rule "b".toList 0 with device_num := 7 }] }
      = ({ Globals.init with registered := 1, monitors := [] }, ApiResult.ok) :=
  (C19_unregister_by_device true (some (-2))
    { Globals.init with
      registered := 2
      monitors := [timed_rule "a".toList 0, { timed_rule "b".toList 0 with device_num := 7 }] }
    ).2.2.1 (by decide) (-2) rfl (by decide)

theorem register_times_succ (n : Nat) (path : List Char) (g : Globals) :
    register_times (n + 1) path g
      = (zwint_register SetupOutcome.done path (register_times n path g)).1 := by
  unfold register_times
  rw [Function.iterate_succ_apply']

theorem unregister_times_succ (n : Nat) (g : Globals) :
    unregister_times (n + 1) g = (zwint_unregister true none (unregister_times n g)).1 := by
  unfold unregister_times
  rw [Function.iterate_succ_apply']

theorem register_times_count (path : List Char) (hp : path.length < 32) (g : Globals)
    (h0 : g.registered = 0) : ∀ n, 1 ≤ n →
    (register_times n path g).registered = 2 * (n : Int) - 1
    ∧ (register_times n path g).commport_name = path := by
  intro n
  induction n with
  | zero => intro h; omega
  | succ k ih =>
    intro _
    rw [register_times_succ]
    have hl : ¬ path.length ≥ 32 := by omega
    rcases Nat.eq_zero_or_pos k with hk | hk
    · subst hk
      have : register_times 0 path g = g := rfl
      rw [this]
      unfold zwint_register
      simp [hl, h0]
    · obtain ⟨h1, h2⟩ := ih hk
      unfold zwint_register
      have hr : (register_times k path g).registered ≠ 0 := by omega
      simp only [hl, if_false, hr, ne_eq, not_false_eq_true, if_true, h2, not_true_eq_false]
      refine ⟨?_, by first | exact h2 | trivial⟩
      dsimp only
      push_cast
      omega

theorem unregister_times_count (g : Globals) : ∀ k : Nat, (k : Int) ≤ g.registered →
    (unregister_times k g).registered = g.registered - k := by
  intro k
  induction k with
  | zero => intro _; simp [unregister_times]
  | succ j ih =>
    intro h
    push_cast at h
    have hj := ih (by omega)
    rw [unregister_times_succ]
    unfold zwint_unregister
    have h1 : ¬ (unregister_times j g).registered ≤ 0 := by omega
    simp only [h1, if_false]
    by_cases h2 : (unregister_times j g).registered - 1 = 0
    · simp only [h2, if_true]
      push_cast; omega
    · simp only [h2, if_false]
      push_cast; omega

/-- C20. `zwint_register` with a path shorter than 32 characters: the first
registration (count 0, all system calls succeeding) stores the path and sets
the count to 1; a registration with the stored path while the count is not 0
succeeds and raises the count by two (`++registered` in the branch and
`registered++` after it), not by one; a registration with another path fails
and changes nothing. So after `n ≥ 1` registrations the count is `2n - 1`,
after `k ≤ 2n - 1` unregistrations it is `2n - 1 - k`: the count is back at 0
after `2n - 1` unregistrations, and after `n` of them it is `n - 1`. -/
theorem C20_register_counts_twice (path : List Char) (g : Globals) (hp : path.length < 32) :
    (g.registered = 0 →
      zwint_register SetupOutcome.done path g
        = ({ g with commport_name := path, registered := 1 }, ApiResult.ok))
    ∧ (g.registered ≠ 0 → path = g.commport_name →
        zwint_register SetupOutcome.done path g
          = ({ g with registered := g.registered + 2 }, ApiResult.ok))
    ∧ (g.registered ≠ 0 → path ≠ g.commport_name → ∀ setup,
        zwint_register setup path g
          = (g, ApiResult.arg_error
                  "Device_path does not match already registered name".toList))
    ∧ (g.registered = 0 → ∀ n : Nat, 1 ≤ n →
        (register_times n path g).registered = 2 * (n : Int) - 1
        ∧ (∀ k : Nat, k ≤ 2 * n - 1 →
            (unregister_times k (register_times n path g)).registered
              = 2 * (n : Int) - 1 - k)
        ∧ (unregister_times n (register_times n path g)).registered = (n : Int) - 1) := by
  have hl : ¬ path.length ≥ 32 := by omega
  refine ⟨?_, ?_, ?_, ?_⟩
  · intro h0
    unfold zwint_register
    simp [hl, h0]
  · intro h0 hpath
    subst hpath
    unfold zwint_register
    simp only [hl, if_false, h0, ne_eq, not_false_eq_true, if_true, not_true_eq_false]
    rw [show g.registered + 1 + 1 = g.registered + 2 by omega]
  · intro h0 hpath setup
    unfold zwint_register
    simp [hl, h0, hpath]
  · intro h0 n hn
    have hc := (register_times_count path hp g h0 n hn).1
    refine ⟨hc, ?_, ?_⟩
    · intro k hk
      rw [unregister_times_count _ k (by rw [hc]; omega), hc]
    · rw [unregister_times_count _ n (by rw [hc]; omega), hc]
      omega

/-- An instance of C20: two registrations of `/dev/ttyS0` leave the count at
3, and two unregistrations after them leave it at 1. -/
theorem C20_witness_two_registrations :
    (register_times 2 "/dev/ttyS0".toList Globals.init).registered = 3
    ∧ (unregister_times 2 (register_times 2 "/dev/ttyS0".toList Globals.init)).registered = 1 :=
  ⟨((C20_register_counts_twice "/dev/ttyS0".toList Globals.init (by decide)).2.2.2
      rfl 2 (by decide)).1,
   ((C20_register_counts_twice "/dev/ttyS0".toList Globals.init (by decide)).2.2.2
      rfl 2 (by decide)).2.2⟩

/-! ## Expiry -/

theorem expired_rules_first (now : Int) : ∀ (ms : List monitor), sorted_by_deadline ms →
    ms.takeWhile (expired now) = ms.filter (expired now)
    ∧ ms.dropWhile (expired now) = ms.filter (fun m => !expired now m) := by
  intro ms
  induction ms with
  | nil => intro _; simp
  | cons m rest ih =>
    intro hs
    unfold sorted_by_deadline at hs
    rw [List.pairwise_cons] at hs
    obtain ⟨h1, h2⟩ := ih hs.2
    by_cases h : expired now m = true
    · rw [List.takeWhile_cons_of_pos h, List.dropWhile_cons_of_pos h,
        List.filter_cons_of_pos h, List.filter_cons_of_neg (by simp [h]), h1, h2]
      exact ⟨rfl, rfl⟩
    · have hall : ∀ p ∈ rest, expired now p = false := by
        intro p hp
        have hle := hs.1 p hp
        unfold deadline_le at hle
        simp only [expired, decide_eq_true_eq] at h
        simp only [expired, decide_eq_false_iff_not]
        omega
      rw [List.takeWhile_cons_of_neg h, List.dropWhile_cons_of_neg h,
        List.filter_cons_of_neg h, List.filter_cons_of_pos (by simpa using h)]
      refine ⟨?_, ?_⟩
      · symm
        rw [List.filter_eq_nil_iff]
        intro p hp
        simp [hall p hp]
      · congr 1
        symm
        rw [List.filter_eq_self]
        intro p hp
        simp [hall p hp]

theorem http_run_serial (E : Env) (ms : List monitor) : ∀ (g : Globals),
    (http_run E g (timeout_events ms)).serial = g.serial
    ∧ (http_run E g (timeout_events ms)).registered = g.registered := by
  induction ms with
  | nil => intro g; exact ⟨rfl, rfl⟩
  | cons m rest ih =>
    intro g
    have h := send_http_frame E m "Timeout".toList [] none none g
    have := ih (send_http E m "Timeout".toList [] none none g)
    simp only [timeout_events, List.map_cons, http_run, List.foldl_cons, http_step] at this ⊢
    rw [this.1, this.2, h.1, h.2.2.2]
    exact ⟨rfl, rfl⟩

theorem expire_monitors_eq (E : Env) (now : Int) (g : Globals)
    (hs : sorted_by_deadline g.monitors) :
    expire_monitors E now g =
      { http_run E g (timeout_events (g.monitors.filter (expired now))) with
        monitors := g.monitors.filter (fun m => !expired now m) } := by
  unfold expire_monitors
  rw [expire_loop_eq]
  obtain ⟨h1, h2⟩ := expired_rules_first now g.monitors hs
  dsimp only
  rw [h1, h2]
  rfl

/-- C17. A wake of the worker thread at monotonic time `now` with a sorted
rule list and a positive registration count. The expiry step removes exactly
the rules whose deadline is not 0 and not after `now` (for a deadline that is
not negative: the rules whose deadline lies in `(0, now]`) and keeps the
others in their order; it appends to the queue history one `Timeout`
notification for each removed rule whose key is not silent, in list order,
and writes nothing to the serial endpoints; the endpoints are served on the
list left by the expiry step; so when the wake reads a valid host frame on
which no rule fires that is not expired, the frame is passed to the controller
unchanged and the only notifications of the wake are the `Timeout` ones. -/
theorem C17_expiry_before_matching (E : Env) (w : Wake) (e : Engine)
    (hs : sorted_by_deadline e.g.monitors) (hr : 0 < e.g.registered) :
    (expire_monitors E w.now e.g).monitors = e.g.monitors.filter (fun m => !expired w.now m)
    ∧ (∀ m : monitor, 0 ≤ m.timeout →
        (expired w.now m = true ↔ 0 < m.timeout ∧ m.timeout ≤ w.now))
    ∧ http_history (expire_monitors E w.now e.g) = http_history e.g ++
        enqueued E e.g.clock_reads (timeout_events (e.g.monitors.filter (expired w.now)))
    ∧ (expire_monitors E w.now e.g).serial = e.g.serial
    ∧ zwint_wake E w e = serve_endpoints E w { e with g := expire_monitors E w.now e.g }
    ∧ (∀ f : List Nat, w.host = some f → w.controller = none → w.http = false →
        valid_frame f → 3 ≤ f.length → f.length ≤ 128 → e.send_state.state = 0 →
        e.send_state.packet_buff.length = MAX_ZWAVE_BUFF_SIZE →
        (∀ m ∈ e.g.monitors, m.armed = true → m.intercept = true →
          (m.pattern.regexec (hex_of f)).isSome = true → expired w.now m = true) →
        (zwint_wake E w e).g.serial = e.g.serial ++ [(Endpoint.controller, f)]
        ∧ http_history (zwint_wake E w e).g = http_history e.g ++
            enqueued E e.g.clock_reads
              (timeout_events (e.g.monitors.filter (expired w.now)))) := by
  have heq := expire_monitors_eq E w.now e.g hs
  have hh : http_history (expire_monitors E w.now e.g) = http_history e.g ++
      enqueued E e.g.clock_reads (timeout_events (e.g.monitors.filter (expired w.now))) := by
    rw [heq, ← http_run_history]
    rfl
  have hser : (expire_monitors E w.now e.g).serial = e.g.serial := by
    rw [heq]
    exact (http_run_serial E _ e.g).1
  have hw : zwint_wake E w e
      = serve_endpoints E w { e with g := expire_monitors E w.now e.g } := by
    unfold zwint_wake
    rw [if_neg (by omega)]
  refine ⟨by rw [heq], ?_, hh, hser, hw, ?_⟩
  · intro m hm
    simp only [expired, decide_eq_true_eq]
    omega
  · intro f hf hc hq hv h3 h128 hst hbuf hexp
    have hg : (zwint_wake E w e).g
        = (host_readable E e.send_state (expire_monitors E w.now e.g) f).2 := by
      rw [hw]
      unfold serve_endpoints
      simp [hf, hc, hq]
    rw [hg]
    have hfp := frame_passes E Endpoint.host Endpoint.controller true e.send_state
      (expire_monitors E w.now e.g) f hv h3 h128 hst hbuf (by
        intro m hm ha hd
        rw [heq] at hm
        simp only [List.mem_filter, Bool.not_eq_true', ] at hm
        cases hp : m.pattern.regexec (hex_of f) with
        | none => rfl
        | some pm =>
          have := hexp m hm.1 ha hd (by rw [hp]; rfl)
          rw [hm.2] at this
          exact absurd this (by decide))
    unfold host_readable
    refine ⟨by rw [hfp.1, hser], ?_⟩
    unfold http_history
    rw [hfp.2.1, hfp.2.2.1]
    exact hh

/-- An instance of C17: a wake at time 150 with the rules `a` (deadline 100),
`b` (deadline 200) and `c` (no deadline), during which the host writes the
frame `01 03 00 02 FE` that all three rules match. The expiry step leaves `b`
and `c`, and so does the wake; the wake enqueues three notifications in all
(one `Timeout`, two reports of the frame) and passes the frame on. -/
theorem C17_witness_expired_rule_is_silent :
    (expire_monitors env_ok 150 three_timed_rules.g).monitors.map (fun m => m.key)
      = ["b".toList, "c".toList]
    ∧ ((zwint_wake env_ok
        { now := 150, host := some [1, 3, 0, 2, 0xFE], controller := none, http := false }
        three_timed_rules).g.monitors.map (fun m => m.key) = ["b".toList, "c".toList])
    ∧ (http_history (zwint_wake env_ok
        { now := 150, host := some [1, 3, 0, 2, 0xFE], controller := none, http := false }
        three_timed_rules).g).length = 3
    ∧ (zwint_wake env_ok
        { now := 150, host := some [1, 3, 0, 2, 0xFE], controller := none, http := false }
        three_timed_rules).g.serial = [(Endpoint.controller, [1, 3, 0, 2, 0xFE])] := by
  refine ⟨?_, by decide, by decide, by decide⟩
  rw [(C17_expiry_before_matching env_ok
    { now := 150, host := some [1, 3, 0, 2, 0xFE], controller := none, http := false }
    three_timed_rules
    (by simp [three_timed_rules, sorted_by_deadline, deadline_le, timed_rule])
    (by decide)).1]
  decide

/-! ## The scanner on SOF and the length byte -/

theorem sof_step (E : Env) (i o : Endpoint) (send : Bool) (s : zwave_state) (g : Globals)
    (hs : s.state = 0) :
    process_byte E i o send { s := s, g := g, pending := [] } 1 =
      { s := { s with
          response_numParts :=
            if send ∧ s.response_partNum < s.response_numParts then 0 else s.response_numParts
          state := 1
          packet_buff := s.packet_buff.set 0 1
          checksum := 0xff }
        g := g
        pending := [1] } := by
  unfold process_byte frame_byte
  by_cases hc : send = true ∧ s.response_partNum < s.response_numParts
  · simp [hc, hs]
  · rw [if_neg (by intro h; exact hc ⟨h.1, h.2.1⟩)]
    simp [hc, hs]

theorem length_step (E : Env) (i o : Endpoint) (send : Bool) (l : ByteLoop) (L : Nat)
    (hl : l.s.state = 1) (hL : L < 128) :
    process_byte E i o send l L =
      { l with
        s := { l.s with
          state := 2
          packet_buff := l.s.packet_buff.set 1 L
          checksum := l.s.checksum ^^^ L }
        pending := l.pending ++ [L] } := by
  rw [process_byte_framing _ _ _ _ _ _ (by omega)]
  unfold frame_byte
  have : ¬ (L ≥ MAX_ZWAVE_BUFF_SIZE) := by simp [MAX_ZWAVE_BUFF_SIZE]; omega
  simp [hl, this]

theorem noise_step (E : Env) (i o : Endpoint) (send : Bool) (l : ByteLoop) (L : Nat)
    (hl : l.s.state = 1) (hL : 128 ≤ L) :
    process_byte E i o send l L =
      { l with s := { l.s with state := 0 }, pending := l.pending ++ [L] } := by
  rw [process_byte_framing _ _ _ _ _ _ (by omega)]
  unfold frame_byte
  have : L ≥ MAX_ZWAVE_BUFF_SIZE := by simp [MAX_ZWAVE_BUFF_SIZE]; omega
  simp [hl, this]

theorem header_loop (E : Env) (i o : Endpoint) (send : Bool) (s : zwave_state) (g : Globals)
    (L : Nat) (bs : List Nat) (hs : s.state = 0) (hL : L < 128) :
    (1 :: L :: bs).foldl (process_byte E i o send) { s := s, g := g, pending := [] } =
      bs.foldl (process_byte E i o send)
        { s := { s with
            response_numParts :=
              if send ∧ s.response_partNum < s.response_numParts then 0
              else s.response_numParts
            state := 2
            packet_buff := (s.packet_buff.set 0 1).set 1 L
            checksum := 0xff ^^^ L }
          g := g
          pending := [1, L] } := by
  rw [List.foldl_cons, sof_step E i o send s g hs, List.foldl_cons,
    length_step E i o send _ L rfl hL]
  rfl

theorem zero_length_loop (E : Env) (i o : Endpoint) (send : Bool) :
    ∀ (bs : List Nat) (l : ByteLoop), 2 ≤ l.s.state → l.s.packet_buff.getD 1 0 = 0 →
      (bs.foldl (process_byte E i o send) l).s.state = l.s.state + bs.length
      ∧ (bs.foldl (process_byte E i o send) l).g = l.g := by
  intro bs
  induction bs with
  | nil => intro l _ _; exact ⟨rfl, rfl⟩
  | cons c cs ih =>
    intro l h2 h0
    rw [List.foldl_cons, process_byte_framing E i o send l c (by omega),
      frame_byte_body E i o send { l with pending := l.pending ++ [c] } c h2
        (by simp only [h0]; omega)]
    have := ih
      { s := { l.s with
          packet_buff := l.s.packet_buff.set l.s.state c
          checksum := l.s.checksum ^^^ c
          state := l.s.state + 1 }
        g := l.g
        pending := l.pending ++ [c] } (by simp only; omega) (by
      simp only [List.getD_eq_getElem?_getD]
      rw [List.getElem?_set_ne (by omega)]
      simpa [List.getD_eq_getElem?_getD] using h0)
    refine ⟨?_, this.2⟩
    rw [this.1]
    simp only [List.length_cons]
    omega

theorem set_header_getD (buf : List Nat) (L : Nat) (h : 2 ≤ buf.length) :
    ((buf.set 0 1).set 1 L).getD 1 0 = L := by
  simp only [List.getD_eq_getElem?_getD]
  rw [List.getElem?_set_self (by simp; omega)]
  rfl

theorem process_zwave_unfinished (E : Env) (i o : Endpoint) (send : Bool) (s : zwave_state)
    (g : Globals) (raw : List Nat)
    (h : (raw.foldl (process_byte E i o send) { s := s, g := g, pending := [] }).s.state ≠ 0) :
    process_zwave E i o send s g raw =
      ((raw.foldl (process_byte E i o send) { s := s, g := g, pending := [] }).s,
       (raw.foldl (process_byte E i o send) { s := s, g := g, pending := [] }).g) := by
  unfold process_zwave
  simp [h]

/-- C14. An idle scanner that reads SOF and then the length byte `L`, in either
direction. For `1 ≤ L ≤ 126`: after `k < L` further bytes it is in state
`2 + k`, not idle, and has written nothing, and after the `L`-th it is idle
again: the frame has `L + 2` bytes and its last byte is stored at index
`L + 1`. For `L ≥ 128` the scanner is idle after the length byte and the two
bytes are written to the opposite endpoint as they came. For `L = 0` the
scanner is not idle after the length byte and does not become idle: after any
`n ≤ 126` further bytes it is in state `2 + n` and has written nothing. For
`L = 127` the scanner is in state 128 after 126 further bytes, so the next
byte is stored at index 128 of the 128 bytes of `packet_buff`. -/
theorem C14_length_byte_delimits_frame (E : Env) (i o : Endpoint) (send : Bool)
    (s : zwave_state) (g : Globals) (hs : s.state = 0)
    (hbuf : s.packet_buff.length = MAX_ZWAVE_BUFF_SIZE) :
    (∀ (L : Nat) (body : List Nat), 1 ≤ L → L ≤ 126 → body.length = L →
        (process_zwave E i o send s g (1 :: L :: body)).1.state = 0
        ∧ ∀ k, k < L →
            (process_zwave E i o send s g (1 :: L :: body.take k)).1.state = 2 + k
            ∧ (process_zwave E i o send s g (1 :: L :: body.take k)).2 = g)
    ∧ (∀ L, 128 ≤ L →
        (process_zwave E i o send s g [1, L]).1.state = 0
        ∧ (process_zwave E i o send s g [1, L]).2
            = { g with serial := g.serial ++ [(o, [1, L])] })
    ∧ (∀ bs : List Nat, bs.length ≤ 126 →
        (process_zwave E i o send s g (1 :: 0 :: bs)).1.state = 2 + bs.length
        ∧ (process_zwave E i o send s g (1 :: 0 :: bs)).2 = g)
    ∧ (∀ body : List Nat, body.length = 126 →
        (process_zwave E i o send s g (1 :: 127 :: body)).1.state = s.packet_buff.length
        ∧ (process_zwave E i o send s g (1 :: 127 :: body)).2 = g) := by
  have hb2 : 2 ≤ s.packet_buff.length := by rw [hbuf]; decide
  have part : ∀ (L : Nat) (bs : List Nat), 1 ≤ L → L < 128 → bs.length < L →
      (process_zwave E i o send s g (1 :: L :: bs)).1.state = 2 + bs.length
      ∧ (process_zwave E i o send s g (1 :: L :: bs)).2 = g := by
    intro L bs h1 h2 hlen
    have hf := header_loop E i o send s g L bs hs h2
    rw [body_loop E i o send L bs _ (by simp) (set_header_getD _ L hb2) (by simp; omega)] at hf
    rw [process_zwave_unfinished E i o send s g _ (by rw [hf]; simp), hf]
    exact ⟨rfl, rfl⟩
  refine ⟨?_, ?_, ?_, ?_⟩
  · intro L body h1 h126 hlen
    constructor
    · rw [process_zwave_frame E i o send s g L body hlen h1 (by omega) hs hbuf]
    · intro k hk
      have := part L (body.take k) h1 (by omega) (by simp; omega)
      rw [List.length_take, Nat.min_eq_left (by omega)] at this
      exact this
  · intro L hL
    have hf : [1, L].foldl (process_byte E i o send) { s := s, g := g, pending := [] } =
        { s := { s with
            response_numParts :=
              if send ∧ s.response_partNum < s.response_numParts then 0
              else s.response_numParts
            state := 0
            packet_buff := s.packet_buff.set 0 1
            checksum := 0xff }
          g := g
          pending := [1, L] } := by
      rw [List.foldl_cons, sof_step E i o send s g hs, List.foldl_cons,
        noise_step E i o send _ L rfl hL]
      rfl
    unfold process_zwave
    rw [hf]
    simp
  · intro bs hlen
    have hf := header_loop E i o send s g 0 bs hs (by decide)
    have hz := zero_length_loop E i o send bs
      { s := { s with
          response_numParts :=
            if send ∧ s.response_partNum < s.response_numParts then 0
            else s.response_numParts
          state := 2
          packet_buff := (s.packet_buff.set 0 1).set 1 0
          checksum := 0xff ^^^ 0 }
        g := g
        pending := [1, 0] } (by simp) (set_header_getD _ 0 hb2)
    rw [← hf] at hz
    rw [process_zwave_unfinished E i o send s g _ (by rw [hz.1]; simp)]
    exact ⟨hz.1, hz.2⟩
  · intro body hlen
    have := part 127 body (by decide) (by decide) (by omega)
    rw [hlen, hbuf] at *
    exact this

/-- An instance of C14: the idle scanner of the host direction reads
`01 00 FF 01 03 00 02 FE` in one chunk. It ends in state 8 and nothing has
been written: the valid frame after the length byte 0 is swallowed. -/
theorem C14_witness_zero_length_locks :
    (host_readable env_ok zwave_state.init Globals.init [1, 0, 0xFF, 1, 3, 0, 2, 0xFE]).1.state
      = 8
    ∧ (host_readable env_ok zwave_state.init Globals.init
        [1, 0, 0xFF, 1, 3, 0, 2, 0xFE]).2.serial = [] :=
  ⟨((C14_length_byte_delimits_frame env_ok Endpoint.host Endpoint.controller true
      zwave_state.init Globals.init rfl rfl).2.2.1 [0xFF, 1, 3, 0, 2, 0xFE] (by decide)).1,
   by
    have := ((C14_length_byte_delimits_frame env_ok Endpoint.host Endpoint.controller true
      zwave_state.init Globals.init rfl rfl).2.2.1 [0xFF, 1, 3, 0, 2, 0xFE] (by decide)).2
    unfold host_readable
    rw [this]
    rfl⟩

theorem hex_digit_lt (c : Char) (x : Nat) (h : hex_digit c = some x) : x < 16 := by
  unfold hex_digit at h
  by_cases h1 : '0' ≤ c ∧ c ≤ '9'
  · rw [if_pos h1] at h
    have h2 : c.val.toNat ≤ ('9' : Char).val.toNat := Char.le_def.1 h1.2
    have h3 : c.toNat ≤ 57 := h2
    injection h with h
    have : c.toNat - 48 = x := h
    omega
  rw [if_neg h1] at h
  by_cases h2 : 'a' ≤ c ∧ c ≤ 'f'
  · rw [if_pos h2] at h
    have h3 : c.val.toNat ≤ ('f' : Char).val.toNat := Char.le_def.1 h2.2
    have h5 : c.toNat ≤ 102 := h3
    injection h with h
    have : c.toNat - 97 + 10 = x := h
    omega
  rw [if_neg h2] at h
  by_cases h3 : 'A' ≤ c ∧ c ≤ 'F'
  · rw [if_pos h3] at h
    have h4 : c.val.toNat ≤ ('F' : Char).val.toNat := Char.le_def.1 h3.2
    have h6 : c.toNat ≤ 70 := h4
    injection h with h
    have : c.toNat - 65 + 10 = x := h
    omega
  rw [if_neg h3] at h
  cases h

theorem hex_digit_space : hex_digit ' ' = none := by decide

theorem response_char_hex (E : Env) (m : monitor) (pm : Nat → regmatch_t)
    (st : ResponseLoop) (c : Char) (x : Nat) (hr : st.rstate ≤ 1)
    (h : hex_digit c = some x) :
    response_char E m pm st c = response_switch E m pm st x := by
  unfold hex_digit at h
  unfold response_char
  by_cases h1 : '0' ≤ c ∧ c ≤ '9'
  · rw [if_pos h1] at h
    injection h with h
    rw [if_pos ⟨h1.1, h1.2, by omega⟩, h]
  rw [if_neg h1] at h
  rw [if_neg (fun hh => h1 ⟨hh.1, hh.2.1⟩)]
  by_cases h2 : 'a' ≤ c ∧ c ≤ 'f'
  · rw [if_pos h2] at h
    injection h with h
    rw [if_pos ⟨h2.1, h2.2, hr⟩, h]
  rw [if_neg h2] at h
  rw [if_neg (fun hh => h2 ⟨hh.1, hh.2.1⟩)]
  by_cases h3 : 'A' ≤ c ∧ c ≤ 'F'
  · rw [if_pos h3] at h
    injection h with h
    rw [if_pos ⟨h3.1, h3.2, hr⟩, h]
  rw [if_neg h3] at h
  cases h

theorem response_char_space0 (E : Env) (m : monitor) (pm : Nat → regmatch_t)
    (st : ResponseLoop) (hr : st.rstate = 0) : response_char E m pm st ' ' = st := by
  unfold response_char
  rw [if_neg (fun h => absurd h.1 (by decide)), if_neg (fun h => absurd h.1 (by decide)),
    if_neg (fun h => absurd h.1 (by decide)), if_pos ⟨rfl, hr⟩]

theorem response_char_space1 (E : Env) (m : monitor) (pm : Nat → regmatch_t)
    (st : ResponseLoop) (hr : st.rstate = 1) :
    response_char E m pm st ' ' = response_switch E m pm { st with rstate := 2 } 0 := by
  unfold response_char
  rw [if_neg (fun h => absurd h.1 (by decide)), if_neg (fun h => absurd h.1 (by decide)),
    if_neg (fun h => absurd h.1 (by decide)),
    if_neg (fun h => absurd (hr ▸ h.2 : (1 : Nat) = 0) (by decide)), if_pos ⟨rfl, hr⟩]

theorem addZwaveResponseData_fits (E : Env) (m : monitor) (s : zwave_state) (g : Globals)
    (data : List Nat) (len : Nat) (h : s.response_zpos + len ≤ 128) :
    addZwaveResponseData E m s g data (len : Int)
      = ((data.take len).foldl addZwaveResponseByte s, g, false) := by
  unfold addZwaveResponseData
  rw [if_neg (by simp only [MAX_ZWAVE_BUFF_SIZE]; push_cast; omega)]
  simp

theorem addZwaveResponseData_byte (E : Env) (m : monitor) (s : zwave_state) (g : Globals)
    (c : Nat) (h : s.response_zpos < 128) :
    addZwaveResponseData E m s g [c] 1 = (addZwaveResponseByte s c, g, false) := by
  have := addZwaveResponseData_fits E m s g [c] 1 (by omega)
  simpa using this

theorem foldl_addZwaveResponseByte_buff (cs : List Nat) : ∀ (s : zwave_state),
    (cs.foldl addZwaveResponseByte s).response_zpos = s.response_zpos + cs.length
    ∧ (cs.foldl addZwaveResponseByte s).response_buff
        = store_bytes s.response_buff s.response_zpos cs
    ∧ (cs.foldl addZwaveResponseByte s).packet_buff = s.packet_buff := by
  induction cs with
  | nil => intro s; exact ⟨rfl, rfl, rfl⟩
  | cons c cs ih =>
    intro s
    obtain ⟨h1, h2, h3⟩ := ih (addZwaveResponseByte s c)
    have hz := addZwaveResponseByte_zpos s c
    have hb : (addZwaveResponseByte s c).response_buff = s.response_buff.set s.response_zpos c
        ∧ (addZwaveResponseByte s c).packet_buff = s.packet_buff := by
      unfold addZwaveResponseByte
      dsimp only
      split
      · split <;> exact ⟨rfl, rfl⟩
      · exact ⟨rfl, rfl⟩
    rw [List.foldl_cons, h1, h2, h3, hz, hb.1, hb.2]
    refine ⟨?_, rfl, rfl⟩
    simp only [List.length_cons]
    omega

/-- The state of the template loop between tokens or after the first digit of
a token, for a template of hex digits and spaces: no error, the globals are
untouched, and the bytes given by the specification are in the buffer, the
last of them still pending when the loop is after a first digit. -/
theorem hex_loop (E : Env) (m : monitor) (pm : Nat → regmatch_t) :
    ∀ (n : Nat) (r : List Char), r.length ≤ n → ∀ (bytes : List Nat) (st : ResponseLoop),
      st.rstate = 0 → st.error = false → spec_template_bytes r = some bytes →
      st.s.response_zpos + bytes.length ≤ 128 →
      (response_loop E m pm r st).error = false
      ∧ (response_loop E m pm r st).g = st.g
      ∧ (((response_loop E m pm r st).rstate = 0
            ∧ (response_loop E m pm r st).s = bytes.foldl addZwaveResponseByte st.s)
          ∨ ((response_loop E m pm r st).rstate = 1
            ∧ ∃ init x, bytes = init ++ [x]
              ∧ (response_loop E m pm r st).s = init.foldl addZwaveResponseByte st.s
              ∧ (response_loop E m pm r st).byte = x)) := by
  intro n
  induction n with
  | zero =>
    intro r hr bytes st h0 he ht _
    have : r = [] := List.length_eq_zero.1 (by omega)
    subst this
    simp only [spec_template_bytes, Option.some.injEq] at ht
    subst ht
    exact ⟨he, rfl, Or.inl ⟨h0, rfl⟩⟩
  | succ n ih =>
    intro r hr bytes st h0 he ht hfit
    match r, hr, ht with
    | [], _, ht =>
      simp only [spec_template_bytes, Option.some.injEq] at ht
      subst ht
      exact ⟨he, rfl, Or.inl ⟨h0, rfl⟩⟩
    | [a], _, ht =>
      simp only [spec_template_bytes] at ht
      rw [response_loop, if_neg (by simp [he]), response_loop]
      by_cases ha : a = ' '
      · subst ha
        simp only [if_true, Option.some.injEq] at ht
        subst ht
        rw [response_char_space0 E m pm st h0]
        exact ⟨he, rfl, Or.inl ⟨h0, rfl⟩⟩
      · rw [if_neg ha] at ht
        cases hx : hex_digit a with
        | none => rw [hx] at ht; cases ht
        | some x =>
          rw [hx] at ht
          simp only [Option.map_some', Option.some.injEq] at ht
          subst ht
          rw [response_char_hex E m pm st a x (by omega) hx]
          have hs1 : response_switch E m pm st x = { st with byte := x, rstate := 1 } := by
            simp only [response_switch, h0]
          rw [hs1]
          exact ⟨he, rfl, Or.inr ⟨rfl, [], x, rfl, rfl, rfl⟩⟩
    | a :: b :: r, hr, ht =>
      simp only [List.length_cons] at hr
      rw [spec_template_bytes] at ht
      rw [response_loop, if_neg (by simp [he])]
      by_cases ha : a = ' '
      · subst ha
        rw [if_pos rfl] at ht
        rw [response_char_space0 E m pm st h0]
        exact ih (b :: r) (by simp only [List.length_cons]; omega) bytes st h0 he ht hfit
      · rw [if_neg ha] at ht
        cases hx : hex_digit a with
        | none => rw [hx] at ht; cases ht
        | some x =>
          rw [hx] at ht
          dsimp only at ht
          have hx16 := hex_digit_lt a x hx
          rw [response_char_hex E m pm st a x (by omega) hx]
          have hs1 : response_switch E m pm st x = { st with byte := x, rstate := 1 } := by
            simp only [response_switch, h0]
          rw [hs1, response_loop, if_neg (by simp [he])]
          by_cases hb : b = ' '
          · subst hb
            rw [if_pos rfl] at ht
            cases ht2 : spec_template_bytes r with
            | none => rw [ht2] at ht; cases ht
            | some t =>
              rw [ht2] at ht
              simp only [Option.map_some', Option.some.injEq] at ht
              subst ht
              simp only [List.length_cons] at hfit
              rw [response_char_space1 E m pm _ rfl]
              simp only [response_switch]
              rw [addZwaveResponseData_byte E m st.s st.g x (by omega)]
              have := ih r (by omega) t
                { s := addZwaveResponseByte st.s x, g := st.g, rstate := 0, byte := x,
                  error := false } rfl rfl ht2
                (by simp only [addZwaveResponseByte_zpos]; omega)
              obtain ⟨e1, e2, e3⟩ := this
              refine ⟨e1, e2, ?_⟩
              rcases e3 with ⟨r0, hs⟩ | ⟨r1, init, y, hb, hs, hy⟩
              · exact Or.inl ⟨r0, by rw [hs]; rfl⟩
              · exact Or.inr ⟨r1, x :: init, y, by rw [hb]; rfl, by rw [hs]; rfl, hy⟩
          · rw [if_neg hb] at ht
            cases hy : hex_digit b with
            | none => rw [hy] at ht; cases ht
            | some y =>
              rw [hy] at ht
              dsimp only at ht
              have hy16 := hex_digit_lt b y hy
              cases ht2 : spec_template_bytes r with
              | none => rw [ht2] at ht; cases ht
              | some t =>
                rw [ht2] at ht
                simp only [Option.map_some', Option.some.injEq] at ht
                subst ht
                simp only [List.length_cons] at hfit
                rw [response_char_hex E m pm _ b y (by simp) hy]
                simp only [response_switch]
                have hv : ((x <<< 4) + y) % 256 = 16 * x + y := by
                  rw [Nat.shiftLeft_eq]
                  omega
                rw [hv, addZwaveResponseData_byte E m st.s st.g (16 * x + y) (by omega)]
                have := ih r (by omega) t
                  { s := addZwaveResponseByte st.s (16 * x + y), g := st.g, rstate := 0,
                    byte := 16 * x + y, error := false } rfl rfl ht2
                  (by simp only [addZwaveResponseByte_zpos]; omega)
                obtain ⟨e1, e2, e3⟩ := this
                refine ⟨e1, e2, ?_⟩
                rcases e3 with ⟨r0, hs⟩ | ⟨r1, init, z, hb, hs, hz⟩
                · exact Or.inl ⟨r0, by rw [hs]; rfl⟩
                · exact Or.inr ⟨r1, (16 * x + y) :: init, z, by rw [hb]; rfl,
                    by rw [hs]; rfl, hz⟩

theorem synthesize_hex (E : Env) (m : monitor) (pm : Nat → regmatch_t) (r : List Char)
    (s : zwave_state) (g : Globals) (bytes : List Nat)
    (ht : spec_template_bytes r = some bytes) (hn : bytes.length ≤ 128) :
    (synthesize E m pm r s g).error = false
    ∧ (synthesize E m pm r s g).g = g
    ∧ (synthesize E m pm r s g).s = bytes.foldl addZwaveResponseByte
        { s with
          response_zpos := 0
          response_numParts := 0
          response_partNum := 0
          response_partpos := s.response_partpos.set 0 0
          response_zstate := 0 } := by
  obtain ⟨e1, e2, e3⟩ := hex_loop E m pm r.length r (Nat.le_refl _) bytes
    { s := { s with
          response_zpos := 0
          response_numParts := 0
          response_partNum := 0
          response_partpos := s.response_partpos.set 0 0
          response_zstate := 0 }
      g := g, rstate := 0, byte := 0, error := false } rfl rfl ht (by simp only; omega)
  unfold synthesize
  dsimp only at e1 e2 e3 ⊢
  rcases e3 with ⟨r0, hs⟩ | ⟨r1, init, x, hb, hs, hx⟩
  · rw [if_neg (by simp [r0])]
    exact ⟨e1, e2, hs⟩
  · rw [if_pos (by simp [r1, e1])]
    subst hb
    have hz := (foldl_addZwaveResponseByte_buff init
      { s with
          response_zpos := 0
          response_numParts := 0
          response_partNum := 0
          response_partpos := s.response_partpos.set 0 0
          response_zstate := 0 }).1
    simp only [List.length_append, List.length_singleton] at hn
    rw [hx, hs, addZwaveResponseData_byte E m _ _ x (by rw [hz]; simp only; omega)]
    refine ⟨rfl, e2, ?_⟩
    rw [List.foldl_append]
    rfl

theorem hex_table (x : Nat) (h : x < 16) :
    hex.getD x '?' ≠ ' ' ∧ hex_digit (hex.getD x '?') = some x := by
  interval_cases x <;> exact ⟨by decide, by decide⟩

theorem byte_nibbles (b : Nat) (h : b < 256) :
    b >>> 4 < 16 ∧ b &&& 15 < 16 ∧ 16 * (b >>> 4) + (b &&& 15) = b := by
  have h1 : b >>> 4 = b / 16 := by rw [Nat.shiftRight_eq_div_pow]
  have h2 : b &&& 15 = b % 16 := Nat.and_pow_two_sub_one_eq_mod b 4
  rw [h1, h2]
  omega

theorem spec_template_bytes_pair (a b : Char) (x y : Nat) (r : List Char)
    (ha : hex_digit a = some x) (hb : hex_digit b = some y) (ha2 : a ≠ ' ') (hb2 : b ≠ ' ') :
    spec_template_bytes (a :: b :: r)
      = (spec_template_bytes r).map (fun t => (16 * x + y) :: t) := by
  rw [spec_template_bytes, if_neg ha2, ha]
  dsimp only
  rw [if_neg hb2, hb]

theorem spec_template_bytes_space (r : List Char) :
    spec_template_bytes (' ' :: r) = spec_template_bytes r := by
  cases r with
  | nil => rfl
  | cons b r => rw [spec_template_bytes, if_pos rfl]

theorem spec_template_bytes_hexbuff (buf : List Nat) (hb : ∀ b ∈ buf, b < 256) :
    ∀ (n i : Nat), i + n ≤ buf.length →
      spec_template_bytes (hexbuff_loop buf i n) = some ((buf.drop i).take n) := by
  intro n
  induction n with
  | zero => intro i _; simp [hexbuff_loop, spec_template_bytes]
  | succ k ih =>
    intro i hi
    have hlt : i < buf.length := by omega
    have hget : buf.getD i 0 = buf[i] := by
      simp [List.getD_eq_getElem?_getD, List.getElem?_eq_getElem hlt]
    have hbyte : buf[i] < 256 := hb _ (List.getElem_mem hlt)
    obtain ⟨n1, n2, n3⟩ := byte_nibbles buf[i] hbyte
    obtain ⟨t1, t2⟩ := hex_table _ n1
    obtain ⟨u1, u2⟩ := hex_table _ n2
    have hd : (buf.drop i).take (k + 1) = buf[i] :: (buf.drop (i + 1)).take k := by
      rw [List.drop_eq_getElem_cons hlt, List.take_succ_cons]
    have main : spec_template_bytes
        ([hex.getD (buf.getD i 0 >>> 4) '?', hex.getD (buf.getD i 0 &&& 15) '?']
          ++ hexbuff_loop buf (i + 1) k) = some ((buf.drop i).take (k + 1)) := by
      rw [hget]
      show spec_template_bytes (hex.getD (buf[i] >>> 4) '?' :: hex.getD (buf[i] &&& 15) '?'
        :: hexbuff_loop buf (i + 1) k) = _
      rw [spec_template_bytes_pair _ _ _ _ _ t2 u2 t1 u1, ih (i + 1) (by omega), n3, hd]
      rfl
    rw [hexbuff_loop]
    by_cases h0 : i > 0
    · rw [if_pos h0]
      show spec_template_bytes (' ' :: ([hex.getD (buf.getD i 0 >>> 4) '?',
        hex.getD (buf.getD i 0 &&& 15) '?'] ++ hexbuff_loop buf (i + 1) k)) = _
      rw [spec_template_bytes_space, main]
    · rw [if_neg h0]
      exact main

theorem spec_template_bytes_hex_of (bs : List Nat) (hb : ∀ b ∈ bs, b < 256) :
    spec_template_bytes (hex_of bs) = some bs := by
  unfold hex_of hexbuff
  rw [spec_template_bytes_hexbuff bs hb bs.length 0 (by omega)]
  simp

theorem respond_unclosed (fd : Endpoint) (S : zwave_state) (g0 : Globals)
    (hpl : S.response_partpos.length = MAX_RESPONSE_PARTS + 1)
    (hn : S.response_numParts = 0) (h0 : S.response_partpos.getD 0 0 = 0)
    (hz : 0 < S.response_zpos) :
    (respond fd S g0).2 = { g0 with serial := g0.serial ++
      [(fd, S.response_buff.take S.response_zpos)] }
    ∧ (respond fd S g0).1.response_numParts = 1 := by
  unfold respond
  simp only [MAX_RESPONSE_PARTS] at hpl ⊢
  rw [hn, h0]
  simp only [hz, true_and, Nat.lt_add_one, Nat.ofNat_pos, if_true, zero_add]
  rw [getD_set_self _ _ _ (by omega)]
  simp

/-- C13. For a scanner state with buffers of their declared sizes: every
template of hex digits and spaces whose bytes, as the specification reads it
(`spec_template_bytes`: two adjacent digits one byte, a single digit before a
space or the end one byte 0..15), are at most 128 is interpreted without error
and without a notification; the synthesized output is exactly these bytes in
order, with no part closed, and when there is at least one byte the response
write hands exactly these bytes to the endpoint. In particular the canonical
hex rendering of any string of at most 128 bytes is a template that
synthesizes that string. -/
theorem C13_hex_template_yields_tokens (E : Env) (m : monitor) (pm : Nat → regmatch_t)
    (s : zwave_state) (g : Globals)
    (hbl : s.response_buff.length = MAX_ZWAVE_BUFF_SIZE)
    (hpl : s.response_partpos.length = MAX_RESPONSE_PARTS + 1) :
    (∀ (r : List Char) (bytes : List Nat), spec_template_bytes r = some bytes →
        bytes.length ≤ 128 →
        (synthesize E m pm r s g).error = false
        ∧ (synthesize E m pm r s g).g = g
        ∧ (synthesize E m pm r s g).s.response_zpos = bytes.length
        ∧ (synthesize E m pm r s g).s.response_buff.take bytes.length = bytes
        ∧ (synthesize E m pm r s g).s.response_numParts = 0
        ∧ (bytes ≠ [] → ∀ (fd : Endpoint) (g0 : Globals),
            (respond fd (synthesize E m pm r s g).s g0).2
              = { g0 with serial := g0.serial ++ [(fd, bytes)] }))
    ∧ (∀ bs : List Nat, (∀ b ∈ bs, b < 256) → bs.length ≤ 128 →
        spec_template_bytes (hex_of bs) = some bs
        ∧ (synthesize E m pm (hex_of bs) s g).error = false
        ∧ (synthesize E m pm (hex_of bs) s g).s.response_zpos = bs.length
        ∧ (synthesize E m pm (hex_of bs) s g).s.response_buff.take bs.length = bs) := by
  have main : ∀ (r : List Char) (bytes : List Nat), spec_template_bytes r = some bytes →
      bytes.length ≤ 128 →
      (synthesize E m pm r s g).error = false
      ∧ (synthesize E m pm r s g).g = g
      ∧ (synthesize E m pm r s g).s.response_zpos = bytes.length
      ∧ (synthesize E m pm r s g).s.response_buff.take bytes.length = bytes
      ∧ (synthesize E m pm r s g).s.response_numParts = 0
      ∧ (bytes ≠ [] → ∀ (fd : Endpoint) (g0 : Globals),
          (respond fd (synthesize E m pm r s g).s g0).2
            = { g0 with serial := g0.serial ++ [(fd, bytes)] }) := by
    intro r bytes ht hn
    obtain ⟨e1, e2, e3⟩ := synthesize_hex E m pm r s g bytes ht hn
    obtain ⟨f1, f2, _⟩ := foldl_addZwaveResponseByte_buff bytes
      { s with
          response_zpos := 0
          response_numParts := 0
          response_partNum := 0
          response_partpos := s.response_partpos.set 0 0
          response_zstate := 0 }
    obtain ⟨p1, p2⟩ := foldl_addZwaveResponseByte_partpos bytes
      { s with
          response_zpos := 0
          response_numParts := 0
          response_partNum := 0
          response_partpos := s.response_partpos.set 0 0
          response_zstate := 0 }
    rw [← e3] at f1 f2 p1 p2
    dsimp only at f1 f2 p1 p2
    simp only [MAX_ZWAVE_BUFF_SIZE] at hbl
    have hz : (synthesize E m pm r s g).s.response_zpos = bytes.length := by rw [f1]; omega
    have hbuf : (synthesize E m pm r s g).s.response_buff.take bytes.length = bytes := by
      rw [f2]; exact take_store s.response_buff bytes (by omega)
    refine ⟨e1, e2, hz, hbuf, p2, ?_⟩
    intro hne fd g0
    have hpos : 0 < bytes.length := List.length_pos.2 hne
    have := respond_unclosed fd (synthesize E m pm r s g).s g0
      (by rw [p1]; simpa using hpl) p2 (synthesize_partpos0 E m pm r s g) (by omega)
    rw [this.1, hz, hbuf]
  refine ⟨main, ?_⟩
  intro bs hb hn
  have ht := spec_template_bytes_hex_of bs hb
  obtain ⟨e1, _, e3, e4, _⟩ := main (hex_of bs) bs ht hn
  exact ⟨ht, e1, e3, e4⟩

/-- An instance of C13: the template `1 23` synthesizes the two bytes `01 23`,
and the response write hands them to the endpoint. -/
theorem C13_witness_single_digit_token :
    spec_template_bytes "1 23".toList = some [0x01, 0x23]
    ∧ (synthesize env_ok s6_rule (whole_match 11) "1 23".toList zwave_state.init
        Globals.init).error = false
    ∧ (respond Endpoint.host
        (synthesize env_ok s6_rule (whole_match 11) "1 23".toList zwave_state.init
          Globals.init).s Globals.init).2.serial = [(Endpoint.host, [0x01, 0x23])] :=
  ⟨by decide,
   ((C13_hex_template_yields_tokens env_ok s6_rule (whole_match 11) zwave_state.init
      Globals.init rfl rfl).1 "1 23".toList [0x01, 0x23] (by decide) (by decide)).1,
   by
    rw [((C13_hex_template_yields_tokens env_ok s6_rule (whole_match 11) zwave_state.init
      Globals.init rfl rfl).1 "1 23".toList [0x01, 0x23] (by decide) (by decide)).2.2.2.2.2
      (by decide) Endpoint.host Globals.init]
    rfl⟩

theorem addZwaveResponseData_fail (E : Env) (m : monitor) (s : zwave_state) (g : Globals)
    (data : List Nat) (len : Int) (h : (addZwaveResponseData E m s g data len).2.2 = true) :
    addZwaveResponseData E m s g data len
      = (s, monitor_error E m "Response too long".toList g, true)
    ∧ (s.response_zpos : Int) + len > 128 := by
  unfold addZwaveResponseData at h ⊢
  by_cases hc : (s.response_zpos : Int) + len > (MAX_ZWAVE_BUFF_SIZE : Int)
  · rw [if_pos hc]
    exact ⟨rfl, by simpa [MAX_ZWAVE_BUFF_SIZE] using hc⟩
  · rw [if_neg hc] at h
    cases h

theorem mem_error_messages :
    "Response syntax error".toList ∈ error_messages
    ∧ "Unmatched replacement".toList ∈ error_messages
    ∧ "Response too long".toList ∈ error_messages := by
  unfold error_messages
  simp

theorem response_switch_fail (E : Env) (m : monitor) (pm : Nat → regmatch_t)
    (st : ResponseLoop) (val : Nat) (h0 : st.error = false)
    (h : (response_switch E m pm st val).error = true) :
    (st.rstate = 5
      ∧ (st.s.response_zstate < 2
          ∨ (st.s.response_zpos < MAX_ZWAVE_BUFF_SIZE
              ∧ MAX_RESPONSE_PARTS ≤ st.s.response_numParts))
      ∧ (response_switch E m pm st val).g = st.g)
    ∨ (¬ (st.rstate = 5
          ∧ (st.s.response_zstate < 2
              ∨ (st.s.response_zpos < MAX_ZWAVE_BUFF_SIZE
                  ∧ MAX_RESPONSE_PARTS ≤ st.s.response_numParts)))
        ∧ ∃ msg ∈ error_messages, (response_switch E m pm st val).g = monitor_error E m msg st.g) := by
  obtain ⟨m1, m2, m3⟩ := mem_error_messages
  rcases hr : st.rstate with _ | _ | _ | _ | _ | _ | n
  · simp only [response_switch, hr] at h
    rw [h0] at h; cases h
  · simp only [response_switch, hr, zero_add] at h ⊢
    have := (addZwaveResponseData_fail E m _ _ _ _ h).1
    rw [this]
    exact Or.inr ⟨by omega, _, m3, rfl⟩
  · simp only [response_switch, hr, zero_add, Nat.reduceAdd] at h ⊢
    have := (addZwaveResponseData_fail E m _ _ _ _ h).1
    rw [this]
    exact Or.inr ⟨by omega, _, m3, rfl⟩
  · simp only [response_switch, hr, zero_add, Nat.reduceAdd] at h ⊢
    by_cases hm : (pm val).rm_so < 0
    · rw [if_pos hm]
      exact Or.inr ⟨by omega, _, m2, rfl⟩
    · rw [if_neg hm] at h ⊢
      have := (addZwaveResponseData_fail E m _ _ _ _ h).1
      rw [this]
      exact Or.inr ⟨by omega, _, m3, rfl⟩
  · simp only [response_switch, hr, zero_add, Nat.reduceAdd] at h
    rw [h0] at h; cases h
  · simp only [response_switch, hr, zero_add, Nat.reduceAdd] at h ⊢
    by_cases hz : st.s.response_zstate < 2
    · rw [if_pos hz]
      exact Or.inl ⟨trivial, Or.inl hz, rfl⟩
    · rw [if_neg hz] at h ⊢
      cases ha : (addZwaveResponseData E m
          { st.s with
            response_checksum := (st.s.response_checksum ^^^
              ((st.s.response_zstate - 1) ^^^
                st.s.response_buff.getD st.s.response_lenpos 0)) % 256
            response_buff := st.s.response_buff.set st.s.response_lenpos
              ((st.s.response_zstate - 1) % 256) } st.g
          [(st.s.response_checksum ^^^
              ((st.s.response_zstate - 1) ^^^
                st.s.response_buff.getD st.s.response_lenpos 0)) % 256] 1).2.2 with
      | true =>
        obtain ⟨e1, e2⟩ := addZwaveResponseData_fail E m _ _ _ _ ha
        rw [e1]
        dsimp only at e2
        refine Or.inr ⟨?_, _, m3, rfl⟩
        simp only [MAX_ZWAVE_BUFF_SIZE]
        omega
      | false =>
        have hg := addZwaveResponseData_ok E m _ _ _ _ ha
        have hn := (addZwaveResponseData_partpos E m
          { st.s with
            response_checksum := (st.s.response_checksum ^^^
              ((st.s.response_zstate - 1) ^^^
                st.s.response_buff.getD st.s.response_lenpos 0)) % 256
            response_buff := st.s.response_buff.set st.s.response_lenpos
              ((st.s.response_zstate - 1) % 256) } st.g
          [(st.s.response_checksum ^^^
              ((st.s.response_zstate - 1) ^^^
                st.s.response_buff.getD st.s.response_lenpos 0)) % 256] 1).2
        have hz2 := (addZwaveResponseData_one E m _ _ _ ha).2
        rw [ha, hn] at h
        simp only [Bool.false_or, decide_eq_true_eq] at h
        dsimp only at hz2 hn h
        refine Or.inl ⟨trivial, Or.inr ⟨by simp only [MAX_ZWAVE_BUFF_SIZE]; omega, ?_⟩, hg⟩
        simp only [MAX_RESPONSE_PARTS] at h ⊢
        omega
  · simp only [response_switch, hr] at h
    rw [h0] at h; cases h

theorem response_char_xx (E : Env) (m : monitor) (pm : Nat → regmatch_t)
    (st : ResponseLoop) (c : Char) (hc : c = 'X' ∨ c = 'x') (hr : st.rstate = 4) :
    response_char E m pm st c = response_switch E m pm { st with rstate := 5 } 0 := by
  unfold response_char
  have h4 : ¬ st.rstate = 0 := by omega
  rcases hc with hc | hc <;> subst hc
  · rw [if_neg (fun h => absurd h.2.1 (by decide)), if_neg (fun h => absurd h.1 (by decide)),
      if_neg (fun h => absurd h.2.1 (by decide)), if_neg (fun h => absurd h.1 (by decide)),
      if_neg (fun h => absurd h.1 (by decide)), if_neg (fun h => absurd h.1 (by decide)),
      if_pos ⟨Or.inl rfl, Or.inr hr⟩, if_neg h4]
  · rw [if_neg (fun h => absurd h.2.1 (by decide)), if_neg (fun h => absurd h.2.1 (by decide)),
      if_neg (fun h => absurd h.2.1 (by decide)), if_neg (fun h => absurd h.1 (by decide)),
      if_neg (fun h => absurd h.1 (by decide)), if_neg (fun h => absurd h.1 (by decide)),
      if_pos ⟨Or.inr rfl, Or.inr hr⟩, if_neg h4]

theorem response_char_fail (E : Env) (m : monitor) (pm : Nat → regmatch_t)
    (st : ResponseLoop) (c : Char) (h0 : st.error = false)
    (h : (response_char E m pm st c).error = true) :
    (silent_failure st c ∧ (response_char E m pm st c).g = st.g)
    ∨ (¬ silent_failure st c
        ∧ ∃ msg ∈ error_messages, (response_char E m pm st c).g = monitor_error E m msg st.g) := by
  obtain ⟨m1, m2, m3⟩ := mem_error_messages
  by_cases hx : (c = 'X' ∨ c = 'x') ∧ st.rstate = 4
  · rw [response_char_xx E m pm st c hx.1 hx.2] at h ⊢
    rcases response_switch_fail E m pm { st with rstate := 5 } 0 h0 h with ⟨_, a, b⟩ | ⟨a, b⟩
    · exact Or.inl ⟨⟨hx.2, hx.1, a⟩, b⟩
    · exact Or.inr ⟨fun hs => a ⟨rfl, hs.2.2⟩, b⟩
  · have hns : ¬ silent_failure st c := fun hs => hx ⟨hs.2.1, hs.1⟩
    refine Or.inr ⟨hns, ?_⟩
    have sw : ∀ (st1 : ResponseLoop) (val : Nat), st1.rstate ≠ 5 → st1.error = false →
        st1.g = st.g → (response_switch E m pm st1 val).error = true →
        ∃ msg ∈ error_messages, (response_switch E m pm st1 val).g = monitor_error E m msg st.g := by
      intro st1 val h5 he hg hh
      rcases response_switch_fail E m pm st1 val he hh with ⟨a, _, _⟩ | ⟨_, b⟩
      · exact absurd a h5
      · rw [← hg]; exact b
    unfold response_char at h ⊢
    by_cases c1 : '0' ≤ c ∧ c ≤ '9' ∧ st.rstate < 4
    · rw [if_pos c1] at h ⊢
      exact sw st _ (by omega) h0 rfl h
    rw [if_neg c1] at h ⊢
    by_cases c2 : 'a' ≤ c ∧ c ≤ 'f' ∧ st.rstate ≤ 1
    · rw [if_pos c2] at h ⊢
      exact sw st _ (by omega) h0 rfl h
    rw [if_neg c2] at h ⊢
    by_cases c3 : 'A' ≤ c ∧ c ≤ 'F' ∧ st.rstate ≤ 1
    · rw [if_pos c3] at h ⊢
      exact sw st _ (by omega) h0 rfl h
    rw [if_neg c3] at h ⊢
    by_cases c4 : c = ' ' ∧ st.rstate = 0
    · rw [if_pos c4] at h
      rw [h0] at h; cases h
    rw [if_neg c4] at h ⊢
    by_cases c5 : c = ' ' ∧ st.rstate = 1
    · rw [if_pos c5] at h ⊢
      exact sw { st with rstate := 2 } 0 (by simp) h0 rfl h
    rw [if_neg c5] at h ⊢
    by_cases c6 : c = Char.ofNat 92 ∧ st.rstate = 0
    · rw [if_pos c6] at h
      rw [h0] at h; cases h
    rw [if_neg c6] at h ⊢
    by_cases c7 : (c = 'X' ∨ c = 'x') ∧ (st.rstate = 0 ∨ st.rstate = 4)
    · rw [if_pos c7] at h ⊢
      by_cases c8 : st.rstate = 0
      · rw [if_pos c8] at h
        rw [h0] at h; cases h
      · exact absurd ⟨c7.1, by omega⟩ hx
    rw [if_neg c7]
    exact ⟨_, m1, rfl⟩

theorem response_loop_append (E : Env) (m : monitor) (pm : Nat → regmatch_t)
    (r1 : List Char) : ∀ (r0 : List Char) (st : ResponseLoop),
    response_loop E m pm (r0 ++ r1) st
      = response_loop E m pm r1 (response_loop E m pm r0 st) := by
  intro r0
  induction r0 with
  | nil => intro st; rfl
  | cons c r ih =>
    intro st
    rw [List.cons_append, response_loop, response_loop]
    by_cases he : st.error = true
    · rw [if_pos he, if_pos he, response_loop_error E m pm r1 st he]
    · rw [if_neg he, if_neg he, ih]

theorem response_loop_step (E : Env) (m : monitor) (pm : Nat → regmatch_t)
    (c : Char) (r : List Char) (st : ResponseLoop) (h : st.error = false) :
    response_loop E m pm (c :: r) st = response_loop E m pm r (response_char E m pm st c) := by
  rw [response_loop, if_neg (by simp [h])]

theorem response_loop_fail (E : Env) (m : monitor) (pm : Nat → regmatch_t) :
    ∀ (r : List Char) (st : ResponseLoop), st.error = false →
      (response_loop E m pm r st).error = true →
      ∃ r0 c r1, r = r0 ++ c :: r1
        ∧ (response_loop E m pm r0 st).error = false
        ∧ (response_loop E m pm r0 st).g = st.g
        ∧ (response_char E m pm (response_loop E m pm r0 st) c).error = true
        ∧ response_loop E m pm r st
            = response_char E m pm (response_loop E m pm r0 st) c := by
  intro r
  induction r with
  | nil => intro st h0 h; rw [response_loop, h0] at h; cases h
  | cons c r ih =>
    intro st h0 h
    rw [response_loop_step E m pm c r st h0] at h ⊢
    cases hc : (response_char E m pm st c).error with
    | true =>
      refine ⟨[], c, r, rfl, h0, rfl, hc, ?_⟩
      rw [response_loop_error E m pm r _ hc]
      rfl
    | false =>
      obtain ⟨r0, c1, r1, e1, e2, e3, e4, e5⟩ := ih (response_char E m pm st c) hc h
      refine ⟨c :: r0, c1, r1, by rw [e1]; rfl, ?_, ?_, ?_, ?_⟩
      · rw [response_loop_step E m pm c r0 st h0]; exact e2
      · rw [response_loop_step E m pm c r0 st h0, e3]
        exact response_char_ok E m pm st c hc h0
      · rw [response_loop_step E m pm c r0 st h0]; exact e4
      · rw [response_loop_step E m pm c r0 st h0]; exact e5

theorem synthesize_fail (E : Env) (m : monitor) (pm : Nat → regmatch_t) (r : List Char)
    (s : zwave_state) (g : Globals) (h : (synthesize E m pm r s g).error = true) :
    (∃ st c, st.error = false ∧ st.g = g ∧ (response_char E m pm st c).error = true
        ∧ synthesize E m pm r s g = response_char E m pm st c)
    ∨ (synthesize E m pm r s g).g = monitor_error E m "Response too long".toList g := by
  unfold synthesize at h ⊢
  dsimp only at h ⊢
  cases hl : (response_loop E m pm r
      { s := { s with
          response_zpos := 0
          response_numParts := 0
          response_partNum := 0
          response_partpos := s.response_partpos.set 0 0
          response_zstate := 0 }
        g := g, rstate := 0, byte := 0, error := false }).error with
  | true =>
    obtain ⟨r0, c, r1, _, e2, e3, e4, e5⟩ := response_loop_fail E m pm r _ rfl hl
    rw [if_neg (by simp [hl])]
    exact Or.inl ⟨_, c, e2, e3, e4, e5⟩
  | false =>
    have hg := response_loop_ok E m pm r _ hl
    by_cases h1 : (response_loop E m pm r
      { s := { s with
          response_zpos := 0
          response_numParts := 0
          response_partNum := 0
          response_partpos := s.response_partpos.set 0 0
          response_zstate := 0 }
        g := g, rstate := 0, byte := 0, error := false }).rstate = 1
    · rw [if_pos (by simp [hl, h1])] at h ⊢
      dsimp only at h ⊢
      rw [(addZwaveResponseData_fail E m _ _ _ _ h).1, hg]
      exact Or.inr rfl
    · rw [if_neg (by simp [h1])] at h
      rw [hl] at h; cases h

theorem synthesize_fail_globals (E : Env) (m : monitor) (pm : Nat → regmatch_t)
    (r : List Char) (s : zwave_state) (g : Globals)
    (h : (synthesize E m pm r s g).error = true) :
    (synthesize E m pm r s g).g = g
    ∨ ∃ msg ∈ error_messages, (synthesize E m pm r s g).g = monitor_error E m msg g := by
  rcases synthesize_fail E m pm r s g h with ⟨st, c, e1, e2, e3, e4⟩ | hf
  · rw [e4]
    rcases response_char_fail E m pm st c e1 e3 with ⟨_, b⟩ | ⟨_, msg, hm, b⟩
    · exact Or.inl (b.trans e2)
    · exact Or.inr ⟨msg, hm, by rw [b, e2]⟩
  · exact Or.inr ⟨_, mem_error_messages.2.2, hf⟩

theorem monitor_error_frame (E : Env) (m : monitor) (msg : List Char) (g : Globals) :
    (monitor_error E m msg g).serial = g.serial
    ∧ (monitor_error E m msg g).monitors = g.monitors
    ∧ (m.key.head? = some '*' → monitor_error E m msg g = g)
    ∧ (m.key.head? ≠ some '*' →
        http_history (monitor_error E m msg g) = http_history g ++
          [http_text m "Error".toList (E.now_fp_seconds g.clock_reads) [] none (some msg)]) := by
  have hf := send_http_frame E m "Error".toList [] none (some msg) g
  refine ⟨hf.1, hf.2.1, ?_, ?_⟩
  · intro hk
    unfold monitor_error send_http
    rw [if_pos hk]
  · intro hk
    unfold monitor_error send_http
    rw [if_neg hk, DequeueHTTPData_history]
    unfold http_history
    simp

theorem response_char_escape (E : Env) (m : monitor) (pm : Nat → regmatch_t)
    (st : ResponseLoop) (h0 : st.rstate = 0) :
    response_char E m pm st (Char.ofNat 92) = { st with rstate := 3 } := by
  unfold response_char
  rw [if_neg (fun h => absurd h.2.1 (by decide)), if_neg (fun h => absurd h.1 (by decide)),
    if_neg (fun h => absurd h.2.1 (by decide)), if_neg (fun h => absurd h.1 (by decide)),
    if_neg (fun h => absurd h.1 (by decide)), if_pos ⟨rfl, h0⟩]

theorem response_char_group (E : Env) (m : monitor) (pm : Nat → regmatch_t)
    (st : ResponseLoop) (c : Char) (hc0 : '0' ≤ c) (hc9 : c ≤ '9') (h3 : st.rstate = 3) :
    response_char E m pm st c =
      if (pm (c.toNat - '0'.toNat)).rm_so < 0 then
        { st with g := monitor_error E m "Unmatched replacement".toList st.g,
                  error := true, rstate := 0 }
      else
        { st with
          s := (addZwaveResponseData E m st.s st.g
            (st.s.packet_buff.drop ((pm (c.toNat - '0'.toNat)).rm_so / 3).toNat)
            ((2 + (pm (c.toNat - '0'.toNat)).rm_eo - (pm (c.toNat - '0'.toNat)).rm_so) / 3)).1
          g := (addZwaveResponseData E m st.s st.g
            (st.s.packet_buff.drop ((pm (c.toNat - '0'.toNat)).rm_so / 3).toNat)
            ((2 + (pm (c.toNat - '0'.toNat)).rm_eo - (pm (c.toNat - '0'.toNat)).rm_so) / 3)).2.1
          error := (addZwaveResponseData E m st.s st.g
            (st.s.packet_buff.drop ((pm (c.toNat - '0'.toNat)).rm_so / 3).toNat)
            ((2 + (pm (c.toNat - '0'.toNat)).rm_eo - (pm (c.toNat - '0'.toNat)).rm_so) / 3)).2.2
          rstate := 0 } := by
  unfold response_char
  rw [if_pos ⟨hc0, hc9, by omega⟩]
  simp only [response_switch, h3]

theorem take_store_at (buf cs : List Nat) (k : Nat) (h : k + cs.length ≤ buf.length) :
    (store_bytes buf k cs).take (k + cs.length) = buf.take k ++ cs := by
  rw [store_bytes_eq cs buf k h]
  have e1 : (buf.take k ++ cs).length = k + cs.length := by simp; omega
  rw [← e1, List.take_left']
  rfl

theorem slice_eq_take_drop (l : List Nat) (i n : Nat) :
    (l.drop i).take n = slice l i (i + n) := by
  unfold slice
  rw [show i + n - i = n by omega]

/-- C12. The template loop at a token boundary (`rstate = 0`, no error) reads
the escape `\d`, `d` a digit, while `packet_buff` holds the frame `f`. When
group `d` of the match covers the hex rendering of the frame bytes `i..j`
(start offset `3i`, end offset `3j+2` or `3j+3`) and the `j-i+1` bytes fit
into the 128 bytes of the response, the loop goes on with exactly the frame
bytes `i..j` appended at `response_zpos` and nothing else changed in the
buffer before them; when they do not fit, the interpretation fails with
`Response too long` and the synthesizer state is untouched. When group `d`
took no part in the match (`rm_so < 0`), the interpretation fails with
`Unmatched replacement` and the synthesizer state is untouched; so the
interpretation of a whole template that reaches such an escape at a token
boundary without error fails, with that one call of `monitor_error`. -/
theorem C12_capture_replacement (E : Env) (m : monitor) (pm : Nat → regmatch_t)
    (st : ResponseLoop) (c : Char) (r : List Char)
    (he : st.error = false) (h0 : st.rstate = 0) (hc0 : '0' ≤ c) (hc9 : c ≤ '9') :
    (∀ (f : List Nat) (i j : Nat), i ≤ j → j < f.length →
        st.s.packet_buff.take f.length = f →
        (pm (c.toNat - '0'.toNat)).rm_so = 3 * (i : Int) →
        ((pm (c.toNat - '0'.toNat)).rm_eo = 3 * (j : Int) + 2
          ∨ (pm (c.toNat - '0'.toNat)).rm_eo = 3 * (j : Int) + 3) →
        (st.s.response_zpos + (j - i + 1) ≤ 128 →
          response_loop E m pm (Char.ofNat 92 :: c :: r) st =
            response_loop E m pm r
              { s := (slice f i (j + 1)).foldl addZwaveResponseByte st.s
                g := st.g, rstate := 0, byte := st.byte, error := false }
          ∧ ((slice f i (j + 1)).foldl addZwaveResponseByte st.s).response_zpos
              = st.s.response_zpos + (j - i + 1)
          ∧ (st.s.response_buff.length = MAX_ZWAVE_BUFF_SIZE →
              ((slice f i (j + 1)).foldl addZwaveResponseByte st.s).response_buff.take
                  (st.s.response_zpos + (j - i + 1))
                = st.s.response_buff.take st.s.response_zpos ++ slice f i (j + 1)))
        ∧ (128 < st.s.response_zpos + (j - i + 1) →
            response_loop E m pm (Char.ofNat 92 :: c :: r) st =
              { s := st.s, g := monitor_error E m "Response too long".toList st.g
                rstate := 0, byte := st.byte, error := true }))
    ∧ ((pm (c.toNat - '0'.toNat)).rm_so < 0 →
        response_loop E m pm (Char.ofNat 92 :: c :: r) st =
          { s := st.s, g := monitor_error E m "Unmatched replacement".toList st.g
            rstate := 0, byte := st.byte, error := true })
    ∧ ((pm (c.toNat - '0'.toNat)).rm_so < 0 →
        ∀ (r0 : List Char) (s : zwave_state) (g : Globals),
          (response_loop E m pm r0
            { s := { s with
                response_zpos := 0
                response_numParts := 0
                response_partNum := 0
                response_partpos := s.response_partpos.set 0 0
                response_zstate := 0 }
              g := g, rstate := 0, byte := 0, error := false }).error = false →
          (response_loop E m pm r0
            { s := { s with
                response_zpos := 0
                response_numParts := 0
                response_partNum := 0
                response_partpos := s.response_partpos.set 0 0
                response_zstate := 0 }
              g := g, rstate := 0, byte := 0, error := false }).rstate = 0 →
          (synthesize E m pm (r0 ++ Char.ofNat 92 :: c :: r) s g).error = true
          ∧ (synthesize E m pm (r0 ++ Char.ofNat 92 :: c :: r) s g).g
              = monitor_error E m "Unmatched replacement".toList g) := by
  have unmatched : ∀ (st : ResponseLoop), st.error = false → st.rstate = 0 →
      (pm (c.toNat - '0'.toNat)).rm_so < 0 →
      response_loop E m pm (Char.ofNat 92 :: c :: r) st =
        { s := st.s, g := monitor_error E m "Unmatched replacement".toList st.g
          rstate := 0, byte := st.byte, error := true } := by
    intro st he h0 hneg
    rw [response_loop_step E m pm _ _ st he, response_char_escape E m pm st h0,
      response_loop_step E m pm c r { st with rstate := 3 } he,
      response_char_group E m pm { st with rstate := 3 } c hc0 hc9 rfl, if_pos hneg]
    exact response_loop_error E m pm r _ rfl
  refine ⟨?_, unmatched st he h0, ?_⟩
  swap
  · intro hneg r0 s g hok hr0
    have hg := response_loop_ok E m pm r0 _ hok
    unfold synthesize
    dsimp only at hg ⊢
    rw [response_loop_append, unmatched _ hok hr0 hneg, hg]
    exact ⟨rfl, rfl⟩
  have hstep : response_loop E m pm (Char.ofNat 92 :: c :: r) st =
      response_loop E m pm r (response_char E m pm { st with rstate := 3 } c) := by
    rw [response_loop_step E m pm _ _ st he, response_char_escape E m pm st h0,
      response_loop_step E m pm c r { st with rstate := 3 } he]
  rw [hstep, response_char_group E m pm { st with rstate := 3 } c hc0 hc9 rfl]
  · intro f i j hij hj hpk hso heo
    have hlen : (2 + (pm (c.toNat - '0'.toNat)).rm_eo - (pm (c.toNat - '0'.toNat)).rm_so) / 3
        = ((j - i + 1 : Nat) : Int) := by
      rw [hso]
      rcases heo with h | h <;> rw [h] <;> omega
    have hstart : ((pm (c.toNat - '0'.toNat)).rm_so / 3).toNat = i := by
      rw [hso]; omega
    have hsl : (st.s.packet_buff.drop i).take (j - i + 1) = slice f i (j + 1) := by
      rw [slice_eq_take_drop, show i + (j - i + 1) = j + 1 by omega,
        ← slice_take st.s.packet_buff i (j + 1) f.length (by omega), hpk]
    have hsllen : (slice f i (j + 1)).length = j - i + 1 := by
      rw [slice_length f i (j + 1) (by omega)]; omega
    rw [if_neg (by rw [hso]; omega), hlen, hstart]
    dsimp only
    constructor
    · intro hfit
      rw [addZwaveResponseData_fits E m st.s st.g _ (j - i + 1) hfit, hsl]
      obtain ⟨b1, b2, _⟩ := foldl_addZwaveResponseByte_buff (slice f i (j + 1)) st.s
      refine ⟨rfl, by rw [b1, hsllen], ?_⟩
      intro hbl
      simp only [MAX_ZWAVE_BUFF_SIZE] at hbl
      rw [b2, ← hsllen]
      exact take_store_at _ _ _ (by rw [hsllen]; omega)
    · intro hover
      have hf : (addZwaveResponseData E m st.s st.g (st.s.packet_buff.drop i)
          ((j - i + 1 : Nat) : Int)).2.2 = true := by
        unfold addZwaveResponseData
        rw [if_pos (by simp only [MAX_ZWAVE_BUFF_SIZE]; push_cast; omega)]
      rw [(addZwaveResponseData_fail E m _ _ _ _ hf).1]
      exact response_loop_error E m pm r _ rfl

/-- An instance of C12: the template loop reads `\0` while the buffer holds
the frame `01 03 00 13 EF` and the whole match covers the rendering of the
bytes 0..3 (offsets 0 to 11): the bytes `01 03 00 13` are appended; and as the
template of `echo_rule`, the host gets these four bytes as the response. With
the template `\1` of `no_group_rule` and the same match, nothing goes to the
host, the frame goes to the controller and one notification is enqueued. -/
theorem C12_witness_whole_match :
    (response_loop env_ok echo_rule (whole_match 11) [Char.ofNat 92, '0']
        { s := at_checksum true zwave_state.init [1, 3, 0, 0x13, 0xEF], g := Globals.init
          rstate := 0, byte := 0, error := false }).s.response_buff.take 4 = [1, 3, 0, 0x13]
    ∧ (host_readable env_ok zwave_state.init
        { Globals.init with monitors := [echo_rule] } [1, 3, 0, 0x13, 0xEF]).2.serial
      = [(Endpoint.host, [1, 3, 0, 0x13])]
    ∧ (host_readable env_ok zwave_state.init
        { Globals.init with monitors := [no_group_rule] } [1, 3, 0, 0x13, 0xEF]).2.serial
      = [(Endpoint.controller, [1, 3, 0, 0x13, 0xEF])]
    ∧ (http_history (host_readable env_ok zwave_state.init
        { Globals.init with monitors := [no_group_rule] } [1, 3, 0, 0x13, 0xEF]).2).length
      = 1 := by
  refine ⟨?_, by decide, by decide, by decide⟩
  · rw [(((C12_capture_replacement env_ok echo_rule (whole_match 11)
      { s := at_checksum true zwave_state.init [1, 3, 0, 0x13, 0xEF], g := Globals.init
        rstate := 0, byte := 0, error := false } '0' [] rfl rfl (by decide) (by decide)).1
      [1, 3, 0, 0x13, 0xEF] 0 3 (by decide) (by decide) (by decide) (by decide)
      (Or.inl (by decide))).1 (by decide)).1]
    decide

/-- C23 fails as stated: the bytes `01 05 00 04 00 01 FB` do not end in the
checksum of the frame (which is `FF`), so the scanner passes them to the host
without matching them against the rule: no notification is enqueued. -/
theorem C23_bad_checksum_is_not_matched :
    (controller_readable env_ok zwave_state.init
        { Globals.init with monitors := [s2_rule] } [1, 5, 0, 4, 0, 1, 0xFB]).2.serial
      = [(Endpoint.host, [1, 5, 0, 4, 0, 1, 0xFB])]
    ∧ http_history (controller_readable env_ok zwave_state.init
        { Globals.init with monitors := [s2_rule] } [1, 5, 0, 4, 0, 1, 0xFB]).2 = []
    ∧ xor_sum [5, 0, 4, 0, 1, 0xFB] = 4
    ∧ xor_sum [5, 0, 4, 0, 1, 0xFF] = 0 := by
  refine ⟨by decide, by decide, by decide, by decide⟩

set_option maxRecDepth 100000 in
/-- C23, with the checksum of the frame corrected. The controller sends the
valid frame `01 05 00 04 00 01 FF` while the rule of S2 is the only rule: the
host receives the same bytes, exactly one request enters the queue history
and is handed to the idle sink at once, and it is the `Monitor` request of
key `k1` whose one capture parameter `C0` is the text that the pattern
matched, `01 05 00 04`, with its spaces written `%20`. -/
theorem C23_simple_monitor_reports_match :
    (controller_readable env_ok zwave_state.init
        { Globals.init with monitors := [s2_rule] } [1, 5, 0, 4, 0, 1, 0xFF]).2.serial
      = [(Endpoint.host, [1, 5, 0, 4, 0, 1, 0xFF])]
    ∧ http_history (controller_readable env_ok zwave_state.init
        { Globals.init with monitors := [s2_rule] } [1, 5, 0, 4, 0, 1, 0xFF]).2
      = [request_text "Monitor" "k1" "&C0=01%2005%2000%2004"]
    ∧ (controller_readable env_ok zwave_state.init
        { Globals.init with monitors := [s2_rule] } [1, 5, 0, 4, 0, 1, 0xFF]).2.http_sink
      = [(request_text "Monitor" "k1" "&C0=01%2005%2000%2004", true)]
    ∧ (controller_readable env_ok zwave_state.init
        { Globals.init with monitors := [s2_rule] }
          [1, 5, 0, 4, 0, 1, 0xFF]).2.monitors.map (fun r => r.key) = ["k1".toList]
    ∧ ((anchored "01 .. 00 04".toList).regexec (hex_of [1, 5, 0, 4, 0, 1, 0xFF])).map
        (fun pm => ((pm 0).rm_so, (pm 0).rm_eo, (pm 1).rm_so)) = some (0, 11, -1)
    ∧ hex_of [1, 5, 0, 4, 0, 1, 0xFF] = "01 05 00 04 00 01 FF".toList := by
  refine ⟨by decide, by decide, by decide, by decide, by decide, by decide⟩

/-- C24 fails as stated: the bytes `01 04 00 13 05 EB` do not end in the
checksum of the frame (which is `ED`), so the scanner passes them to the
controller without matching them against the rule: the controller receives
the six bytes, the host receives nothing, no notification is enqueued and the
rule stays in the list. -/
theorem C24_bad_checksum_is_not_intercepted :
    (host_readable env_ok zwave_state.init
        { Globals.init with monitors := [s3_rule] } [1, 4, 0, 0x13, 5, 0xEB]).2.serial
      = [(Endpoint.controller, [1, 4, 0, 0x13, 5, 0xEB])]
    ∧ http_history (host_readable env_ok zwave_state.init
        { Globals.init with monitors := [s3_rule] } [1, 4, 0, 0x13, 5, 0xEB]).2 = []
    ∧ (host_readable env_ok zwave_state.init
        { Globals.init with monitors := [s3_rule] }
          [1, 4, 0, 0x13, 5, 0xEB]).2.monitors.map (fun r => r.key) = ["k3".toList]
    ∧ xor_sum [4, 0, 0x13, 5, 0xEB] = 6
    ∧ xor_sum [4, 0, 0x13, 5, 0xED] = 0 := by
  refine ⟨by decide, by decide, by decide, by decide, by decide⟩

set_option maxRecDepth 100000 in
/-- C24, with the checksum of the frame corrected. The host writes the valid
frame `01 04 00 13 05 ED` while the rule of S3 is the only rule: the
controller receives nothing, the host receives exactly the byte `06`, the
oneshot rule is gone, and the `Intercept` request of the rule is in the queue
but is not handed to the idle sink: the response has one part, so
`http_holdoff` is set and one ACK of the host is awaited. When the host then
writes `06`, the byte is consumed (nothing goes to the controller) and the
request is handed to the sink. -/
theorem C24_intercept_holds_notification :
    (after_s3_frame.2.serial = [(Endpoint.host, [6])]
      ∧ after_s3_frame.2.monitors.map (fun r => r.key) = []
      ∧ after_s3_frame.2.requests = [request_text "Intercept" "k3" "&C0=01%2004%2000%2013"]
      ∧ after_s3_frame.2.http_sink = []
      ∧ after_s3_frame.2.http_active = false
      ∧ after_s3_frame.2.http_holdoff = true
      ∧ after_s3_frame.1.response_numParts = 1
      ∧ after_s3_frame.1.response_partNum = 0)
    ∧ ((host_readable env_ok after_s3_frame.1 after_s3_frame.2 [6]).2.serial
        = [(Endpoint.host, [6])]
      ∧ (host_readable env_ok after_s3_frame.1 after_s3_frame.2 [6]).2.requests = []
      ∧ (host_readable env_ok after_s3_frame.1 after_s3_frame.2 [6]).2.http_sink
        = [(request_text "Intercept" "k3" "&C0=01%2004%2000%2013", true)]
      ∧ (host_readable env_ok after_s3_frame.1 after_s3_frame.2 [6]).2.http_holdoff = false) := by
  refine ⟨⟨by decide, by decide, by decide, by decide, by decide, by decide, by decide,
    by decide⟩, by decide, by decide, by decide, by decide⟩

/-- C25 fails as stated: the interpretation of the template
`06 XX 01 04 01 13 01 XX` fails at its first `XX`, where no sub-frame is open;
the host receives nothing, the frame goes to the controller, and no
notification is enqueued. -/
theorem C25_template_fails_at_first_checksum :
    (synthesize env_ok s4_rule (whole_match 11) "06 XX 01 04 01 13 01 XX".toList
        (at_checksum true zwave_state.init [1, 3, 0, 0x13, 0xEF])
        { Globals.init with monitors := [s4_rule] }).error = true
    ∧ (response_loop env_ok s4_rule (whole_match 11) "06 XX".toList
        { s := zwave_state.init, g := Globals.init, rstate := 0, byte := 0,
          error := false }).error = true
    ∧ (response_loop env_ok s4_rule (whole_match 11) "06 X".toList
        { s := zwave_state.init, g := Globals.init, rstate := 0, byte := 0,
          error := false }).error = false
    ∧ after_s4_frame.2.serial = [(Endpoint.controller, [1, 3, 0, 0x13, 0xEF])]
    ∧ http_history after_s4_frame.2 = [] := by
  refine ⟨by decide, by decide, by decide, by decide, by decide⟩

set_option maxRecDepth 100000 in
/-- C25, as the code has it. With the template `06 XX 01 04 01 13 01 XX` the
interpretation fails at the first `XX`: the host receives nothing, the frame
`01 03 00 13 EF` goes to the controller and no notification is enqueued. With
the ACK and the synthesized frame in one part, template
`06 01 04 01 13 01 XX`, the interpretation succeeds with one part: the host
at once receives `06 01 04 01 13 01 E8`, the controller receives nothing, and
the `Intercept` request is queued and held; the next byte `06` of the host is
consumed (the controller does not see it) and the request is handed to the
sink. -/
theorem C25_multi_part_needs_frame_per_part :
    (after_s4_frame.2.serial = [(Endpoint.controller, [1, 3, 0, 0x13, 0xEF])]
      ∧ http_history after_s4_frame.2 = [])
    ∧ (after_s4_joined_frame.2.serial = [(Endpoint.host, [6, 1, 4, 1, 0x13, 1, 0xE8])]
      ∧ after_s4_joined_frame.1.response_numParts = 1
      ∧ after_s4_joined_frame.2.requests
        = [request_text "Intercept" "k4" "&C0=01%2003%2000%2013"]
      ∧ after_s4_joined_frame.2.http_sink = []
      ∧ after_s4_joined_frame.2.http_holdoff = true)
    ∧ ((host_readable env_ok after_s4_joined_frame.1 after_s4_joined_frame.2 [6]).2.serial
        = [(Endpoint.host, [6, 1, 4, 1, 0x13, 1, 0xE8])]
      ∧ (host_readable env_ok after_s4_joined_frame.1 after_s4_joined_frame.2 [6]).2.http_sink
        = [(request_text "Intercept" "k4" "&C0=01%2003%2000%2013", true)]
      ∧ (host_readable env_ok after_s4_joined_frame.1 after_s4_joined_frame.2
          [6]).2.requests = []) := by
  refine ⟨⟨by decide, by decide⟩, ⟨by decide, by decide, by decide, by decide, by decide⟩,
    by decide, by decide, by decide⟩

theorem idle_byte_passes (E : Env) (i o : Endpoint) (send : Bool) (s : zwave_state)
    (g : Globals) (c : Nat) (hs : s.state = 0) (hc : c ≠ 1)
    (h : ¬ (send = true ∧ s.response_partNum < s.response_numParts)) :
    process_zwave E i o send s g [c] = (s, { g with serial := g.serial ++ [(o, [c])] }) := by
  have hb : process_byte E i o send { s := s, g := g, pending := [] } c
      = { s := s, g := g, pending := [c] } := by
    unfold process_byte
    dsimp only
    rw [if_neg (fun hh => h ⟨hh.1, hh.2.1⟩)]
    unfold frame_byte
    simp [hs, hc]
  unfold process_zwave
  simp only [List.foldl_cons, List.foldl_nil]
  rw [hb]
  simp [hs]

/-- C26. A byte `06` read from the host by the idle send scanner is passed to
the controller unchanged when `response_partNum < response_numParts` does not
hold, and is consumed when it holds: then nothing is written to the
controller, the ACK count goes up by one and the only possible write is the
next part to the host. And this condition holds after a failed synthesis:
after the host frame `01 03 00 13 EF` fired the rule with template `06 XX`,
the interpretation failed and the frame was passed to the controller,
`response_partNum` is 0 and `response_numParts` is 1, and the next `06` of the
host is consumed: the controller never gets it. -/
theorem C26_ack_consumed_after_failed_synthesis (E : Env) (s : zwave_state) (g : Globals)
    (hs : s.state = 0) :
    (¬ s.response_partNum < s.response_numParts →
      host_readable E s g [6]
        = (s, { g with serial := g.serial ++ [(Endpoint.controller, [6])] }))
    ∧ (s.response_partNum < s.response_numParts →
        (host_readable E s g [6]).1 = { s with response_partNum := s.response_partNum + 1 }
        ∧ ((host_readable E s g [6]).2.serial = g.serial
          ∨ (host_readable E s g [6]).2.serial
              = g.serial ++ [(Endpoint.host, response_part s (s.response_partNum + 1))]))
    ∧ ((synthesize env_ok unclosed_rule (whole_match 11) "06 XX".toList
          (at_checksum true zwave_state.init [1, 3, 0, 0x13, 0xEF])
          { Globals.init with monitors := [unclosed_rule] }).error = true
      ∧ after_failed_synthesis.2.serial = [(Endpoint.controller, [1, 3, 0, 0x13, 0xEF])]
      ∧ after_failed_synthesis.1.state = 0
      ∧ after_failed_synthesis.1.response_partNum = 0
      ∧ after_failed_synthesis.1.response_numParts = 1
      ∧ (host_readable env_ok after_failed_synthesis.1 after_failed_synthesis.2 [6]).2.serial
          = [(Endpoint.controller, [1, 3, 0, 0x13, 0xEF])]) := by
  refine ⟨?_, ?_, by decide, by decide, by decide, by decide, by decide, by decide⟩
  · intro h
    exact idle_byte_passes E Endpoint.host Endpoint.controller true s g 6 hs (by decide)
      (fun hh => h hh.2)
  · intro h
    unfold host_readable
    by_cases h1 : s.response_partNum + 1 < s.response_numParts
    · have := acks_some E Endpoint.host Endpoint.controller s g 1 hs h1
      simp only [List.replicate, List.range_succ, List.range_zero, List.nil_append,
        List.map_cons, List.map_nil, Nat.add_zero] at this
      rw [this]
      exact ⟨rfl, Or.inr rfl⟩
    · have h2 : s.response_partNum + 0 + 1 = s.response_numParts := by omega
      have := acks_rest E Endpoint.host Endpoint.controller s g 0 hs h2
      simp only [List.replicate, List.range_zero, List.map_nil, List.append_nil,
        Nat.zero_add] at this
      rw [this]
      refine ⟨by simp only; congr 1; omega, Or.inl ?_⟩
      rw [(DequeueHTTPData_frame E _).1]

/-- An instance of C26: the idle send scanner without any response pending
passes a `06` of the host to the controller. -/
theorem C26_witness_ack_passes :
    host_readable env_ok zwave_state.init Globals.init [6]
      = (zwave_state.init,
         { Globals.init with serial := Globals.init.serial ++ [(Endpoint.controller, [6])] }) :=
  (C26_ack_consumed_after_failed_synthesis env_ok zwave_state.init Globals.init rfl).1
    (by decide)

/-! ## The comparison of deadlines -/

/-- C27. `compareTimeout` returns the `long long` difference of two non-zero
deadlines as an `int`. For deadlines that are not negative and, when both are
not 0, differ by less than `2^31`, the sign of the result is the order of the
deadlines (positive: `t1` after `t2`; negative: `t1` before `t2`; zero: equal),
0 counting as later than every other deadline. Without that bound it is not:
for `t1 = 2^32 + 1` and `t2 = 1` the result is 0 although `t1` is later, and
for `t1 = 2^31 + 1` and `t2 = 1` the result is negative although `t1` is
later. -/
theorem C27_compare_truncates_difference :
    (∀ t1 t2 : Int, 0 ≤ t1 → 0 ≤ t2 → (t1 ≠ 0 → t2 ≠ 0 → |t1 - t2| < 2 ^ 31) →
        (compareTimeout t1 t2 > 0 ↔ t2 ≠ 0 ∧ (t1 = 0 ∨ t2 < t1))
        ∧ (compareTimeout t1 t2 < 0 ↔ t1 ≠ 0 ∧ (t2 = 0 ∨ t1 < t2))
        ∧ (compareTimeout t1 t2 = 0 ↔ t1 = t2))
    ∧ compareTimeout (2 ^ 32 + 1) 1 = 0
    ∧ compareTimeout (2 ^ 31 + 1) 1 = -(2 ^ 31)
    ∧ (2 : Int) ^ 32 + 1 < 2 ^ 63 := by
  refine ⟨?_, by decide, by decide, by decide⟩
  intro t1 t2 h1 h2 hc
  by_cases z1 : t1 = 0
  · by_cases z2 : t2 = 0
    · have hv : compareTimeout t1 t2 = 0 := by
        unfold compareTimeout; simp [z1, z2, toInt32]
      rw [hv]
      omega
    · have hv : compareTimeout t1 t2 = 1 := by
        unfold compareTimeout; simp [z1, z2, toInt32]
      rw [hv]
      omega
  · by_cases z2 : t2 = 0
    · have hv : compareTimeout t1 t2 = -1 := by
        unfold compareTimeout; simp [z1, z2, toInt32]
      rw [hv]
      omega
    · have hd := hc z1 z2
      rw [abs_lt] at hd
      have hv : compareTimeout t1 t2 = t1 - t2 := by
        unfold compareTimeout
        simp only [ne_eq, z1, not_false_eq_true, if_true, z2]
        exact toInt32_small _ (by omega) (by omega)
      rw [hv]
      omega

/-- An instance of C27: the deadline 100 compares greater than the deadline
50. -/
theorem C27_witness_close_deadlines : compareTimeout 100 50 > 0 :=
  ((C27_compare_truncates_difference.1 100 50 (by decide) (by decide)
    (fun _ _ => by norm_num)).1).2 ⟨by decide, Or.inr (by decide)⟩

theorem store_indices_append (E : Env) (i o : Endpoint) (send : Bool) (b : List Nat) :
    ∀ (a : List Nat) (l : ByteLoop),
      store_indices E i o send (a ++ b) l
        = store_indices E i o send a l
            ++ store_indices E i o send b (a.foldl (process_byte E i o send) l) := by
  intro a
  induction a with
  | nil => intro l; rfl
  | cons c cs ih =>
    intro l
    rw [List.cons_append, store_indices, store_indices, List.foldl_cons, ih, List.append_assoc]

theorem store_index_body (send : Bool) (l : ByteLoop) (c : Nat) (h : 2 ≤ l.s.state) :
    store_index send l c = some l.s.state := by
  unfold store_index
  rw [if_neg (fun hh => by omega), if_neg (by omega), if_neg (by omega)]

theorem store_indices_body (E : Env) (i o : Endpoint) (send : Bool) :
    ∀ (bs : List Nat) (l : ByteLoop), 2 ≤ l.s.state →
      (l.s.state + bs.length ≤ l.s.packet_buff.getD 1 0 + 1
        ∨ l.s.packet_buff.getD 1 0 + 1 < l.s.state) →
      store_indices E i o send bs l = List.range' l.s.state bs.length
      ∧ (bs.foldl (process_byte E i o send) l).s.state = l.s.state + bs.length := by
  intro bs
  induction bs with
  | nil => intro l _ _; exact ⟨rfl, rfl⟩
  | cons c cs ih =>
    intro l h2 hd
    simp only [List.length_cons] at hd
    have hstep : process_byte E i o send l c =
        { s := { l.s with
            packet_buff := l.s.packet_buff.set l.s.state c
            checksum := l.s.checksum ^^^ c
            state := l.s.state + 1 }
          g := l.g
          pending := l.pending ++ [c] } := by
      rw [process_byte_framing E i o send l c (by omega),
        frame_byte_body E i o send { l with pending := l.pending ++ [c] } c h2 (by
          show l.s.state ≠ l.s.packet_buff.getD 1 0 + 1
          omega)]
    have hg : (l.s.packet_buff.set l.s.state c).getD 1 0 = l.s.packet_buff.getD 1 0 :=
      getD_set_ne _ _ _ _ (by omega)
    have := ih
      { s := { l.s with
          packet_buff := l.s.packet_buff.set l.s.state c
          checksum := l.s.checksum ^^^ c
          state := l.s.state + 1 }
        g := l.g
        pending := l.pending ++ [c] } (by simp only; omega) (by
      simp only [hg]
      omega)
    simp only [store_indices, List.foldl_cons, hstep, store_index_body send l c h2,
      Option.toList, List.singleton_append, this.1, this.2, List.length_cons]
    refine ⟨?_, by omega⟩
    rw [List.range'_succ]

theorem store_indices_header (E : Env) (i o : Endpoint) (send : Bool) (s : zwave_state)
    (g : Globals) (L : Nat) (bs : List Nat) (hs : s.state = 0) (hL : L < 128) :
    store_indices E i o send (1 :: L :: bs) { s := s, g := g, pending := [] } =
      0 :: 1 :: store_indices E i o send bs
        { s := { s with
            response_numParts :=
              if send ∧ s.response_partNum < s.response_numParts then 0
              else s.response_numParts
            state := 2
            packet_buff := (s.packet_buff.set 0 1).set 1 L
            checksum := 0xff ^^^ L }
          g := g
          pending := [1, L] } := by
  have h0 : store_index send { s := s, g := g, pending := [] } 1 = some 0 := by
    unfold store_index
    rw [if_neg (fun hh => absurd hh.2.2.2 (by decide)), if_pos hs, if_pos rfl]
  rw [store_indices, h0, sof_step E i o send s g hs, store_indices]
  have h1 : store_index send
      { s := { s with
          response_numParts :=
            if send ∧ s.response_partNum < s.response_numParts then 0 else s.response_numParts
          state := 1
          packet_buff := s.packet_buff.set 0 1
          checksum := 0xff }
        g := g
        pending := [1] } L = some 1 := by
    unfold store_index
    rw [if_neg (fun hh => absurd (hh.2.2.1 : (1 : Nat) = 0) (by decide)),
      if_neg (fun hh => absurd (hh : (1 : Nat) = 0) (by decide)), if_pos rfl,
      if_neg (by simp only [MAX_ZWAVE_BUFF_SIZE]; omega)]
  rw [h1, length_step E i o send _ L rfl hL]
  rfl

theorem hexbuff_loop_length (buf : List Nat) : ∀ (n i : Nat),
    (hexbuff_loop buf i n).length = 3 * n - (if i = 0 ∧ 0 < n then 1 else 0) := by
  intro n
  induction n with
  | zero => intro i; simp [hexbuff_loop]
  | succ k ih =>
    intro i
    rw [hexbuff_loop]
    simp only [List.length_append, List.length_cons, List.length_nil, ih (i + 1)]
    by_cases h : i = 0
    · subst h; simp; omega
    · have : i > 0 := by omega
      simp [this, h]; omega

theorem store_indices_frame (E : Env) (i o : Endpoint) (send : Bool) (s : zwave_state)
    (g : Globals) (L : Nat) (init : List Nat) (last : Nat) (hs : s.state = 0)
    (hbuf : s.packet_buff.length = MAX_ZWAVE_BUFF_SIZE) (hL : L < 128)
    (h : 2 + init.length ≤ L + 1 ∨ L + 1 < 2) :
    store_indices E i o send (1 :: L :: (init ++ [last])) { s := s, g := g, pending := [] }
      = 0 :: 1 :: (List.range' 2 init.length ++ [2 + init.length]) := by
  have hb2 : 2 ≤ s.packet_buff.length := by rw [hbuf]; decide
  rw [store_indices_header E i o send s g L _ hs hL, store_indices_append]
  have hg := set_header_getD s.packet_buff L hb2
  obtain ⟨e1, e2⟩ := store_indices_body E i o send init
    { s := { s with
        response_numParts :=
          if send ∧ s.response_partNum < s.response_numParts then 0
          else s.response_numParts
        state := 2
        packet_buff := (s.packet_buff.set 0 1).set 1 L
        checksum := 0xff ^^^ L }
      g := g
      pending := [1, L] } (by simp) (by
    simp only [hg]
    exact h)
  rw [e1, store_indices, store_index_body send _ last (by rw [e2]; simp), e2]
  rfl

/-- C28. The stores of the byte loop into `packet_buff` while an idle scanner
reads SOF, the length byte `L` and the bytes after it, in either direction.
For `1 ≤ L ≤ 126` every store of the frame goes to an index below
`MAX_ZWAVE_BUFF_SIZE`, and the hex rendering of the `L + 2` bytes with its
terminator fits the `3 * MAX_ZWAVE_BUFF_SIZE` characters of `hexbuff`. For the
accepted length byte `L = 127` the last byte of the frame is stored at index
`MAX_ZWAVE_BUFF_SIZE`, one past the end of the buffer, and the rendering of
the 129 bytes with its terminator takes 387 characters, more than `hexbuff`
has. For the accepted length byte `L = 0` the 127th byte after it is stored at
index `MAX_ZWAVE_BUFF_SIZE`. -/
theorem C28_store_past_buffer (E : Env) (i o : Endpoint) (send : Bool) (s : zwave_state)
    (g : Globals) (hs : s.state = 0) (hbuf : s.packet_buff.length = MAX_ZWAVE_BUFF_SIZE) :
    (∀ (L : Nat) (body : List Nat), 1 ≤ L → L ≤ 126 → body.length = L →
        (∀ k ∈ store_indices E i o send (1 :: L :: body) { s := s, g := g, pending := [] },
          k < MAX_ZWAVE_BUFF_SIZE)
        ∧ ∀ buf : List Nat, (hexbuff buf (L + 2)).length + 1 ≤ 3 * MAX_ZWAVE_BUFF_SIZE)
    ∧ (∀ body : List Nat, body.length = 127 →
        MAX_ZWAVE_BUFF_SIZE
          ∈ store_indices E i o send (1 :: 127 :: body) { s := s, g := g, pending := [] })
    ∧ (∀ buf : List Nat, (hexbuff buf (127 + 2)).length + 1 = 387
        ∧ 3 * MAX_ZWAVE_BUFF_SIZE < (hexbuff buf (127 + 2)).length + 1)
    ∧ (∀ bs : List Nat, bs.length = 127 →
        MAX_ZWAVE_BUFF_SIZE
          ∈ store_indices E i o send (1 :: 0 :: bs) { s := s, g := g, pending := [] }) := by
  have split : ∀ (bs : List Nat) (n : Nat), bs.length = n + 1 →
      ∃ init last, bs = init ++ [last] ∧ init.length = n := by
    intro bs n h
    rcases List.eq_nil_or_concat bs with e | ⟨init, last, e⟩
    · subst e; simp at h
    · refine ⟨init, last, by simpa using e, ?_⟩
      subst e
      simpa using h
  refine ⟨?_, ?_, ?_, ?_⟩
  · intro L body h1 h126 hlen
    obtain ⟨init, last, rfl, hi⟩ := split body (L - 1) (by omega)
    constructor
    · intro k hk
      rw [store_indices_frame E i o send s g L init last hs hbuf (by omega)
        (Or.inl (by omega))] at hk
      simp only [List.mem_cons, List.mem_append, List.mem_range', List.mem_singleton,
        List.not_mem_nil, or_false] at hk
      simp only [MAX_ZWAVE_BUFF_SIZE]
      rcases hk with hk | hk | ⟨j, hj, hk⟩ | hk <;> omega
    · intro buf
      unfold hexbuff
      rw [hexbuff_loop_length]
      have hm : MAX_ZWAVE_BUFF_SIZE = 128 := rfl
      rw [hm]
      split <;> omega
  · intro body hlen
    obtain ⟨init, last, rfl, hi⟩ := split body 126 hlen
    rw [store_indices_frame E i o send s g 127 init last hs hbuf (by decide)
      (Or.inl (by omega)), hi]
    simp [MAX_ZWAVE_BUFF_SIZE]
  · intro buf
    unfold hexbuff
    rw [hexbuff_loop_length]
    simp [MAX_ZWAVE_BUFF_SIZE]
  · intro bs hlen
    obtain ⟨init, last, rfl, hi⟩ := split bs 126 hlen
    rw [store_indices_frame E i o send s g 0 init last hs hbuf (by decide)
      (Or.inr (by decide)), hi]
    simp [MAX_ZWAVE_BUFF_SIZE]

/-- An instance of C28: the idle scanner of the controller direction reads
`01 7F` and 127 bytes `00`; the last of them is stored at index 128. -/
theorem C28_witness_longest_frame :
    128 ∈ store_indices env_ok Endpoint.controller Endpoint.host false
      (1 :: 127 :: List.replicate 127 0)
      { s := zwave_state.init, g := Globals.init, pending := [] } :=
  (C28_store_past_buffer env_ok Endpoint.controller Endpoint.host false zwave_state.init
    Globals.init rfl rfl).2.1 (List.replicate 127 0) (List.length_replicate _ _)

theorem spec_url_text_pos (c : Char) (cs : List Char) :
    1 ≤ (spec_url_text (c :: cs)).length := by
  rw [spec_url_text]
  split <;> simp

theorem add_url_string_fits : ∀ (str http : List Char),
    (http ++ spec_url_text str).length ≤ 997 →
    add_url_string 1000 http str = http ++ spec_url_text str := by
  intro str
  induction str with
  | nil => intro http _; simp [add_url_string, spec_url_text]
  | cons e rest ih =>
    intro http h
    have hp := spec_url_text_pos e rest
    rw [List.length_append] at h
    rw [add_url_string, if_pos (by omega), spec_url_text]
    have := ih (http ++ (if e = ' ' then ['%', '2', '0'] else [e])) (by
      rw [spec_url_text] at h
      simp only [List.length_append] at h ⊢
      omega)
    rw [this, List.append_assoc]

theorem add_captures_fits (hexbuff : List Char) (pm : Nat → regmatch_t) :
    ∀ (n j : Nat) (http : List Char),
      (http ++ spec_captures_of hexbuff pm (List.range' j n)).length ≤ 997 →
      add_captures hexbuff pm j n http
        = http ++ spec_captures_of hexbuff pm (List.range' j n) := by
  intro n
  induction n with
  | zero => intro j http _; simp [add_captures, spec_captures_of]
  | succ k ih =>
    intro j http h
    rw [List.range'_succ, spec_captures_of] at h ⊢
    rw [add_captures]
    by_cases hj : (pm j).rm_so ≥ 0
    · rw [if_pos hj] at h ⊢
      rw [if_pos hj]
      have e1 : add_url_string 1000 (http ++ "&C".toList ++ Nat.toDigits 10 j ++ ['='])
          ((hexbuff.drop (pm j).rm_so.toNat).take ((pm j).rm_eo - (pm j).rm_so).toNat)
          = http ++ spec_capture hexbuff pm j := by
        rw [add_url_string_fits _ _ (by
          unfold spec_capture at h
          simp only [List.length_append] at h ⊢
          omega)]
        unfold spec_capture
        simp only [List.append_assoc]
      rw [e1, ih (j + 1) _ (by simpa only [List.append_assoc] using h)]
      simp only [List.append_assoc]
    · rw [if_neg hj] at h ⊢
      rw [if_neg hj]
      simp only [List.nil_append] at h ⊢
      exact ih (j + 1) http h

/-- C22. A rule with a key that is not silent fires on a frame with the
match `pm` (whose slot 0, the whole match, took part), and the request that
the specification gives for it fits the 1000 bytes of the request buffer with
its terminator. Then the request that `send_http` builds is that request:
after the fixed head come, when group 1 took part in the match, one parameter
`&Cj=<text>` for each group `j` in 1..9 that took part, in increasing `j`, and
no `C0`, and otherwise the one parameter `&C0=<text>` of the whole match, each
text being the captured substring of the hex rendering with every space
written `%20`; and the firing appends exactly this request to the queue
history. -/
theorem C22_capture_parameters (E : Env) (send : Bool) (m : monitor) (hexbuff : List Char)
    (pm : Nat → regmatch_t) (s : zwave_state) (g : Globals)
    (h0 : 0 ≤ (pm 0).rm_so) (hk : m.key.head? ≠ some '*')
    (hfit : (spec_request m (if send then "Intercept".toList else "Monitor".toList)
      (E.now_fp_seconds g.clock_reads) hexbuff pm).length < 1000) :
    http_text m (if send then "Intercept".toList else "Monitor".toList)
        (E.now_fp_seconds g.clock_reads) hexbuff (some pm) none
      = spec_request m (if send then "Intercept".toList else "Monitor".toList)
          (E.now_fp_seconds g.clock_reads) hexbuff pm
    ∧ http_history (notify_fire E send hexbuff m pm s g) = http_history g ++
        [spec_request m (if send then "Intercept".toList else "Monitor".toList)
          (E.now_fp_seconds g.clock_reads) hexbuff pm] := by
  have key : http_text m (if send then "Intercept".toList else "Monitor".toList)
        (E.now_fp_seconds g.clock_reads) hexbuff (some pm) none
      = spec_request m (if send then "Intercept".toList else "Monitor".toList)
          (E.now_fp_seconds g.clock_reads) hexbuff pm := by
    unfold spec_request at hfit ⊢
    unfold http_text
    dsimp only
    have ht : (" HTTP/1.1\r\nHost: 127.0.0.1\r\n\r\n".toList).length = 30 := by decide
    rw [List.length_append, ht] at hfit
    unfold spec_capture_params at hfit ⊢
    by_cases h1 : (pm 1).rm_so ≥ 0
    · rw [if_pos h1] at hfit ⊢
      rw [if_neg (by omega)]
      have e : [1, 2, 3, 4, 5, 6, 7, 8, 9] = List.range' 1 9 := by decide
      rw [e] at hfit ⊢
      rw [add_captures_fits hexbuff pm 9 1 _ (by omega)]
    · rw [if_neg h1] at hfit ⊢
      rw [if_pos (by omega)]
      have e : spec_capture hexbuff pm 0 = spec_captures_of hexbuff pm (List.range' 0 1) := by
        simp [List.range', spec_captures_of, h0]
      rw [e] at hfit ⊢
      rw [add_captures_fits hexbuff pm 1 0 _ (by omega)]
  refine ⟨key, ?_⟩
  rw [notify_fire_history E send hexbuff m pm s g hk, key]

set_option maxRecDepth 100000 in
/-- An instance of C22: a monitor rule of key `k1` fires with the groups 1 and
3 present on the rendering `01 05 00 04 00 01 FF`; the request carries
`&C1=05&C3=04` and no `C0`. With no group but the whole match, the request
carries `&C0=01%2005%2000%2004`. -/
theorem C22_witness_groups_and_whole_match :
    http_text s2_rule "Monitor".toList "0.000000".toList "01 05 00 04 00 01 FF".toList
        (some sample_groups) none
      = request_text "Monitor" "k1" "&C1=05&C3=04"
    ∧ http_text s2_rule "Monitor".toList "0.000000".toList "01 05 00 04 00 01 FF".toList
        (some (whole_match 11)) none
      = request_text "Monitor" "k1" "&C0=01%2005%2000%2004" := by
  constructor
  · exact Eq.trans (C22_capture_parameters env_ok false s2_rule "01 05 00 04 00 01 FF".toList
      sample_groups zwave_state.init Globals.init (by decide) (by decide) (by decide)).1
      (by decide)
  · decide

theorem addZwaveResponseData_any (E : Env) (m m0 : monitor) (s : zwave_state)
    (g g0 : Globals) (data : List Nat) (len : Int) :
    (addZwaveResponseData E m s g data len).1 = (addZwaveResponseData E m0 s g0 data len).1
    ∧ (addZwaveResponseData E m s g data len).2.2
        = (addZwaveResponseData E m0 s g0 data len).2.2 := by
  unfold addZwaveResponseData
  split <;> exact ⟨rfl, rfl⟩

theorem response_switch_any (E : Env) (m m0 : monitor) (pm : Nat → regmatch_t)
    (st st0 : ResponseLoop) (val : Nat) (h : same_synthesis st st0) :
    same_synthesis (response_switch E m pm st val) (response_switch E m0 pm st0 val) := by
  obtain ⟨hs, hr, hb, he⟩ := h
  obtain ⟨s, g, rstate, byte, error⟩ := st
  obtain ⟨s0, g0, rstate0, byte0, error0⟩ := st0
  simp only at hs hr hb he
  subst hs hr hb he
  unfold same_synthesis
  rcases rstate with _ | _ | _ | _ | _ | _ | n
  · exact ⟨rfl, rfl, rfl, rfl⟩
  · have := addZwaveResponseData_any E m m0 s g g0 [((byte <<< 4) + val) % 256] 1
    exact ⟨this.1, rfl, rfl, this.2⟩
  · have := addZwaveResponseData_any E m m0 s g g0 [byte] 1
    exact ⟨this.1, rfl, rfl, this.2⟩
  · simp only [response_switch, zero_add, Nat.reduceAdd]
    split
    · simp
    · have := addZwaveResponseData_any E m m0 s g g0
        (s.packet_buff.drop ((pm val).rm_so / 3).toNat)
        ((2 + (pm val).rm_eo - (pm val).rm_so) / 3)
      simp [this.1, this.2]
  · exact ⟨rfl, rfl, rfl, rfl⟩
  · simp only [response_switch, zero_add, Nat.reduceAdd]
    split
    · simp
    · rw [(addZwaveResponseData_any E m m0 _ g g0 _ _).1,
        (addZwaveResponseData_any E m m0 _ g g0 _ _).2]
      simp
  · exact ⟨rfl, rfl, rfl, rfl⟩

theorem response_char_any (E : Env) (m m0 : monitor) (pm : Nat → regmatch_t)
    (st st0 : ResponseLoop) (c : Char) (h : same_synthesis st st0) :
    same_synthesis (response_char E m pm st c) (response_char E m0 pm st0 c) := by
  have hr : st.rstate = st0.rstate := h.2.1
  unfold response_char
  rw [hr]
  repeat' split
  all_goals first
    | exact response_switch_any E m m0 pm _ _ _ h
    | exact h
    | exact response_switch_any E m m0 pm _ _ _ ⟨h.1, rfl, h.2.2.1, h.2.2.2⟩
    | exact ⟨h.1, rfl, h.2.2.1, h.2.2.2⟩
    | exact ⟨h.1, hr, h.2.2.1, rfl⟩
    | exact ⟨h.1, rfl, h.2.2.1, rfl⟩

theorem response_loop_any (E : Env) (m m0 : monitor) (pm : Nat → regmatch_t)
    (r : List Char) : ∀ (st st0 : ResponseLoop), same_synthesis st st0 →
      same_synthesis (response_loop E m pm r st) (response_loop E m0 pm r st0) := by
  induction r with
  | nil => intro st st0 h; exact h
  | cons c r ih =>
    intro st st0 h
    rw [response_loop, response_loop, h.2.2.2]
    split
    · exact h
    · exact ih _ _ (response_char_any E m m0 pm st st0 c h)

theorem synthesize_any (E : Env) (m m0 : monitor) (pm : Nat → regmatch_t) (r : List Char)
    (s : zwave_state) (g g0 : Globals) :
    same_synthesis (synthesize E m pm r s g) (synthesize E m0 pm r s g0) := by
  unfold synthesize
  have h := response_loop_any E m m0 pm r
    { s := { s with
        response_zpos := 0
        response_numParts := 0
        response_partNum := 0
        response_partpos := s.response_partpos.set 0 0
        response_zstate := 0 }, g := g, rstate := 0, byte := 0, error := false }
    { s := { s with
        response_zpos := 0
        response_numParts := 0
        response_partNum := 0
        response_partpos := s.response_partpos.set 0 0
        response_zstate := 0 }, g := g0, rstate := 0, byte := 0, error := false }
    ⟨rfl, rfl, rfl, rfl⟩
  simp only
  rw [h.2.2.2, h.2.1]
  split
  · refine ⟨?_, rfl, ?_, ?_⟩
    · simp only []
      rw [h.1, h.2.2.1]
      exact (addZwaveResponseData_any E m m0 _ _ _ _ _).1
    · exact h.2.2.1
    · simp only []
      rw [h.1, h.2.2.1]
      exact (addZwaveResponseData_any E m m0 _ _ _ _ _).2
  · exact h

theorem synthesize_serial (E : Env) (m : monitor) (pm : Nat → regmatch_t) (r : List Char)
    (s : zwave_state) (g : Globals) :
    (synthesize E m pm r s g).g.serial = g.serial := by
  cases he : (synthesize E m pm r s g).error with
  | false => rw [synthesize_ok E m pm r s g he]
  | true =>
    rcases synthesize_fail_globals E m pm r s g he with e | ⟨msg, _, e⟩
    · rw [e]
    · rw [e, (monitor_error_frame E m msg g).1]

theorem synthesize_silent (E : Env) (m : monitor) (pm : Nat → regmatch_t) (r : List Char)
    (s : zwave_state) (g : Globals) (hk : m.key.head? = some '*') :
    (synthesize E m pm r s g).g = g := by
  cases he : (synthesize E m pm r s g).error with
  | false => exact synthesize_ok E m pm r s g he
  | true =>
    rcases synthesize_fail_globals E m pm r s g he with e | ⟨msg, _, e⟩
    · exact e
    · rw [e, (monitor_error_frame E m msg g).2.2.1 hk]

theorem unkeyed_eq (m m0 : monitor) (h : unkeyed m = unkeyed m0) :
    m0 = { m with key := m0.key } := by
  obtain ⟨d, k, a, b, c, e, f, p, q, r, t⟩ := m
  obtain ⟨d0, k0, a0, b0, c0, e0, f0, p0, q0, r0, t0⟩ := m0
  simp only [unkeyed, monitor.mk.injEq, true_and] at h
  obtain ⟨h1, h2, h3, h4, h5, h6, h7, h8, h9, h10⟩ := h
  subst h1 h2 h3 h4 h5 h6 h7 h8 h9 h10
  rfl

theorem after_fire_unkeyed (m : monitor) (k : List Char) :
    (after_fire { m with key := k }).map unkeyed = (after_fire m).map unkeyed := by
  unfold after_fire
  dsimp only
  split
  · rfl
  · split <;> rfl

theorem scan_monitors_keys (E : Env) (i o : Endpoint) (send : Bool) (hx : List Char) :
    ∀ (ms ms0 : List monitor) (s : zwave_state) (g g0 : Globals),
      ms.map unkeyed = ms0.map unkeyed → g.serial = g0.serial →
      (scan_monitors E i o send hx ms s g).1.map unkeyed
          = (scan_monitors E i o send hx ms0 s g0).1.map unkeyed
      ∧ (scan_monitors E i o send hx ms s g).2.1 = (scan_monitors E i o send hx ms0 s g0).2.1
      ∧ (scan_monitors E i o send hx ms s g).2.2.1.serial
          = (scan_monitors E i o send hx ms0 s g0).2.2.1.serial
      ∧ (scan_monitors E i o send hx ms s g).2.2.2
          = (scan_monitors E i o send hx ms0 s g0).2.2.2 := by
  intro ms
  induction ms with
  | nil =>
    intro ms0 s g g0 hm hser
    have : ms0 = [] := by
      cases ms0 with
      | nil => rfl
      | cons a as => simp at hm
    subst this
    exact ⟨rfl, rfl, hser, rfl⟩
  | cons m rest ih =>
    intro ms0 s g g0 hm hser
    cases ms0 with
    | nil => simp at hm
    | cons m0 rest0 =>
      simp only [List.map_cons, List.cons.injEq] at hm
      obtain ⟨hm1, hm2⟩ := hm
      have hm0 := unkeyed_eq m m0 hm1
      generalize m0.key = k at hm0
      subst hm0
      by_cases hskip : Bool.xor (Bool.xor m.intercept send) m.armed = false
      · rw [scan_skip E i o send hx m rest s g hskip,
          scan_skip E i o send hx { m with key := k } rest0 s g0 hskip]
        obtain ⟨a, b, c, d⟩ := ih rest0 s g g0 hm2 hser
        exact ⟨by simp only [List.map_cons, a]; rfl, b, c, d⟩
      have hx1 : Bool.xor (Bool.xor m.intercept send) m.armed = true := by
        cases h : Bool.xor (Bool.xor m.intercept send) m.armed
        · exact absurd h hskip
        · rfl
      cases hre : (if m.armed then m.pattern else m.arm_pattern).regexec hx with
      | none =>
        rw [scan_nomatch E i o send hx m rest s g hre,
          scan_nomatch E i o send hx { m with key := k } rest0 s g0 hre]
        obtain ⟨a, b, c, d⟩ := ih rest0 s g g0 hm2 hser
        exact ⟨by simp only [List.map_cons, a]; rfl, b, c, d⟩
      | some pm =>
        by_cases ha : m.armed = true
        swap
        · have ha : m.armed = false := by
            cases h : m.armed
            · rfl
            · exact absurd h ha
          rw [ha] at hre hx1
          have hd : m.intercept ≠ send := by
            intro e
            rw [e] at hx1
            simp at hx1
          have hre2 : m.arm_pattern.regexec hx = some pm := hre
          rw [scan_arm E i o send hx m rest s g pm ha hd hre2,
            scan_arm E i o send hx { m with key := k } rest0 s g0 pm ha hd hre2]
          obtain ⟨a, b, c, d⟩ := ih rest0 s g g0 hm2 hser
          exact ⟨by simp only [List.map_cons, a]; rfl, b, c, d⟩
        · rw [ha] at hre hx1
          have hd : m.intercept = send := by
            cases hi : m.intercept <;> cases hs : send <;> simp [hi, hs] at hx1 <;> rfl
          have hre2 : m.pattern.regexec hx = some pm := hre
          rcases Option.eq_none_or_eq_some m.response with hr | ⟨resp, hr⟩
          · rw [scan_fire_plain E i o send hx m rest s g pm ha hd hre2 hr,
              scan_fire_plain E i o send hx { m with key := k } rest0 s g0 pm ha hd hre2 hr]
            obtain ⟨a, b, c, d⟩ := ih rest0 s (notify_fire E send hx m pm s g)
              (notify_fire E send hx { m with key := k } pm s g0) hm2
              (by rw [notify_fire_serial, notify_fire_serial]; exact hser)
            exact ⟨by rw [List.map_append, List.map_append, a, after_fire_unkeyed m k], b, c, d⟩
          · have hany := synthesize_any E m { m with key := k } pm resp s g g0
            have hs1 := synthesize_serial E m pm resp s g
            have hs2 := synthesize_serial E { m with key := k } pm resp s g0
            cases he : (synthesize E m pm resp s g).error with
            | true =>
              have he0 : (synthesize E { m with key := k } pm resp s g0).error = true :=
                hany.2.2.2.symm.trans he
              rw [scan_fire_error E i o send hx m rest s g pm resp ha hd hre2 hr he,
                scan_fire_error E i o send hx { m with key := k } rest0 s g0 pm resp ha hd
                  hre2 hr he0]
              refine ⟨by simp only [List.map_cons, hm2]; rfl, hany.1, ?_, rfl⟩
              dsimp only
              rw [hs1, hs2, hser]
            | false =>
              have he0 : (synthesize E { m with key := k } pm resp s g0).error = false :=
                hany.2.2.2.symm.trans he
              rw [scan_fire_response E i o send hx m rest s g pm resp ha hd hre2 hr he,
                scan_fire_response E i o send hx { m with key := k } rest0 s g0 pm resp ha hd
                  hre2 hr he0]
              have hst : (synthesize E { m with key := k } pm resp s g0).s
                  = (synthesize E m pm resp s g).s := hany.1.symm
              dsimp only
              rw [hst]
              have r1 := respond_eq (if m.forward then o else i) (synthesize E m pm resp s g).s
                (synthesize E m pm resp s g).g (synthesize E m pm resp s g).g
              have r2 := respond_eq (if m.forward then o else i) (synthesize E m pm resp s g).s
                (synthesize E { m with key := k } pm resp s g0).g (synthesize E m pm resp s g).g
              refine ⟨by rw [List.map_append, List.map_append, hm2, after_fire_unkeyed m k],
                r2.1.symm, ?_, rfl⟩
              rw [notify_fire_serial, notify_fire_serial, r1.2, r2.2]
              dsimp only
              rw [hs1, hs2, hser]

theorem frame_complete_keys (E : Env) (i o : Endpoint) (send : Bool) (s : zwave_state)
    (g g0 : Globals) (len : Nat) (h : same_rules g g0) :
    (frame_complete E i o send s g len).1 = (frame_complete E i o send s g0 len).1
    ∧ same_rules (frame_complete E i o send s g len).2 (frame_complete E i o send s g0 len).2 := by
  obtain ⟨a, b, c, d⟩ := scan_monitors_keys E i o send (hexbuff s.packet_buff len)
    g.monitors g0.monitors s g g0 h.1 h.2
  unfold frame_complete same_rules
  by_cases hc : s.checksum = 0
  · rw [if_pos hc, if_pos hc]
    dsimp only
    rw [← d]
    by_cases hi : (scan_monitors E i o send (hexbuff s.packet_buff len) g.monitors s g).2.2.2
        = true
    · simp only [hi, Bool.not_true, Bool.false_eq_true, if_false]
      exact ⟨b, a, c⟩
    · simp only [hi, Bool.not_false, if_true]
      refine ⟨b, a, ?_⟩
      rw [b, c]
  · rw [if_neg hc, if_neg hc]
    exact ⟨rfl, h.1, by simp only; rw [h.2]⟩

theorem frame_byte_keys (E : Env) (i o : Endpoint) (send : Bool) (s : zwave_state)
    (g g0 : Globals) (p : List Nat) (c : Nat) (h : same_rules g g0) :
    (frame_byte E i o send { s := s, g := g, pending := p } c).s
        = (frame_byte E i o send { s := s, g := g0, pending := p } c).s
    ∧ (frame_byte E i o send { s := s, g := g, pending := p } c).pending
        = (frame_byte E i o send { s := s, g := g0, pending := p } c).pending
    ∧ same_rules (frame_byte E i o send { s := s, g := g, pending := p } c).g
        (frame_byte E i o send { s := s, g := g0, pending := p } c).g := by
  unfold frame_byte
  dsimp only
  by_cases h0 : s.state = 0
  · rw [if_pos h0, if_pos h0]
    by_cases h1 : c = 1
    · rw [if_pos h1, if_pos h1]
      by_cases h2 : p.length > 1
      · rw [if_pos h2, if_pos h2]
        exact ⟨rfl, rfl, h.1, by simp only; rw [h.2]⟩
      · rw [if_neg h2, if_neg h2]
        exact ⟨rfl, rfl, h⟩
    · rw [if_neg h1, if_neg h1]
      exact ⟨rfl, rfl, h⟩
  · rw [if_neg h0, if_neg h0]
    by_cases h1 : s.state = 1
    · rw [if_pos h1, if_pos h1]
      by_cases h2 : c ≥ MAX_ZWAVE_BUFF_SIZE
      · rw [if_pos h2, if_pos h2]
        exact ⟨rfl, rfl, h⟩
      · rw [if_neg h2, if_neg h2]
        exact ⟨rfl, rfl, h⟩
    · rw [if_neg h1, if_neg h1]
      by_cases h2 : s.state = (s.packet_buff.set s.state c).getD 1 0 + 2 - 1
      · rw [if_pos h2, if_pos h2]
        have := frame_complete_keys E i o send
          { s with
            packet_buff := s.packet_buff.set s.state c
            checksum := s.checksum ^^^ c } g g0
          ((s.packet_buff.set s.state c).getD 1 0 + 2) h
        exact ⟨by simp only; rw [this.1], rfl, this.2⟩
      · rw [if_neg h2, if_neg h2]
        exact ⟨rfl, rfl, h⟩

theorem process_byte_keys (E : Env) (i o : Endpoint) (send : Bool) (s : zwave_state)
    (g g0 : Globals) (p : List Nat) (c : Nat) (h : same_rules g g0) :
    (process_byte E i o send { s := s, g := g, pending := p } c).s
        = (process_byte E i o send { s := s, g := g0, pending := p } c).s
    ∧ (process_byte E i o send { s := s, g := g, pending := p } c).pending
        = (process_byte E i o send { s := s, g := g0, pending := p } c).pending
    ∧ same_rules (process_byte E i o send { s := s, g := g, pending := p } c).g
        (process_byte E i o send { s := s, g := g0, pending := p } c).g := by
  unfold process_byte
  dsimp only
  by_cases h0 : send = true ∧ s.response_partNum < s.response_numParts ∧ s.state = 0
  · rw [if_pos h0, if_pos h0]
    by_cases h1 : c = 6
    · rw [if_pos h1, if_pos h1]
      by_cases h2 : s.response_partNum + 1 < s.response_numParts
      · rw [if_pos h2, if_pos h2]
        exact ⟨rfl, rfl, h.1, by simp only; rw [h.2]⟩
      · rw [if_neg h2, if_neg h2]
        refine ⟨rfl, rfl, ?_, ?_⟩
        · simp only
          rw [(DequeueHTTPData_frame E _).2.1, (DequeueHTTPData_frame E _).2.1]
          exact h.1
        · simp only
          rw [(DequeueHTTPData_frame E _).1, (DequeueHTTPData_frame E _).1]
          exact h.2
    · rw [if_neg h1, if_neg h1]
      exact frame_byte_keys E i o send _ g g0 _ c h
  · rw [if_neg h0, if_neg h0]
    exact frame_byte_keys E i o send _ g g0 _ c h

theorem byte_loop_keys (E : Env) (i o : Endpoint) (send : Bool) :
    ∀ (raw : List Nat) (s : zwave_state) (g g0 : Globals) (p : List Nat), same_rules g g0 →
      (raw.foldl (process_byte E i o send) { s := s, g := g, pending := p }).s
          = (raw.foldl (process_byte E i o send) { s := s, g := g0, pending := p }).s
      ∧ (raw.foldl (process_byte E i o send) { s := s, g := g, pending := p }).pending
          = (raw.foldl (process_byte E i o send) { s := s, g := g0, pending := p }).pending
      ∧ same_rules (raw.foldl (process_byte E i o send) { s := s, g := g, pending := p }).g
          (raw.foldl (process_byte E i o send) { s := s, g := g0, pending := p }).g := by
  intro raw
  induction raw with
  | nil => intro s g g0 p h; exact ⟨rfl, rfl, h⟩
  | cons c cs ih =>
    intro s g g0 p h
    obtain ⟨a, b, d⟩ := process_byte_keys E i o send s g g0 p c h
    rw [List.foldl_cons, List.foldl_cons]
    have e1 : process_byte E i o send { s := s, g := g, pending := p } c
        = { s := (process_byte E i o send { s := s, g := g, pending := p } c).s
            g := (process_byte E i o send { s := s, g := g, pending := p } c).g
            pending := (process_byte E i o send { s := s, g := g, pending := p } c).pending } :=
      rfl
    have e2 : process_byte E i o send { s := s, g := g0, pending := p } c
        = { s := (process_byte E i o send { s := s, g := g, pending := p } c).s
            g := (process_byte E i o send { s := s, g := g0, pending := p } c).g
            pending := (process_byte E i o send { s := s, g := g, pending := p } c).pending } := by
      rw [a, b]
    rw [e1, e2]
    exact ih _ _ _ _ d

theorem process_zwave_keys (E : Env) (i o : Endpoint) (send : Bool) (s : zwave_state)
    (g g0 : Globals) (raw : List Nat) (h : same_rules g g0) :
    (process_zwave E i o send s g raw).1 = (process_zwave E i o send s g0 raw).1
    ∧ same_rules (process_zwave E i o send s g raw).2 (process_zwave E i o send s g0 raw).2 := by
  obtain ⟨a, b, d⟩ := byte_loop_keys E i o send raw s g g0 [] h
  unfold process_zwave
  dsimp only
  rw [← a, ← b]
  by_cases hc : (raw.foldl (process_byte E i o send) { s := s, g := g, pending := [] }).s.state
      = 0 ∧ (raw.foldl (process_byte E i o send) { s := s, g := g, pending := [] }).pending ≠ []
  · rw [if_pos hc, if_pos hc]
    exact ⟨rfl, d.1, by simp only; rw [d.2]⟩
  · rw [if_neg hc, if_neg hc]
    exact ⟨rfl, d⟩

theorem send_http_silent (E : Env) (m : monitor) (command hexbuff : List Char)
    (pm : Option (Nat → regmatch_t)) (err : Option (List Char)) (g : Globals)
    (hk : m.key.head? = some '*') :
    send_http E m command hexbuff pm err g = g := by
  unfold send_http
  rw [if_pos hk]

theorem notify_fire_silent (E : Env) (send : Bool) (hx : List Char) (m : monitor)
    (pm : Nat → regmatch_t) (s : zwave_state) (g : Globals) (hk : m.key.head? = some '*') :
    notify_fire E send hx m pm s g
      = if send && decide (s.response_numParts > 0) then { g with http_holdoff := true }
        else g := by
  unfold notify_fire
  rw [send_http_silent E m _ _ _ _ _ hk]

theorem notify_fire_silent_history (E : Env) (send : Bool) (hx : List Char) (m : monitor)
    (pm : Nat → regmatch_t) (s : zwave_state) (g : Globals) (hk : m.key.head? = some '*') :
    http_history (notify_fire E send hx m pm s g) = http_history g := by
  rw [notify_fire_silent E send hx m pm s g hk]
  split <;> rfl

theorem disarmed_key (m m0 : monitor) (h : disarmed m = disarmed m0) : m.key = m0.key :=
  (congrArg monitor.key h : (disarmed m).key = (disarmed m0).key)

theorem sublist_silent (ms ms0 : List monitor)
    (h : List.Sublist (ms.map disarmed) (ms0.map disarmed)) (hs : all_silent ms0) :
    all_silent ms := by
  intro m hm
  have h1 : disarmed m ∈ ms0.map disarmed := h.subset (List.mem_map_of_mem disarmed hm)
  obtain ⟨m0, hm0, e⟩ := List.mem_map.mp h1
  rw [← disarmed_key m0 m e]
  exact hs m0 hm0

theorem scan_silent_rules (E : Env) (i o : Endpoint) (send : Bool) (hx : List Char)
    (ms : List monitor) (s : zwave_state) (g : Globals) (hs : all_silent ms) :
    all_silent (scan_monitors E i o send hx ms s g).1 :=
  sublist_silent _ _ (scan_sublist E i o send hx ms s g) hs

theorem scan_silent_history (E : Env) (i o : Endpoint) (send : Bool) (hx : List Char) :
    ∀ (ms : List monitor) (s : zwave_state) (g : Globals), all_silent ms →
      http_history (scan_monitors E i o send hx ms s g).2.2.1 = http_history g := by
  intro ms
  induction ms with
  | nil => intro s g _; rfl
  | cons m rest ih =>
    intro s g hs
    have hk : m.key.head? = some '*' := hs m (List.mem_cons_self _ _)
    have hrest : all_silent rest := fun r hr => hs r (List.mem_cons_of_mem _ hr)
    by_cases hskip : Bool.xor (Bool.xor m.intercept send) m.armed = false
    · rw [scan_skip E i o send hx m rest s g hskip]
      exact ih s g hrest
    have hx1 : Bool.xor (Bool.xor m.intercept send) m.armed = true := by
      cases h : Bool.xor (Bool.xor m.intercept send) m.armed
      · exact absurd h hskip
      · rfl
    cases hre : (if m.armed then m.pattern else m.arm_pattern).regexec hx with
    | none =>
      rw [scan_nomatch E i o send hx m rest s g hre]
      exact ih s g hrest
    | some pm =>
      by_cases ha : m.armed = true
      swap
      · have ha : m.armed = false := by
          cases h : m.armed
          · rfl
          · exact absurd h ha
        rw [ha] at hre hx1
        have hd : m.intercept ≠ send := by
          intro e
          rw [e] at hx1
          simp at hx1
        have hre2 : m.arm_pattern.regexec hx = some pm := hre
        rw [scan_arm E i o send hx m rest s g pm ha hd hre2]
        exact ih s g hrest
      · rw [ha] at hre hx1
        have hd : m.intercept = send := by
          cases hi : m.intercept <;> cases hs : send <;> simp [hi, hs] at hx1 <;> rfl
        have hre2 : m.pattern.regexec hx = some pm := hre
        rcases Option.eq_none_or_eq_some m.response with hr | ⟨resp, hr⟩
        · rw [scan_fire_plain E i o send hx m rest s g pm ha hd hre2 hr]
          exact (ih s _ hrest).trans (notify_fire_silent_history E send hx m pm s g hk)
        · have hg := synthesize_silent E m pm resp s g hk
          cases he : (synthesize E m pm resp s g).error with
          | true =>
            rw [scan_fire_error E i o send hx m rest s g pm resp ha hd hre2 hr he]
            dsimp only
            rw [hg]
          | false =>
            rw [scan_fire_response E i o send hx m rest s g pm resp ha hd hre2 hr he]
            dsimp only
            rw [notify_fire_silent_history E send hx m pm _ _ hk, hg]
            rfl

theorem frame_complete_silent (E : Env) (i o : Endpoint) (send : Bool) (s : zwave_state)
    (g : Globals) (len : Nat) (hs : all_silent g.monitors) :
    all_silent (frame_complete E i o send s g len).2.monitors
    ∧ http_history (frame_complete E i o send s g len).2 = http_history g := by
  have a := scan_silent_rules E i o send (hexbuff s.packet_buff len) g.monitors s g hs
  have b := scan_silent_history E i o send (hexbuff s.packet_buff len) g.monitors s g hs
  unfold frame_complete
  by_cases hc : s.checksum = 0
  · rw [if_pos hc]
    dsimp only
    by_cases hi : (scan_monitors E i o send (hexbuff s.packet_buff len) g.monitors s g).2.2.2
        = true
    · simp only [hi, Bool.not_true, Bool.false_eq_true, if_false]
      exact ⟨a, b⟩
    · simp only [hi, Bool.not_false, if_true]
      exact ⟨a, b⟩
  · rw [if_neg hc]
    exact ⟨hs, rfl⟩

theorem frame_byte_silent (E : Env) (i o : Endpoint) (send : Bool) (l : ByteLoop) (c : Nat)
    (hs : all_silent l.g.monitors) :
    all_silent (frame_byte E i o send l c).g.monitors
    ∧ http_history (frame_byte E i o send l c).g = http_history l.g := by
  unfold frame_byte
  dsimp only
  by_cases h0 : l.s.state = 0
  · rw [if_pos h0]
    by_cases h1 : c = 1
    · rw [if_pos h1]
      by_cases h2 : l.pending.length > 1
      · rw [if_pos h2]
        exact ⟨hs, rfl⟩
      · rw [if_neg h2]
        exact ⟨hs, rfl⟩
    · rw [if_neg h1]
      exact ⟨hs, rfl⟩
  · rw [if_neg h0]
    by_cases h1 : l.s.state = 1
    · rw [if_pos h1]
      by_cases h2 : c ≥ MAX_ZWAVE_BUFF_SIZE
      · rw [if_pos h2]
        exact ⟨hs, rfl⟩
      · rw [if_neg h2]
        exact ⟨hs, rfl⟩
    · rw [if_neg h1]
      by_cases h2 : l.s.state = (l.s.packet_buff.set l.s.state c).getD 1 0 + 2 - 1
      · rw [if_pos h2]
        exact frame_complete_silent E i o send _ l.g _ hs
      · rw [if_neg h2]
        exact ⟨hs, rfl⟩

theorem process_byte_silent (E : Env) (i o : Endpoint) (send : Bool) (l : ByteLoop) (c : Nat)
    (hs : all_silent l.g.monitors) :
    all_silent (process_byte E i o send l c).g.monitors
    ∧ http_history (process_byte E i o send l c).g = http_history l.g := by
  unfold process_byte
  dsimp only
  by_cases h0 : send = true ∧ l.s.response_partNum < l.s.response_numParts ∧ l.s.state = 0
  · rw [if_pos h0]
    by_cases h1 : c = 6
    · rw [if_pos h1]
      by_cases h2 : l.s.response_partNum + 1 < l.s.response_numParts
      · rw [if_pos h2]
        exact ⟨hs, rfl⟩
      · rw [if_neg h2]
        refine ⟨?_, ?_⟩
        · simp only
          rw [DequeueHTTPData_monitors]
          exact hs
        · simp only
          rw [DequeueHTTPData_history]
          rfl
    · rw [if_neg h1]
      exact frame_byte_silent E i o send _ c hs
  · rw [if_neg h0]
    exact frame_byte_silent E i o send _ c hs

theorem byte_loop_silent (E : Env) (i o : Endpoint) (send : Bool) :
    ∀ (raw : List Nat) (l : ByteLoop), all_silent l.g.monitors →
      all_silent (raw.foldl (process_byte E i o send) l).g.monitors
      ∧ http_history (raw.foldl (process_byte E i o send) l).g = http_history l.g := by
  intro raw
  induction raw with
  | nil => intro l hs; exact ⟨hs, rfl⟩
  | cons c cs ih =>
    intro l hs
    obtain ⟨a, b⟩ := process_byte_silent E i o send l c hs
    rw [List.foldl_cons]
    exact ⟨(ih _ a).1, (ih _ a).2.trans b⟩

theorem process_zwave_silent (E : Env) (i o : Endpoint) (send : Bool) (s : zwave_state)
    (g : Globals) (raw : List Nat) (hs : all_silent g.monitors) :
    all_silent (process_zwave E i o send s g raw).2.monitors
    ∧ http_history (process_zwave E i o send s g raw).2 = http_history g := by
  obtain ⟨a, b⟩ := byte_loop_silent E i o send raw { s := s, g := g, pending := [] } hs
  unfold process_zwave
  dsimp only
  split
  · exact ⟨a, b⟩
  · exact ⟨a, b⟩

theorem expire_loop_silent (E : Env) (now : Int) : ∀ (ms : List monitor) (g : Globals),
    all_silent ms →
      (expire_loop E now ms g).2 = g ∧ all_silent (expire_loop E now ms g).1 := by
  intro ms
  induction ms with
  | nil => intro g hs; exact ⟨rfl, hs⟩
  | cons m rest ih =>
    intro g hs
    have hk : m.key.head? = some '*' := hs m (List.mem_cons_self _ _)
    have hrest : all_silent rest := fun r hr => hs r (List.mem_cons_of_mem _ hr)
    unfold expire_loop
    by_cases h : expired now m = true
    · rw [if_pos h, send_http_silent E m _ _ _ _ _ hk]
      exact ih g hrest
    · rw [if_neg h]
      exact ⟨rfl, hs⟩

theorem expire_monitors_silent (E : Env) (now : Int) (g : Globals)
    (hs : all_silent g.monitors) :
    all_silent (expire_monitors E now g).monitors
    ∧ http_history (expire_monitors E now g) = http_history g := by
  obtain ⟨a, b⟩ := expire_loop_silent E now g.monitors g hs
  unfold expire_monitors
  refine ⟨b, ?_⟩
  rw [a]
  rfl

theorem serve_endpoints_silent (E : Env) (w : Wake) (e : Engine)
    (hs : all_silent e.g.monitors) :
    all_silent (serve_endpoints E w e).g.monitors
    ∧ http_history (serve_endpoints E w e).g = http_history e.g := by
  have h1 : all_silent
      (match w.host with
        | some raw => host_readable E e.send_state e.g raw
        | none => (e.send_state, e.g)).2.monitors
      ∧ http_history
        (match w.host with
          | some raw => host_readable E e.send_state e.g raw
          | none => (e.send_state, e.g)).2 = http_history e.g := by
    cases w.host with
    | none => exact ⟨hs, rfl⟩
    | some raw =>
      exact process_zwave_silent E Endpoint.host Endpoint.controller true e.send_state e.g
        raw hs
  have h2 : ∀ (g1 : Globals), all_silent g1.monitors →
      all_silent
        (match w.controller with
          | some raw => controller_readable E e.receive_state g1 raw
          | none => (e.receive_state, g1)).2.monitors
      ∧ http_history
        (match w.controller with
          | some raw => controller_readable E e.receive_state g1 raw
          | none => (e.receive_state, g1)).2 = http_history g1 := by
    intro g1 hg1
    cases w.controller with
    | none => exact ⟨hg1, rfl⟩
    | some raw =>
      exact process_zwave_silent E Endpoint.controller Endpoint.host false e.receive_state g1
        raw hg1
  have h3 : ∀ (g1 : Globals), all_silent g1.monitors →
      all_silent (if w.http then http_readable E g1 else g1).monitors
      ∧ http_history (if w.http then http_readable E g1 else g1) = http_history g1 := by
    intro g1 hg1
    by_cases hh : w.http = true
    · rw [if_pos hh]
      unfold http_readable
      rw [DequeueHTTPData_monitors, DequeueHTTPData_history]
      exact ⟨hg1, rfl⟩
    · rw [if_neg hh]
      exact ⟨hg1, rfl⟩
  have h4 := h2 _ h1.1
  have h5 := h3 _ h4.1
  exact ⟨h5.1, h5.2.trans (h4.2.trans h1.2)⟩

theorem zwint_wake_silent (E : Env) (w : Wake) (e : Engine) (hs : all_silent e.g.monitors) :
    all_silent (zwint_wake E w e).g.monitors
    ∧ http_history (zwint_wake E w e).g = http_history e.g := by
  unfold zwint_wake
  by_cases hr : e.g.registered ≤ 0
  · rw [if_pos hr]
    exact ⟨hs, rfl⟩
  · rw [if_neg hr]
    obtain ⟨a0, b0⟩ := expire_monitors_silent E w.now e.g hs
    have := serve_endpoints_silent E w { e with g := expire_monitors E w.now e.g } a0
    exact ⟨this.1, this.2.trans b0⟩

theorem run_wakes_silent (E : Env) : ∀ (ws : List Wake) (e : Engine),
    all_silent e.g.monitors →
      all_silent (run_wakes E ws e).g.monitors
      ∧ http_history (run_wakes E ws e).g = http_history e.g := by
  intro ws
  induction ws with
  | nil => intro e hs; exact ⟨hs, rfl⟩
  | cons w ws ih =>
    intro e hs
    obtain ⟨a, b⟩ := zwint_wake_silent E w e hs
    unfold run_wakes
    rw [List.foldl_cons]
    exact ⟨(ih _ a).1, (ih _ a).2.trans b⟩

theorem expire_loop_keys (E : Env) (now : Int) : ∀ (ms ms0 : List monitor) (g g0 : Globals),
    ms.map unkeyed = ms0.map unkeyed → g.serial = g0.serial →
      (expire_loop E now ms g).1.map unkeyed = (expire_loop E now ms0 g0).1.map unkeyed
      ∧ (expire_loop E now ms g).2.serial = (expire_loop E now ms0 g0).2.serial := by
  intro ms
  induction ms with
  | nil =>
    intro ms0 g g0 hm hser
    have : ms0 = [] := by
      cases ms0 with
      | nil => rfl
      | cons a as => simp at hm
    subst this
    exact ⟨rfl, hser⟩
  | cons m rest ih =>
    intro ms0 g g0 hm hser
    cases ms0 with
    | nil => simp at hm
    | cons m0 rest0 =>
      simp only [List.map_cons, List.cons.injEq] at hm
      obtain ⟨hm1, hm2⟩ := hm
      have ht : m.timeout = m0.timeout :=
        (congrArg monitor.timeout hm1 : (unkeyed m).timeout = (unkeyed m0).timeout)
      have hex : expired now m0 = expired now m := by
        unfold expired
        rw [ht]
      unfold expire_loop
      rw [hex]
      by_cases h : expired now m = true
      · rw [if_pos h, if_pos h]
        exact ih rest0 _ _ hm2
          (by rw [(send_http_frame E m _ _ _ _ g).1, (send_http_frame E m0 _ _ _ _ g0).1]
              exact hser)
      · rw [if_neg h, if_neg h]
        exact ⟨by simp only [List.map_cons, hm1, hm2], hser⟩

theorem expire_monitors_keys (E : Env) (now : Int) (g g0 : Globals) (h : same_rules g g0) :
    same_rules (expire_monitors E now g) (expire_monitors E now g0) := by
  obtain ⟨a, b⟩ := expire_loop_keys E now g.monitors g0.monitors g g0 h.1 h.2
  unfold expire_monitors same_rules
  exact ⟨a, b⟩

theorem same_rules_rekey (pre post : List monitor) (m : monitor) (k : List Char)
    (g : Globals) :
    same_rules { g with monitors := pre ++ m :: post }
      { g with monitors := pre ++ { m with key := k } :: post } := by
  unfold same_rules
  refine ⟨?_, rfl⟩
  simp only [List.map_append, List.map_cons]
  rfl

/-! ## Silent rules -/

/-- C21. For a rule `m` whose key begins with `*`: `send_http` called for `m`
returns the globals unchanged whatever the command (`Monitor`, `Intercept`,
`Timeout`, `Error`) and its other arguments, so the queue of requests is left
unchanged; `monitor_error` does the same; the notification step of a firing of
`m` changes neither the queue nor what was handed to the HTTP socket nor the
clock reads; the expiry loop deletes an expired `m` at the head of the list and
goes on with the same globals; and over any number of wakes of the worker
thread, with any chunks read from host and controller and any expiries, a rule
list that holds `m` and other silent rules only never adds a request to those
that entered the queue before. The other effects do not depend on the key:
when `m` anywhere in the rule list is replaced by the same rule with any other
key `k`, every chunk read by `process_zwave` leaves the same scanner state, the
same bytes written to the serial endpoints, and the same rules in the list up
to their keys (so the same arming, response injection and oneshot deletion),
and the expiry step leaves the same rules up to their keys and the same serial
output. -/
theorem C21_silent_rule_enqueues_nothing (E : Env) (m : monitor)
    (hk : m.key.head? = some '*') :
    (∀ (command hexbuff : List Char) (pm : Option (Nat → regmatch_t))
        (err : Option (List Char)) (g : Globals),
        send_http E m command hexbuff pm err g = g)
    ∧ (∀ (msg : List Char) (g : Globals), monitor_error E m msg g = g)
    ∧ (∀ (send : Bool) (hx : List Char) (pm : Nat → regmatch_t) (s : zwave_state)
        (g : Globals),
        (notify_fire E send hx m pm s g).requests = g.requests
        ∧ (notify_fire E send hx m pm s g).http_sink = g.http_sink
        ∧ (notify_fire E send hx m pm s g).clock_reads = g.clock_reads)
    ∧ (∀ (now : Int) (rest : List monitor) (g : Globals), expired now m = true →
        expire_loop E now (m :: rest) g = expire_loop E now rest g)
    ∧ (∀ (ws : List Wake) (e : Engine),
        (∀ r ∈ e.g.monitors, r = m ∨ r.key.head? = some '*') →
        http_history (run_wakes E ws e).g = http_history e.g)
    ∧ (∀ (i o : Endpoint) (send : Bool) (s : zwave_state) (g : Globals) (raw : List Nat)
        (pre post : List monitor) (k : List Char),
        (process_zwave E i o send s { g with monitors := pre ++ m :: post } raw).1
          = (process_zwave E i o send s
              { g with monitors := pre ++ { m with key := k } :: post } raw).1
        ∧ same_rules
            (process_zwave E i o send s { g with monitors := pre ++ m :: post } raw).2
            (process_zwave E i o send s
              { g with monitors := pre ++ { m with key := k } :: post } raw).2)
    ∧ (∀ (now : Int) (g : Globals) (pre post : List monitor) (k : List Char),
        same_rules (expire_monitors E now { g with monitors := pre ++ m :: post })
          (expire_monitors E now
            { g with monitors := pre ++ { m with key := k } :: post })) := by
  refine ⟨?_, ?_, ?_, ?_, ?_, ?_, ?_⟩
  · intro command hexbuff pm err g
    exact send_http_silent E m command hexbuff pm err g hk
  · intro msg g
    exact (monitor_error_frame E m msg g).2.2.1 hk
  · intro send hx pm s g
    rw [notify_fire_silent E send hx m pm s g hk]
    split
    · exact ⟨rfl, rfl, rfl⟩
    · exact ⟨rfl, rfl, rfl⟩
  · intro now rest g hx
    rw [expire_loop, if_pos hx, send_http_silent E m _ _ _ _ g hk]
  · intro ws e hs
    refine (run_wakes_silent E ws e ?_).2
    intro r hr
    rcases hs r hr with h | h
    · rw [h]; exact hk
    · exact h
  · intro i o send s g raw pre post k
    exact process_zwave_keys E i o send s _ _ raw (same_rules_rekey pre post m k g)
  · intro now g pre post k
    exact expire_monitors_keys E now _ _ (same_rules_rekey pre post m k g)

set_option maxRecDepth 100000 in
theorem silent_rule_fires_twice :
    (run_wakes env_ok two_host_frames silent_engine).g.serial
        = [(Endpoint.host, [6]), (Endpoint.host, [6])]
    ∧ (run_wakes env_ok two_host_frames silent_engine).g.monitors.map monitor.key
        = ["*q".toList] := by
  decide

/-- An instance of C21: the host sends the frame `01 04 00 13 05 ED` twice, in
two wakes, to a rule list that holds only the silent rule `silent_rule`, which
answers it both times; nothing enters the queue of requests. -/
theorem C21_witness_silent_intercept :
    http_history (run_wakes env_ok two_host_frames silent_engine).g = [] :=
  (C21_silent_rule_enqueues_nothing env_ok silent_rule rfl).2.2.2.2.1 _ _
    (fun _ hr => Or.inl (List.mem_singleton.mp hr))

end ZwInt
